import Mathlib

/-!
Particle state stores and integrators of the particle-advection worklet

A shallow embedding of `vtkm/worklet/particleadvection/Particles.h` (the status flags, the
base store `Particles`, the recording store `StateRecordingParticles` and the windowed store
`StateRecordingParticlesRound`) and of `vtkm/worklet/particleadvection/Integrators.h` (the
Euler and RK4 `CheckStep`, `Step` and `SmallStep`), followed by the dispatch of
`vtkm/filter/flow/ParticleAdvector.h`, the voxel functions of `vtkc/Voxel.h` and the index
computations and bounds checks of `vtkm/worklet/ExtractStructured.h`.

Modelling conventions
* `vtkm::Id` is a signed machine integer.  It is modelled by `Int`; the bit
  operations `|`, `&`, `~` are the two's-complement operations `Int.lor`,
  `Int.land`, `Int.lnot`, which never overflow.  `nSteps + 1` is integer
  addition: signed overflow has no defined behaviour in the source language.
* An array portal (`Get`/`Set` by index) is a function from indices to values;
  `Set` is a pointwise update.  The extent of the underlying array is a caller
  obligation in the source and is not part of the portal model.
* A method that mutates the store is a function from the store before the call
  to the store after it.
-/

namespace vtkm.worklet.particleadvection

/-- The type `vtkm::Id`. -/
abbrev Id := Int

/-- The type `vtkm::Vec<T, 3>`. -/
structure Vec3 (T : Type) where
  x : T
  y : T
  z : T
  deriving DecidableEq, Repr

/-- The enumeration `ParticleStatus`. -/
inductive ParticleStatus where
  | STATUS_OK
  | TERMINATED
  | EXITED_SPATIAL_BOUNDARY
  | EXITED_TEMPORAL_BOUNDARY
  | STATUS_ERROR
  deriving DecidableEq, Repr

/-- The enumerator values of `ParticleStatus`. -/
def ParticleStatus.toId : ParticleStatus → Id
  | .STATUS_OK => 0x0001
  | .TERMINATED => 0x0002
  | .EXITED_SPATIAL_BOUNDARY => 0x0004
  | .EXITED_TEMPORAL_BOUNDARY => 0x0008
  | .STATUS_ERROR => 0x0010

/-- The position of the single bit of each enumerator (used to state properties only). -/
def ParticleStatus.bitIndex : ParticleStatus → Nat
  | .STATUS_OK => 0
  | .TERMINATED => 1
  | .EXITED_SPATIAL_BOUNDARY => 2
  | .EXITED_TEMPORAL_BOUNDARY => 3
  | .STATUS_ERROR => 4

/-- Portal `Set(idx, v)`: pointwise update. -/
def portalSet {α : Type} (p : Id → α) (idx : Id) (v : α) : Id → α :=
  fun j => if j = idx then v else p j

/-- The class `Particles<T, DeviceAdapterTag>`: three portals and the step budget. -/
structure Particles (T : Type) where
  pos : Id → Vec3 T
  steps : Id → Id
  status : Id → Id
  maxSteps : Id

namespace Particles

variable {T : Type}

/-- Method `Clear(idx)`: `status.Set(idx, 0)`. -/
def Clear (s : Particles T) (idx : Id) : Particles T :=
  { s with status := portalSet s.status idx 0 }

/-- Method `SetBit(idx, b)`: `status.Set(idx, status.Get(idx) | b)`. -/
def SetBit (s : Particles T) (idx : Id) (b : ParticleStatus) : Particles T :=
  { s with status := portalSet s.status idx (Int.lor (s.status idx) b.toId) }

/-- Method `ClearBit(idx, b)`: `status.Set(idx, status.Get(idx) & ~b)`. -/
def ClearBit (s : Particles T) (idx : Id) (b : ParticleStatus) : Particles T :=
  { s with status := portalSet s.status idx (Int.land (s.status idx) (Int.lnot b.toId)) }

/-- Method `CheckBit(idx, b)`: `(status.Get(idx) & b) != 0`. -/
def CheckBit (s : Particles T) (idx : Id) (b : ParticleStatus) : Bool :=
  Int.land (s.status idx) b.toId != 0

/-- Method `SetOK(idx)`: `Clear(idx); status.Set(idx, STATUS_OK)`. -/
def SetOK (s : Particles T) (idx : Id) : Particles T :=
  let s1 := s.Clear idx
  { s1 with status := portalSet s1.status idx ParticleStatus.STATUS_OK.toId }

/-- Method `SetTerminated(idx)`: `ClearBit(idx, STATUS_OK); SetBit(idx, TERMINATED)`. -/
def SetTerminated (s : Particles T) (idx : Id) : Particles T :=
  (s.ClearBit idx .STATUS_OK).SetBit idx .TERMINATED

/-- Method `SetExitedSpatialBoundary(idx)`: `SetBit(idx, EXITED_SPATIAL_BOUNDARY)`. -/
def SetExitedSpatialBoundary (s : Particles T) (idx : Id) : Particles T :=
  s.SetBit idx .EXITED_SPATIAL_BOUNDARY

/-- Method `SetExitedTemporalBoundary(idx)`: `SetBit(idx, EXITED_TEMPORAL_BOUNDARY)`. -/
def SetExitedTemporalBoundary (s : Particles T) (idx : Id) : Particles T :=
  s.SetBit idx .EXITED_TEMPORAL_BOUNDARY

/-- Method `SetError(idx)`: `ClearBit(idx, STATUS_OK); SetBit(idx, STATUS_ERROR)`. -/
def SetError (s : Particles T) (idx : Id) : Particles T :=
  (s.ClearBit idx .STATUS_OK).SetBit idx .STATUS_ERROR

/-- Method `OK(idx)`. -/
def OK (s : Particles T) (idx : Id) : Bool := s.CheckBit idx .STATUS_OK

/-- Method `Terminated(idx)`. -/
def Terminated (s : Particles T) (idx : Id) : Bool := s.CheckBit idx .TERMINATED

/-- Method `ExitedSpatialBoundary(idx)`. -/
def ExitedSpatialBoundary (s : Particles T) (idx : Id) : Bool :=
  s.CheckBit idx .EXITED_SPATIAL_BOUNDARY

/-- Method `ExitedTemporalBoundary(idx)`. -/
def ExitedTemporalBoundary (s : Particles T) (idx : Id) : Bool :=
  s.CheckBit idx .EXITED_TEMPORAL_BOUNDARY

/-- Method `Error(idx)`. -/
def Error (s : Particles T) (idx : Id) : Bool := s.CheckBit idx .STATUS_ERROR

/-- Method `Integrateable(idx)`:
`OK(idx) && !(Terminated(idx) || ExitedSpatialBoundary(idx) || ExitedTemporalBoundary(idx))`. -/
def Integrateable (s : Particles T) (idx : Id) : Bool :=
  s.OK idx &&
    !(s.Terminated idx || s.ExitedSpatialBoundary idx || s.ExitedTemporalBoundary idx)

/-- Method `Done(idx)`: `!Integrateable(idx)`. -/
def Done (s : Particles T) (idx : Id) : Bool := !s.Integrateable idx

/-- Method `GetPos(idx)`. -/
def GetPos (s : Particles T) (idx : Id) : Vec3 T := s.pos idx

/-- Method `GetStep(idx)`. -/
def GetStep (s : Particles T) (idx : Id) : Id := s.steps idx

/-- Method `GetStatus(idx)`. -/
def GetStatus (s : Particles T) (idx : Id) : Id := s.status idx

/-- Method `TakeStep(idx, pt)` of the base store:
`pos.Set(idx, pt); nSteps = steps.Get(idx) + 1; steps.Set(idx, nSteps);
if (nSteps == maxSteps) SetTerminated(idx);`. -/
def TakeStep (s : Particles T) (idx : Id) (pt : Vec3 T) : Particles T :=
  let s1 : Particles T := { s with pos := portalSet s.pos idx pt }
  let nSteps : Id := s1.steps idx
  let nSteps : Id := nSteps + 1
  let s2 : Particles T := { s1 with steps := portalSet s1.steps idx nSteps }
  if nSteps = s2.maxSteps then s2.SetTerminated idx else s2

end Particles

/-- The class `StateRecordingParticles<T, DeviceAdapterTag>`: the base store together
with `numPos`, `histSize` and the `history` portal. -/
structure StateRecordingParticles (T : Type) extends Particles T where
  numPos : Id
  histSize : Id
  history : Id → Vec3 T

namespace StateRecordingParticles

variable {T : Type}

/-- The constructor taking `(posArray, stepsArray, statusArray, _maxSteps)`:
`histSize = _maxSteps`.  `numValues` is `posArray.GetNumberOfValues()` and `out` is the
freshly prepared output buffer of `numPos * histSize` entries, whose contents are
unspecified. -/
def new (posArray : Id → Vec3 T) (numValues : Id) (stepsArray statusArray : Id → Id)
    (_maxSteps : Id) (out : Id → Vec3 T) : StateRecordingParticles T :=
  { pos := posArray, steps := stepsArray, status := statusArray, maxSteps := _maxSteps,
    histSize := _maxSteps, numPos := numValues, history := out }

/-- The constructor taking `(posArray, stepsArray, statusArray, _maxSteps, _histSize)`:
`histSize = _histSize`. -/
def newWithHistSize (posArray : Id → Vec3 T) (numValues : Id) (stepsArray statusArray : Id → Id)
    (_maxSteps : Id) (_histSize : Id) (out : Id → Vec3 T) : StateRecordingParticles T :=
  { pos := posArray, steps := stepsArray, status := statusArray, maxSteps := _maxSteps,
    histSize := _histSize, numPos := numValues, history := out }

/-- Method `TakeStep(idx, pt)` of the recording store:
`nSteps = steps.Get(idx); loc = idx * histSize + nSteps; history.Set(loc, pt);
nSteps = nSteps + 1; steps.Set(idx, nSteps); if (nSteps == maxSteps) SetTerminated(idx);`. -/
def TakeStep (s : StateRecordingParticles T) (idx : Id) (pt : Vec3 T) :
    StateRecordingParticles T :=
  let nSteps : Id := s.steps idx
  let loc : Id := idx * s.histSize + nSteps
  let s1 : StateRecordingParticles T := { s with history := portalSet s.history loc pt }
  let nSteps : Id := nSteps + 1
  let s2 : StateRecordingParticles T :=
    { s1 with toParticles := { s1.toParticles with steps := portalSet s1.steps idx nSteps } }
  if nSteps = s2.maxSteps then { s2 with toParticles := s2.toParticles.SetTerminated idx } else s2

/-- Method `GetHistory(idx, step)`: `history.Get(idx * histSize + step)`. -/
def GetHistory (s : StateRecordingParticles T) (idx : Id) (step : Id) : Vec3 T :=
  s.history (idx * s.histSize + step)

/-- Method `Done(idx)`: `!this->Integrateable(idx)`. -/
def Done (s : StateRecordingParticles T) (idx : Id) : Bool := !s.toParticles.Integrateable idx

end StateRecordingParticles

/-- The class `StateRecordingParticlesRound<T, DeviceAdapterTag>`: the base store together
with `numPos`, `histSize`, `offset`, `totalMaxSteps` and the `history` portal. -/
structure StateRecordingParticlesRound (T : Type) extends Particles T where
  numPos : Id
  histSize : Id
  offset : Id
  totalMaxSteps : Id
  history : Id → Vec3 T

namespace StateRecordingParticlesRound

variable {T : Type}

/-- Method `TakeStep(idx, pt)` of the windowed store:
`nSteps = steps.Get(idx); loc = idx * histSize + (nSteps - offset); history.Set(loc, pt);
nSteps = nSteps + 1; steps.Set(idx, nSteps); if (nSteps == totalMaxSteps) SetTerminated(idx);
pos.Set(idx, pt);`. -/
def TakeStep (s : StateRecordingParticlesRound T) (idx : Id) (pt : Vec3 T) :
    StateRecordingParticlesRound T :=
  let nSteps : Id := s.steps idx
  let loc : Id := idx * s.histSize + (nSteps - s.offset)
  let s1 : StateRecordingParticlesRound T := { s with history := portalSet s.history loc pt }
  let nSteps : Id := nSteps + 1
  let s2 : StateRecordingParticlesRound T :=
    { s1 with toParticles := { s1.toParticles with steps := portalSet s1.steps idx nSteps } }
  let s3 : StateRecordingParticlesRound T :=
    if nSteps = s2.totalMaxSteps then { s2 with toParticles := s2.toParticles.SetTerminated idx }
    else s2
  { s3 with toParticles := { s3.toParticles with pos := portalSet s3.pos idx pt } }

/-- Method `Done(idx)`:
`nSteps = steps.Get(idx); return (nSteps - offset == histSize) || !Integrateable(idx);`. -/
def Done (s : StateRecordingParticlesRound T) (idx : Id) : Bool :=
  let nSteps : Id := s.steps idx
  (nSteps - s.offset == s.histSize) || !s.toParticles.Integrateable idx

/-- Method `GetHistory(idx, step)`: `history.Get(idx * histSize + step)`. -/
def GetHistory (s : StateRecordingParticlesRound T) (idx : Id) (step : Id) : Vec3 T :=
  s.history (idx * s.histSize + step)

end StateRecordingParticlesRound

/-! ### Call sequences

The callers of a store issue a sequence of method calls.  `Call` names one call with its
arguments; `exec` dispatches it to the embedded method. -/

/-- One mutating call on a store, with its slot id (and point for `TakeStep`). -/
inductive Call (T : Type) where
  | TakeStep (idx : Id) (pt : Vec3 T)
  | SetOK (idx : Id)
  | SetTerminated (idx : Id)
  | SetError (idx : Id)
  | SetExitedSpatialBoundary (idx : Id)
  | SetExitedTemporalBoundary (idx : Id)

namespace Call

variable {T : Type}

/-- The slot id a call is addressed to. -/
def slot : Call T → Id
  | TakeStep idx _ => idx
  | SetOK idx => idx
  | SetTerminated idx => idx
  | SetError idx => idx
  | SetExitedSpatialBoundary idx => idx
  | SetExitedTemporalBoundary idx => idx

/-- A call that only touches the status word (everything but `TakeStep`). -/
def isStatusSetter : Call T → Bool
  | TakeStep _ _ => false
  | _ => true

end Call

/-- The status-only part of a call, on the base store (`TakeStep` is not one: identity). -/
def Particles.execSetter {T : Type} (s : Particles T) : Call T → Particles T
  | .TakeStep _ _ => s
  | .SetOK idx => s.SetOK idx
  | .SetTerminated idx => s.SetTerminated idx
  | .SetError idx => s.SetError idx
  | .SetExitedSpatialBoundary idx => s.SetExitedSpatialBoundary idx
  | .SetExitedTemporalBoundary idx => s.SetExitedTemporalBoundary idx

/-- Run one call on the base store. -/
def Particles.exec {T : Type} (s : Particles T) : Call T → Particles T
  | .TakeStep idx pt => s.TakeStep idx pt
  | c => s.execSetter c

/-- Run one call on the recording store: `TakeStep` is the store's own method, the status
setters are the inherited methods of the base store. -/
def StateRecordingParticles.exec {T : Type} (s : StateRecordingParticles T) :
    Call T → StateRecordingParticles T
  | .TakeStep idx pt => s.TakeStep idx pt
  | c => { s with toParticles := s.toParticles.execSetter c }

/-- The calling discipline of an advection run on one store: `TakeStep` is issued only for a
particle that is `Integrateable`; `SetOK` is not issued (it belongs to re-seeding). -/
def advectionGuard {T : Type} (s : Particles T) : Call T → Bool
  | .TakeStep idx _ => s.Integrateable idx
  | .SetOK _ => false
  | _ => true

/-- Run a sequence of calls on the base store under the calling discipline; `none` when a
call breaks the discipline. -/
def Particles.runCalls {T : Type} : List (Call T) → Particles T → Option (Particles T)
  | [], s => some s
  | c :: cs, s => if advectionGuard s c then Particles.runCalls cs (s.exec c) else none

/-- Run a sequence of calls on the recording store under the calling discipline. -/
def StateRecordingParticles.runCalls {T : Type} :
    List (Call T) → StateRecordingParticles T → Option (StateRecordingParticles T)
  | [], s => some s
  | c :: cs, s =>
    if advectionGuard s.toParticles c then StateRecordingParticles.runCalls cs (s.exec c)
    else none

/-- The store after `k` successive `TakeStep(idx, pts j)` calls, `j = 0 .. k-1`. -/
def Particles.takeSteps {T : Type} (pts : Nat → Vec3 T) (idx : Id) :
    Nat → Particles T → Particles T
  | 0, s => s
  | k + 1, s => (Particles.takeSteps pts idx k s).TakeStep idx (pts k)

/-- The loop `while (Integrateable(idx)) TakeStep(idx, p)` where the `k`-th iteration is
supplied the point `pts k`.  `fuel` bounds the number of loop tests; the result is the number
of `TakeStep` calls made and the final store, or `none` when the fuel runs out. -/
def Particles.integrateLoop {T : Type} (pts : Nat → Vec3 T) (idx : Id) :
    Nat → Nat → Particles T → Option (Nat × Particles T)
  | 0, _, _ => none
  | fuel + 1, k, s =>
    if s.Integrateable idx then
      Particles.integrateLoop pts idx fuel (k + 1) (s.TakeStep idx (pts k))
    else some (k, s)

/-! ### Sample stores over integer coordinates -/

/-- A base store with budget `maxSteps = 2`: every slot at the origin, step count 0,
status `STATUS_OK`. -/
def sampleBase : Particles Int :=
  { pos := fun _ => ⟨0, 0, 0⟩, steps := fun _ => 0, status := fun _ => 1, maxSteps := 2 }

/-- A base store with budget `maxSteps = 0` (the value the default constructor sets): every
slot at the origin, step count 0, status `STATUS_OK`. -/
def sampleZeroBudget : Particles Int :=
  { pos := fun _ => ⟨0, 0, 0⟩, steps := fun _ => 0, status := fun _ => 1, maxSteps := 0 }

/-- A recording store built by the four-argument constructor with `_maxSteps = 2` over two
particles: every slot at the origin, step count 0, status `STATUS_OK`, output buffer zeroed. -/
def sampleRecording : StateRecordingParticles Int :=
  StateRecordingParticles.new (fun _ => ⟨0, 0, 0⟩) 2 (fun _ => 0) (fun _ => 1) 2
    (fun _ => ⟨0, 0, 0⟩)

/-- A recording store built by the five-argument constructor with `_maxSteps = 3` and
`_histSize = 1` over two particles. -/
def sampleShortHistory : StateRecordingParticles Int :=
  StateRecordingParticles.newWithHistSize (fun _ => ⟨0, 0, 0⟩) 2 (fun _ => 0) (fun _ => 1) 3 1
    (fun _ => ⟨0, 0, 0⟩)

/-- A recording store built by the four-argument constructor with `_maxSteps = 0`, so that
the history size defaults to 0. -/
def sampleZeroRecording : StateRecordingParticles Int :=
  StateRecordingParticles.new (fun _ => ⟨0, 0, 0⟩) 2 (fun _ => 0) (fun _ => 1) 0
    (fun _ => ⟨0, 0, 0⟩)

/-- A windowed store: window `histSize = 2`, `offset = 2`, `totalMaxSteps = 10` (and an
inherited `maxSteps = 10`); every slot at the origin with status `STATUS_OK` and 3 steps
taken, so one entry of the current window is used. -/
def sampleRound : StateRecordingParticlesRound Int :=
  { pos := fun _ => ⟨0, 0, 0⟩, steps := fun _ => 3, status := fun _ => 1, maxSteps := 10,
    numPos := 2, histSize := 2, offset := 2, totalMaxSteps := 10,
    history := fun _ => ⟨0, 0, 0⟩ }

/-! ### Sequences of `TakeStep` calls on the recording store -/

/-- A particle is below its budget: its step count is a count (`0 ≤ steps`) that has not yet
reached `maxSteps`. -/
def StateRecordingParticles.belowBudget {T : Type} (s : StateRecordingParticles T) (j : Id) :
    Bool :=
  decide (0 ≤ s.steps j) && decide (s.steps j < s.maxSteps)

/-- Run a sequence of `TakeStep(j, pt)` calls, on any slots in any order, each issued for a
particle that is below its budget; `none` when a call is issued for a particle that is not. -/
def StateRecordingParticles.runTakeSteps {T : Type} :
    List (Id × Vec3 T) → StateRecordingParticles T → Option (StateRecordingParticles T)
  | [], s => some s
  | c :: cs, s =>
    if s.belowBudget c.1 then StateRecordingParticles.runTakeSteps cs (s.TakeStep c.1 c.2)
    else none

/-- The points passed to the calls addressed to slot `idx`, in call order. -/
def pointsFor {T : Type} (idx : Id) : List (Id × Vec3 T) → List (Vec3 T)
  | [] => []
  | c :: cs => if c.1 = idx then c.2 :: pointsFor idx cs else pointsFor idx cs

/-- The entries `GetHistory(idx, 0), ..., GetHistory(idx, n - 1)` of the recording store. -/
def StateRecordingParticles.readHistory {T : Type} (s : StateRecordingParticles T) (idx : Id)
    (n : Nat) : List (Vec3 T) :=
  (List.range n).map (fun (k : Nat) => s.GetHistory idx (k : Int))

/-- The number of positions held in the current window of particle `idx`: the expression
`nSteps - offset` that `TakeStep` uses as the window index of its write and that `Done`
compares with `histSize`. -/
def StateRecordingParticlesRound.windowFill {T : Type} (s : StateRecordingParticlesRound T)
    (idx : Id) : Id :=
  s.steps idx - s.offset

/-! ### Advancing one particle, unwindowed and in rounds

The worklet that drives a store is not among the sources; the loops below are the calling
protocol under which the round-trip property of the history is stated: `TakeStep` is called
with the next point while `Done(idx)` is false, and the windowed store is rebuilt for every
round with `offset = r * w`. -/

/-- The loop `while (!Done(idx)) TakeStep(idx, next point)` on the recording store; it also
stops when the points run out.  Result: the final store and the points not consumed. -/
def StateRecordingParticles.advance {T : Type} (idx : Id) :
    List (Vec3 T) → StateRecordingParticles T → StateRecordingParticles T × List (Vec3 T)
  | [], s => (s, [])
  | pt :: rest, s =>
    if s.Done idx then (s, pt :: rest)
    else StateRecordingParticles.advance idx rest (s.TakeStep idx pt)

/-- The loop `while (!Done(idx)) TakeStep(idx, next point)` on the windowed store; it also
stops when the points run out.  Result: the final store and the points not consumed. -/
def StateRecordingParticlesRound.advance {T : Type} (idx : Id) :
    List (Vec3 T) → StateRecordingParticlesRound T →
      StateRecordingParticlesRound T × List (Vec3 T)
  | [], s => (s, [])
  | pt :: rest, s =>
    if s.Done idx then (s, pt :: rest)
    else StateRecordingParticlesRound.advance idx rest (s.TakeStep idx pt)

/-- The window of particle `idx` read at the end of a round:
`GetHistory(idx, 0), ..., GetHistory(idx, steps - offset - 1)`. -/
def StateRecordingParticlesRound.readWindow {T : Type} (s : StateRecordingParticlesRound T)
    (idx : Id) : List (Vec3 T) :=
  (List.range (s.steps idx - s.offset).toNat).map (fun (k : Nat) => s.GetHistory idx (k : Int))

/-- The windowed store of round `r`: built on the shared position, step and status arrays `b`
with `histSize = w`, `offset = r * w` and the fresh window buffer `buf`. -/
def roundStore {T : Type} (w totalMaxSteps numValues : Id) (buf : Id → Vec3 T) (r : Nat)
    (b : Particles T) : StateRecordingParticlesRound T :=
  { toParticles := b, numPos := numValues, histSize := w, offset := (r : Int) * w,
    totalMaxSteps := totalMaxSteps, history := buf }

/-- Successive rounds of one particle, starting with round `r` on the shared position, step
and status arrays `b`: round `r` builds the windowed store with `histSize = w`,
`offset = r * w` and a fresh window buffer `out r`, advances the particle, and reads its
window; the rounds go on while points remain and the particle is integrateable.  Result: the
concatenation of the windows in round order and the final arrays; `none` when the fuel (a
bound on the number of rounds) runs out. -/
def runRounds {T : Type} (w totalMaxSteps numValues : Id) (out : Nat → Id → Vec3 T)
    (idx : Id) : Nat → Nat → Particles T → List (Vec3 T) →
      Option (List (Vec3 T) × Particles T)
  | 0, _, _, _ => none
  | fuel + 1, r, b, pts =>
    let store : StateRecordingParticlesRound T :=
      roundStore w totalMaxSteps numValues (out r) r b
    let res := store.advance idx pts
    let window := res.1.readWindow idx
    if res.2.isEmpty || res.1.toParticles.Done idx then some (window, res.1.toParticles)
    else
      (runRounds w totalMaxSteps numValues out idx fuel (r + 1) res.1.toParticles res.2).map
        (fun x => (window ++ x.1, x.2))

/-! ### Integrators (`Integrators.h`)

Modelling conventions
* `vtkm::FloatDefault` is modelled by an arbitrary linearly ordered field `F` (exact
  arithmetic); the operators on `vtkm::Vec3f` are componentwise.  Statements proved from
  these definitions are statements about the code in exact arithmetic.  The rounding of
  `vtkm::Float32` is modelled separately, by the definitions `RK4CheckStepRounded`,
  `StepRounded` and `smallStepLoopRounded` below, which pass the result of every
  floating-point operation through a rounding function.
* An output (reference) argument is an extra input, holding the content of the caller's
  variable before the call, and an extra result, holding its content after the call.  An
  uninitialised local variable is an extra input with an arbitrary value.
* Every result carries the list of the calls of `Evaluator.Evaluate` made, in order, each
  with its position, time and returned status. -/

/-- The enumeration `IntegratorStatus`. -/
inductive IntegratorStatus where
  | SUCCESS
  | OUTSIDE_SPATIAL_BOUNDS
  | OUTSIDE_TEMPORAL_BOUNDS
  | FAIL
  deriving DecidableEq, Repr

/-- Modelled from the spec: the enumeration `EvaluatorStatus` is declared in
`EvaluatorStatus.h`, which is not among the sources.  Its three enumerators are the ones
named by `ConvertToIntegratorStatus`; `OTHER code` stands for every other value of the
enumeration type ("an error not covered by the bounds checks"). -/
inductive EvaluatorStatus where
  | SUCCESS
  | OUTSIDE_SPATIAL_BOUNDS
  | OUTSIDE_TEMPORAL_BOUNDS
  | OTHER (code : Nat)
  deriving DecidableEq, Repr

namespace Vec3

variable {F : Type}

/-- Componentwise `a + b`. -/
def add [Add F] (a b : Vec3 F) : Vec3 F := ⟨a.x + b.x, a.y + b.y, a.z + b.z⟩

instance [Add F] : Add (Vec3 F) := ⟨Vec3.add⟩

/-- Scalar times vector, `c * v`. -/
def scale [Mul F] (c : F) (v : Vec3 F) : Vec3 F := ⟨c * v.x, c * v.y, c * v.z⟩

/-- Vector times scalar, `v * c`. -/
def scaleRight [Mul F] (v : Vec3 F) (c : F) : Vec3 F := ⟨v.x * c, v.y * c, v.z * c⟩

/-- Vector divided by a scalar, `v / c`. -/
def divScalar [Div F] (v : Vec3 F) (c : F) : Vec3 F := ⟨v.x / c, v.y / c, v.z / c⟩

/-- The value of `vtkm::TypeTraits<vtkm::Vec3f>::ZeroInitialization()`. -/
def zero [Zero F] : Vec3 F := ⟨0, 0, 0⟩

end Vec3

/-- Modelled from the spec: `vtkm::Range` is declared outside the sources; an interval
`[Min, Max]` of one axis of the domain. -/
structure Range (F : Type) where
  Min : F
  Max : F

/-- Modelled from the spec: `vtkm::Range::Length()`, the extent of the domain along one
axis: `Max - Min`, and 0 for an empty range. -/
def Range.Length {F : Type} [LinearOrderedField F] (r : Range F) : F :=
  if r.Min ≤ r.Max then r.Max - r.Min else 0

/-- Modelled from the spec: `vtkm::Bounds` is declared outside the sources; an axis-aligned
box given by its three ranges. -/
structure Bounds (F : Type) where
  X : Range F
  Y : Range F
  Z : Range F

/-- The template parameter `FieldEvaluateType`: the methods of the field evaluator that the
integrators call.  `Evaluate(pos, time, out)` has an output argument: the function takes the
prior content of `out` and returns the status with the content of `out` after the call. -/
structure FieldEvaluator (F : Type) where
  IsWithinSpatialBoundary : Vec3 F → Bool
  IsWithinTemporalBoundary : F → Bool
  Evaluate : Vec3 F → F → Vec3 F → EvaluatorStatus × Vec3 F
  GetTemporalBoundary : Id → F
  GetSpatialBoundary : Bounds F

/-- The two classes derived from `Integrator`; the value selects the `CheckStep` that
`ExecObjectBaseImpl::CheckStep` dispatches to through `DerivedType`. -/
inductive IntegratorKind where
  | RK4Integrator
  | EulerIntegrator
  deriving DecidableEq, Repr

/-- The class `Integrator::ExecObjectBaseImpl<FieldEvaluateType, DerivedType>`: the fields
`StepLength`, `Tolerance` and `Evaluator`, and the derived class.  `Epsilon` is the value of
`vtkm::Epsilon<vtkm::FloatDefault>()` and `Magnitude` is the function `vtkm::Magnitude`, both
declared outside the sources. -/
structure ExecObject (F : Type) where
  kind : IntegratorKind
  Evaluator : FieldEvaluator F
  StepLength : F
  Tolerance : F
  Epsilon : F
  Magnitude : Vec3 F → F

/-- One call of `Evaluator.Evaluate`: its position and time arguments and the status it
returned. -/
structure EvalCall (F : Type) where
  pos : Vec3 F
  time : F
  status : EvaluatorStatus
  deriving DecidableEq

/-- The outcome of `CheckStep`: the returned status, the content of the output argument
`velocity` after the call, and the evaluations made. -/
structure CheckResult (F : Type) where
  status : IntegratorStatus
  velocity : Vec3 F
  evals : List (EvalCall F)

/-- The outcome of `Step` and `SmallStep`: the returned status, the contents of the
arguments `time` and `outpos` after the call, and the evaluations made. -/
structure StepResult (F : Type) where
  status : IntegratorStatus
  time : F
  outpos : Vec3 F
  evals : List (EvalCall F)

/-- Method `Integrator::ExecObject::ConvertToIntegratorStatus(status)`. -/
def ConvertToIntegratorStatus : EvaluatorStatus → IntegratorStatus
  | .SUCCESS => .SUCCESS
  | .OUTSIDE_SPATIAL_BOUNDS => .OUTSIDE_SPATIAL_BOUNDS
  | .OUTSIDE_TEMPORAL_BOUNDS => .OUTSIDE_TEMPORAL_BOUNDS
  | _ => .FAIL

namespace ExecObject

variable {F : Type} [LinearOrderedField F]

/-- Method `EulerIntegrator::ExecObject::CheckStep(inpos, stepLength, time, velocity)`:
`status = Evaluator.Evaluate(inpos, time, velocity);
return ConvertToIntegratorStatus(status);` (the step length is not used). -/
def EulerCheckStep (obj : ExecObject F) (inpos : Vec3 F) (_stepLength : F) (time : F)
    (velocity : Vec3 F) : CheckResult F :=
  let e := obj.Evaluator.Evaluate inpos time velocity
  { status := ConvertToIntegratorStatus e.1, velocity := e.2,
    evals := [⟨inpos, time, e.1⟩] }

/-- Method `RK4Integrator::ExecObject::CheckStep(inpos, stepLength, time, velocity)`: the
step length is replaced by `boundary - time` when
`time + stepLength + Epsilon - boundary > 0`; `k1 .. k4` are zero-initialised and evaluated
in turn at `(inpos, time)`, `(inpos + var1 * k1, var2)`, `(inpos + var1 * k2, var2)`,
`(inpos + stepLength * k3, var3)`; the first evaluation that is not `SUCCESS` returns its
converted status, leaving `velocity` as it was; otherwise
`velocity = (k1 + 2 * k2 + 2 * k3 + k4) / 6`. -/
def RK4CheckStep (obj : ExecObject F) (inpos : Vec3 F) (stepLength : F) (time : F)
    (velocity : Vec3 F) : CheckResult F :=
  let boundary : F := obj.Evaluator.GetTemporalBoundary 1
  let stepLength : F :=
    if time + stepLength + obj.Epsilon - boundary > 0 then boundary - time else stepLength
  let var1 : F := stepLength / 2
  let var2 : F := time + var1
  let var3 : F := time + stepLength
  let e1 := obj.Evaluator.Evaluate inpos time Vec3.zero
  let c1 : EvalCall F := ⟨inpos, time, e1.1⟩
  if e1.1 ≠ EvaluatorStatus.SUCCESS then
    { status := ConvertToIntegratorStatus e1.1, velocity := velocity, evals := [c1] }
  else
    let k1 := e1.2
    let e2 := obj.Evaluator.Evaluate (inpos + Vec3.scale var1 k1) var2 Vec3.zero
    let c2 : EvalCall F := ⟨inpos + Vec3.scale var1 k1, var2, e2.1⟩
    if e2.1 ≠ EvaluatorStatus.SUCCESS then
      { status := ConvertToIntegratorStatus e2.1, velocity := velocity, evals := [c1, c2] }
    else
      let k2 := e2.2
      let e3 := obj.Evaluator.Evaluate (inpos + Vec3.scale var1 k2) var2 Vec3.zero
      let c3 : EvalCall F := ⟨inpos + Vec3.scale var1 k2, var2, e3.1⟩
      if e3.1 ≠ EvaluatorStatus.SUCCESS then
        { status := ConvertToIntegratorStatus e3.1, velocity := velocity,
          evals := [c1, c2, c3] }
      else
        let k3 := e3.2
        let e4 := obj.Evaluator.Evaluate (inpos + Vec3.scale stepLength k3) var3 Vec3.zero
        let c4 : EvalCall F := ⟨inpos + Vec3.scale stepLength k3, var3, e4.1⟩
        if e4.1 ≠ EvaluatorStatus.SUCCESS then
          { status := ConvertToIntegratorStatus e4.1, velocity := velocity,
            evals := [c1, c2, c3, c4] }
        else
          let k4 := e4.2
          { status := IntegratorStatus.SUCCESS,
            velocity := Vec3.divScalar (k1 + Vec3.scale 2 k2 + Vec3.scale 2 k3 + k4) 6,
            evals := [c1, c2, c3, c4] }

/-- Method `ExecObjectBaseImpl::CheckStep`: the `CheckStep` of the derived class. -/
def CheckStep (obj : ExecObject F) (inpos : Vec3 F) (stepLength : F) (time : F)
    (velocity : Vec3 F) : CheckResult F :=
  match obj.kind with
  | .RK4Integrator => obj.RK4CheckStep inpos stepLength time velocity
  | .EulerIntegrator => obj.EulerCheckStep inpos stepLength time velocity

/-- Method `ExecObjectBaseImpl::Step(inpos, time, outpos)`.  `time` and `outpos` are the
contents of the caller's variables before the call and `velocity` is the arbitrary content
of the uninitialised local `velocity`:
`if (!IsWithinSpatialBoundary(inpos)) return OUTSIDE_SPATIAL_BOUNDS;
if (!IsWithinTemporalBoundary(time)) return OUTSIDE_TEMPORAL_BOUNDS;
status = CheckStep(inpos, StepLength, time, velocity);
if (status == SUCCESS) { outpos = inpos + StepLength * velocity; time += StepLength; }
else outpos = inpos;
return status;`. -/
def Step (obj : ExecObject F) (inpos : Vec3 F) (time : F) (outpos : Vec3 F)
    (velocity : Vec3 F) : StepResult F :=
  if !obj.Evaluator.IsWithinSpatialBoundary inpos then
    { status := IntegratorStatus.OUTSIDE_SPATIAL_BOUNDS, time := time, outpos := outpos,
      evals := [] }
  else if !obj.Evaluator.IsWithinTemporalBoundary time then
    { status := IntegratorStatus.OUTSIDE_TEMPORAL_BOUNDS, time := time, outpos := outpos,
      evals := [] }
  else
    let c := obj.CheckStep inpos obj.StepLength time velocity
    if c.status = IntegratorStatus.SUCCESS then
      { status := c.status, time := time + obj.StepLength,
        outpos := inpos + Vec3.scale obj.StepLength c.velocity, evals := c.evals }
    else
      { status := c.status, time := time, outpos := inpos, evals := c.evals }

end ExecObject

/-- The local variables of `SmallStep` that its search loop updates, with the evaluations
made so far. -/
structure SmallStepState (F : Type) where
  optimalLength : F
  velocity : Vec3 F
  workpos : Vec3 F
  worktime : F
  evals : List (EvalCall F)

/-- The bound `maxIterations = 1 << 20` of the search loop of `SmallStep`. -/
def maxIterations : Id := (1 : Int) <<< (20 : Int)

namespace ExecObject

variable {F : Type} [LinearOrderedField F]

/-- The search loop of `SmallStep`:
`while (iteration < maxIterations) { iteration = iteration << 1;
length = optimalLength + StepLength / iteration;
status = CheckStep(inpos, length, time, velocity);
if (status == SUCCESS && IsWithinSpatialBoundary(inpos + velocity * length))
{ workpos = inpos + velocity * length; worktime = time + length; optimalLength = length; } }`.
`fuel` bounds the number of loop tests; `none` when it runs out. -/
def smallStepLoop (obj : ExecObject F) (inpos : Vec3 F) (time : F) :
    Nat → Id → SmallStepState F → Option (SmallStepState F)
  | 0, _, _ => none
  | fuel + 1, iteration, st =>
    if iteration < maxIterations then
      let iteration : Id := iteration <<< (1 : Int)
      let length : F := st.optimalLength + obj.StepLength / (iteration : F)
      let c := obj.CheckStep inpos length time st.velocity
      if c.status = IntegratorStatus.SUCCESS ∧
          obj.Evaluator.IsWithinSpatialBoundary (inpos + Vec3.scaleRight c.velocity length)
            = true then
        smallStepLoop obj inpos time fuel iteration
          { optimalLength := length, velocity := c.velocity,
            workpos := inpos + Vec3.scaleRight c.velocity length, worktime := time + length,
            evals := st.evals ++ c.evals }
      else
        smallStepLoop obj inpos time fuel iteration
          { st with velocity := c.velocity, evals := st.evals ++ c.evals }
    else some st

/-- Method `ExecObjectBaseImpl::SmallStep(inpos, time, outpos)`.  `time` and `outpos` are
the contents of the caller's variables before the call, `velocity` is the arbitrary content
of the uninitialised local `velocity`, and `fuel` bounds the loop tests of the search loop.
After the two bounds checks: one evaluation at `(inpos, time)` whose status is ignored, the
search loop started with `iteration = 1`, one evaluation at `(workpos, worktime)` whose
status is ignored, then
`direction = velocity / Magnitude(velocity)`,
`minLength = Min(xStepLength, Min(yStepLength, zStepLength))` with
`xStepLength = Abs(direction[0] * eps * bounds.X.Length())` and likewise for `y`, `z`,
`outpos = workpos + minLength * velocity; time = worktime + minLength;
return OUTSIDE_SPATIAL_BOUNDS;`. -/
def SmallStep (obj : ExecObject F) (fuel : Nat) (inpos : Vec3 F) (time : F) (outpos : Vec3 F)
    (velocity : Vec3 F) : Option (StepResult F) :=
  if !obj.Evaluator.IsWithinSpatialBoundary inpos then
    some { status := IntegratorStatus.OUTSIDE_SPATIAL_BOUNDS, time := time, outpos := outpos,
           evals := [] }
  else if !obj.Evaluator.IsWithinTemporalBoundary time then
    some { status := IntegratorStatus.OUTSIDE_TEMPORAL_BOUNDS, time := time, outpos := outpos,
           evals := [] }
  else
    let e0 := obj.Evaluator.Evaluate inpos time velocity
    let st0 : SmallStepState F :=
      { optimalLength := 0, velocity := e0.2, workpos := inpos, worktime := time,
        evals := [⟨inpos, time, e0.1⟩] }
    match obj.smallStepLoop inpos time fuel 1 st0 with
    | none => none
    | some st =>
      let e := obj.Evaluator.Evaluate st.workpos st.worktime st.velocity
      let velocity : Vec3 F := e.2
      let bounds : Bounds F := obj.Evaluator.GetSpatialBoundary
      let direction : Vec3 F := Vec3.divScalar velocity (obj.Magnitude velocity)
      let eps : F := obj.Epsilon
      let xStepLength : F := |direction.x * eps * bounds.X.Length|
      let yStepLength : F := |direction.y * eps * bounds.Y.Length|
      let zStepLength : F := |direction.z * eps * bounds.Z.Length|
      let minLength : F := min xStepLength (min yStepLength zStepLength)
      some { status := IntegratorStatus.OUTSIDE_SPATIAL_BOUNDS,
             time := st.worktime + minLength,
             outpos := st.workpos + Vec3.scale minLength velocity,
             evals := st.evals ++ [⟨st.workpos, st.worktime, e.1⟩] }

end ExecObject

/-! ### Sample evaluator and integrators over the rationals -/

/-- A uniform field of velocity `(1, 0, 0)` on the box `[0, 10]^3` for times in `[0, 1]`:
outside the box (resp. the time range) `Evaluate` reports it and leaves its output
untouched. -/
def sampleEvaluator : FieldEvaluator ℚ :=
  { IsWithinSpatialBoundary := fun p =>
      decide (0 ≤ p.x ∧ p.x ≤ 10 ∧ 0 ≤ p.y ∧ p.y ≤ 10 ∧ 0 ≤ p.z ∧ p.z ≤ 10),
    IsWithinTemporalBoundary := fun t => decide (0 ≤ t ∧ t ≤ 1),
    Evaluate := fun p t out =>
      if 0 ≤ p.x ∧ p.x ≤ 10 ∧ 0 ≤ p.y ∧ p.y ≤ 10 ∧ 0 ≤ p.z ∧ p.z ≤ 10 then
        if 0 ≤ t ∧ t ≤ 1 then (EvaluatorStatus.SUCCESS, ⟨1, 0, 0⟩)
        else (EvaluatorStatus.OUTSIDE_TEMPORAL_BOUNDS, out)
      else (EvaluatorStatus.OUTSIDE_SPATIAL_BOUNDS, out),
    GetTemporalBoundary := fun i => if i = 0 then 0 else 1,
    GetSpatialBoundary := ⟨⟨0, 10⟩, ⟨0, 10⟩, ⟨0, 10⟩⟩ }

/-- The sum of the absolute values of the components, standing in for `vtkm::Magnitude` in
the samples (the Euclidean norm is not a rational function). -/
def sampleMagnitude (v : Vec3 ℚ) : ℚ := |v.x| + |v.y| + |v.z|

/-- An Euler integrator on the sample evaluator with step length 1. -/
def sampleEuler : ExecObject ℚ :=
  { kind := IntegratorKind.EulerIntegrator, Evaluator := sampleEvaluator, StepLength := 1,
    Tolerance := 1 / 1000, Epsilon := 1 / 1000000, Magnitude := sampleMagnitude }

/-- An RK4 integrator on the sample evaluator with step length 1/2. -/
def sampleRK4Half : ExecObject ℚ :=
  { kind := IntegratorKind.RK4Integrator, Evaluator := sampleEvaluator, StepLength := 1 / 2,
    Tolerance := 1 / 1000, Epsilon := 1 / 1000000, Magnitude := sampleMagnitude }

/-- An RK4 integrator on the sample evaluator with step length 1. -/
def sampleRK4 : ExecObject ℚ :=
  { kind := IntegratorKind.RK4Integrator, Evaluator := sampleEvaluator, StepLength := 1,
    Tolerance := 1 / 1000, Epsilon := 1 / 1000000, Magnitude := sampleMagnitude }

/-! ### The particle advector (`vtkm/filter/flow/ParticleAdvector.h`)

The declarations of the C++ namespace `vtkm::filter::flow` are in the namespace `flow`.  The
algorithm classes, the array handles and the block and bounds-map types are declared outside
the sources: what `RunAlgo` does with an algorithm (construct it on the bounds map and the
blocks, `Execute`, `GetOutput`) is a parameter `run`, and the types of the blocks, the bounds
map, the seeds, the step size and the output are type parameters. -/

namespace flow

/-- Modelled from the spec: the enumeration `FlowResultType` is declared outside the
sources.  The result mode is final positions (`PARTICLE_ADVECT_TYPE`) or full trajectories
(`STREAMLINE_TYPE`); `OTHER code` stands for every other value of the enumeration type. -/
inductive FlowResultType where
  | PARTICLE_ADVECT_TYPE
  | STREAMLINE_TYPE
  | OTHER (code : Nat)
  deriving DecidableEq, Repr

/-- The base component type of the seed array held by a `vtkm::cont::UnknownArrayHandle`:
`vtkm::Particle`, `vtkm::ChargedParticle`, or any other type. -/
inductive SeedComponentType where
  | Particle
  | ChargedParticle
  | Other (code : Nat)
  deriving DecidableEq, Repr

/-- The template argument `ParticleType` of the typed `Execute`. -/
inductive ParticleType where
  | Particle
  | ChargedParticle
  deriving DecidableEq, Repr

/-- The result types `vtkm::worklet::ParticleAdvectionResult` and
`vtkm::worklet::StreamlineResult`. -/
inductive ResultKind where
  | ParticleAdvectionResult
  | StreamlineResult
  deriving DecidableEq, Repr

/-- The class templates `AdvectAlgorithm` and `AdvectAlgorithmThreaded`. -/
inductive AlgorithmTemplate where
  | AdvectAlgorithm
  | AdvectAlgorithmThreaded
  deriving DecidableEq, Repr

/-- An instantiated `AlgorithmType`: `Template<DSIType, Result, ParticleType>`. -/
structure AlgorithmType where
  template : AlgorithmTemplate
  result : ResultKind
  particle : ParticleType
  deriving DecidableEq, Repr

/-- The exception thrown by `Execute`: `vtkm::cont::ErrorFilterExecution` with its message. -/
inductive Error where
  | ErrorFilterExecution (message : String)
  deriving DecidableEq, Repr

/-- A `vtkm::cont::UnknownArrayHandle` of seeds: its base component type and its content. -/
structure UnknownArrayHandle (Seeds : Type) where
  componentType : SeedComponentType
  values : Seeds

/-- The outcome of a call of `Execute`: the algorithms that were run, in order, and the
returned data set. -/
structure ExecuteResult (Output : Type) where
  runs : List AlgorithmType
  output : Output

/-- The class `ParticleAdvector<DSIType>`. -/
structure ParticleAdvector (Block BoundsMapType : Type) where
  Blocks : List Block
  BoundsMap : BoundsMapType
  ResultType : FlowResultType
  UseThreadedAlgorithm : Bool

namespace ParticleAdvector

variable {Block BoundsMapType Seeds Output F : Type}

/-- Method `RunAlgo<AlgorithmType, ParticleType>(numSteps, stepSize, seeds)`:
`AlgorithmType algo(BoundsMap, Blocks); algo.Execute(numSteps, stepSize, seeds);
return algo.GetOutput();`. -/
def RunAlgo (pa : ParticleAdvector Block BoundsMapType)
    (run : AlgorithmType → BoundsMapType → List Block → Id → F → Seeds → Output)
    (algorithm : AlgorithmType) (numSteps : Id) (stepSize : F) (seeds : Seeds) :
    ExecuteResult Output :=
  { runs := [algorithm], output := run algorithm pa.BoundsMap pa.Blocks numSteps stepSize seeds }

/-- The private method `Execute<ParticleType>(numSteps, stepSize, seeds)` on a typed seed
array. -/
def ExecuteTyped (pa : ParticleAdvector Block BoundsMapType)
    (run : AlgorithmType → BoundsMapType → List Block → Id → F → Seeds → Output)
    (particle : ParticleType) (numSteps : Id) (stepSize : F) (seeds : Seeds) :
    ExecuteResult Output :=
  if !pa.UseThreadedAlgorithm then
    if pa.ResultType = FlowResultType.PARTICLE_ADVECT_TYPE then
      pa.RunAlgo run ⟨.AdvectAlgorithm, .ParticleAdvectionResult, particle⟩ numSteps stepSize
        seeds
    else
      pa.RunAlgo run ⟨.AdvectAlgorithm, .StreamlineResult, particle⟩ numSteps stepSize seeds
  else
    if pa.ResultType = FlowResultType.PARTICLE_ADVECT_TYPE then
      pa.RunAlgo run ⟨.AdvectAlgorithmThreaded, .ParticleAdvectionResult, particle⟩ numSteps
        stepSize seeds
    else
      pa.RunAlgo run ⟨.AdvectAlgorithmThreaded, .StreamlineResult, particle⟩ numSteps stepSize
        seeds

/-- The public method `Execute(numSteps, stepSize, seeds)` on an `UnknownArrayHandle`:
`if (seeds.IsBaseComponentType<vtkm::Particle>()) return Execute(.., AsArrayHandle(..));
else if (seeds.IsBaseComponentType<vtkm::ChargedParticle>()) return Execute(..);
throw vtkm::cont::ErrorFilterExecution("Unsupported options in AdvectAlgorithm");`. -/
def Execute (pa : ParticleAdvector Block BoundsMapType)
    (run : AlgorithmType → BoundsMapType → List Block → Id → F → Seeds → Output)
    (numSteps : Id) (stepSize : F) (seeds : UnknownArrayHandle Seeds) :
    Except Error (ExecuteResult Output) :=
  if seeds.componentType = SeedComponentType.Particle then
    Except.ok (pa.ExecuteTyped run .Particle numSteps stepSize seeds.values)
  else if seeds.componentType = SeedComponentType.ChargedParticle then
    Except.ok (pa.ExecuteTyped run .ChargedParticle numSteps stepSize seeds.values)
  else
    Except.error (Error.ErrorFilterExecution "Unsupported options in AdvectAlgorithm")

/-- The algorithm the configuration flags select, as the dispatch is described: the
threaded template exactly when `UseThreadedAlgorithm` is set, the final-position result
exactly when `ResultType` is `PARTICLE_ADVECT_TYPE`. -/
def selectedAlgorithm (pa : ParticleAdvector Block BoundsMapType) (particle : ParticleType) :
    AlgorithmType :=
  { template := if pa.UseThreadedAlgorithm then .AdvectAlgorithmThreaded else .AdvectAlgorithm,
    result := if pa.ResultType = FlowResultType.PARTICLE_ADVECT_TYPE
      then .ParticleAdvectionResult else .StreamlineResult,
    particle := particle }

end ParticleAdvector

end flow

namespace ExecObject

variable {F : Type} [LinearOrderedField F]

/-- The state of `SmallStep` on entry to its search loop: `optimalLength = 0`,
`workpos = inpos`, `worktime = time`, and `velocity` as left by the first call
`Evaluator.Evaluate(workpos, time, velocity)`, whose status is ignored. -/
def smallStepInit (obj : ExecObject F) (inpos : Vec3 F) (time : F) (velocity : Vec3 F) :
    SmallStepState F :=
  { optimalLength := 0, velocity := (obj.Evaluator.Evaluate inpos time velocity).2,
    workpos := inpos, worktime := time,
    evals := [⟨inpos, time, (obj.Evaluator.Evaluate inpos time velocity).1⟩] }

/-- One pass through the body of the search loop of `SmallStep`, for the value `iteration`
that the counter has after `iteration = iteration << 1`:
`length = optimalLength + StepLength / iteration;
status = CheckStep(inpos, length, time, velocity);
if (status == SUCCESS && IsWithinSpatialBoundary(inpos + velocity * length))
{ workpos = inpos + velocity * length; worktime = time + length; optimalLength = length; }`. -/
def smallStepBody (obj : ExecObject F) (inpos : Vec3 F) (time : F) (iteration : Id)
    (st : SmallStepState F) : SmallStepState F :=
  let length : F := st.optimalLength + obj.StepLength / (iteration : F)
  let c := obj.CheckStep inpos length time st.velocity
  if c.status = IntegratorStatus.SUCCESS ∧
      obj.Evaluator.IsWithinSpatialBoundary (inpos + Vec3.scaleRight c.velocity length)
        = true then
    { optimalLength := length, velocity := c.velocity,
      workpos := inpos + Vec3.scaleRight c.velocity length, worktime := time + length,
      evals := st.evals ++ c.evals }
  else
    { st with velocity := c.velocity, evals := st.evals ++ c.evals }

/-- The part of `SmallStep` after its search loop: the evaluation at `(workpos, worktime)`
whose status is ignored, and the final push by `minLength`. -/
def smallStepFinish (obj : ExecObject F) (st : SmallStepState F) : StepResult F :=
  let e := obj.Evaluator.Evaluate st.workpos st.worktime st.velocity
  let velocity : Vec3 F := e.2
  let bounds : Bounds F := obj.Evaluator.GetSpatialBoundary
  let direction : Vec3 F := Vec3.divScalar velocity (obj.Magnitude velocity)
  let eps : F := obj.Epsilon
  let xStepLength : F := |direction.x * eps * bounds.X.Length|
  let yStepLength : F := |direction.y * eps * bounds.Y.Length|
  let zStepLength : F := |direction.z * eps * bounds.Z.Length|
  let minLength : F := min xStepLength (min yStepLength zStepLength)
  { status := IntegratorStatus.OUTSIDE_SPATIAL_BOUNDS,
    time := st.worktime + minLength,
    outpos := st.workpos + Vec3.scale minLength velocity,
    evals := st.evals ++ [⟨st.workpos, st.worktime, e.1⟩] }

end ExecObject

/-- The invariant of the search loop of `SmallStep` for an Euler integrator whose evaluator
answers `SUCCESS` with velocity `v` at `(p, t)`, after the pass with counter `2 ^ k`: the
accumulated length is `StepLength * m / 2 ^ k` for a natural number `m < 2 ^ k`, the working
position and time are `p + v * optimalLength` and `t + optimalLength`, the working position
is inside the spatial bounds, and the next multiple, `StepLength * (m + 1) / 2 ^ k`, is
either the full step length or leads outside. -/
def searchInvariant {F : Type} [LinearOrderedField F] (obj : ExecObject F) (p v : Vec3 F)
    (t : F) (k : Nat) (st : SmallStepState F) : Prop :=
  ∃ m : Nat, m < 2 ^ k ∧
    st.optimalLength = obj.StepLength * (m : F) / (2 : F) ^ k ∧
    st.workpos = p + Vec3.scaleRight v st.optimalLength ∧
    st.worktime = t + st.optimalLength ∧
    obj.Evaluator.IsWithinSpatialBoundary (p + Vec3.scaleRight v st.optimalLength) = true ∧
    (m + 1 = 2 ^ k ∨
      obj.Evaluator.IsWithinSpatialBoundary
        (p + Vec3.scaleRight v (obj.StepLength * ((m : F) + 1) / (2 : F) ^ k)) = false)

/-- A run of `n` successive calls of `Step`, each starting at the position and time the
previous call wrote back; `outpos` and `velocity` are the contents of the caller's `outpos`
variable and of the uninitialised local.  The result is the position and time after the
`n`-th call, or `none` when one of the calls does not return `SUCCESS`. -/
def ExecObject.advanceSteps {F : Type} [LinearOrderedField F] (obj : ExecObject F)
    (outpos velocity : Vec3 F) : Nat → Vec3 F → F → Option (Vec3 F × F)
  | 0, p, t => some (p, t)
  | n + 1, p, t =>
    if (obj.Step p t outpos velocity).status = IntegratorStatus.SUCCESS then
      ExecObject.advanceSteps obj outpos velocity n (obj.Step p t outpos velocity).outpos
        (obj.Step p t outpos velocity).time
    else none

/-- An evaluator that answers `SUCCESS` with the velocity `(1, 0, 0)` at every position and
time, with the box `[0, 10]^3` as spatial boundary and the time range `[0, 20]`. -/
def uniformEvaluator : FieldEvaluator ℚ :=
  { IsWithinSpatialBoundary := fun p =>
      decide (0 ≤ p.x ∧ p.x ≤ 10 ∧ 0 ≤ p.y ∧ p.y ≤ 10 ∧ 0 ≤ p.z ∧ p.z ≤ 10),
    IsWithinTemporalBoundary := fun t => decide (0 ≤ t ∧ t ≤ 20),
    Evaluate := fun _ _ _ => (EvaluatorStatus.SUCCESS, ⟨1, 0, 0⟩),
    GetTemporalBoundary := fun i => if i = 0 then 0 else 20,
    GetSpatialBoundary := ⟨⟨0, 10⟩, ⟨0, 10⟩, ⟨0, 10⟩⟩ }

/-- An RK4 integrator on the uniform evaluator with step length 1. -/
def uniformRK4 : ExecObject ℚ :=
  { kind := IntegratorKind.RK4Integrator, Evaluator := uniformEvaluator, StepLength := 1,
    Tolerance := 1 / 1000, Epsilon := 1 / 1000000, Magnitude := sampleMagnitude }

/-- An Euler integrator on the uniform evaluator with step length 1. -/
def uniformEuler : ExecObject ℚ :=
  { kind := IntegratorKind.EulerIntegrator, Evaluator := uniformEvaluator, StepLength := 1,
    Tolerance := 1 / 1000, Epsilon := 1 / 1000000, Magnitude := sampleMagnitude }

/-- An evaluator for the rotation field `v(x, y, z) = (-y, x, 0)`, defined everywhere: every
position and time is inside the bounds and `Evaluate` always answers `SUCCESS`; the upper
end of its time range is 100. -/
def rotationEvaluator (F : Type) [LinearOrderedField F] : FieldEvaluator F :=
  { IsWithinSpatialBoundary := fun _ => true,
    IsWithinTemporalBoundary := fun _ => true,
    Evaluate := fun p _ _ => (EvaluatorStatus.SUCCESS, ⟨-p.y, p.x, 0⟩),
    GetTemporalBoundary := fun i => if i = 0 then 0 else 100,
    GetSpatialBoundary := ⟨⟨-100, 100⟩, ⟨-100, 100⟩, ⟨-100, 100⟩⟩ }

/-- An integrator of the given strategy on the rotation field with step length `h`. -/
def rotationIntegrator (F : Type) [LinearOrderedField F] (kind : IntegratorKind) (h : F) :
    ExecObject F :=
  { kind := kind, Evaluator := rotationEvaluator F, StepLength := h,
    Tolerance := 1 / 1000, Epsilon := 1 / 1000000,
    Magnitude := fun v => |v.x| + |v.y| + |v.z| }

/-- Run one call on the windowed store: `TakeStep` is the store's own method, the status
setters are the inherited methods of the base store. -/
def StateRecordingParticlesRound.exec {T : Type} (s : StateRecordingParticlesRound T) :
    Call T → StateRecordingParticlesRound T
  | .TakeStep idx pt => s.TakeStep idx pt
  | c => { s with toParticles := s.toParticles.execSetter c }

/-- The status words a mutating call can leave in a slot that held `w`: `w` itself (a call
on another slot, or a `TakeStep` that does not terminate), `STATUS_OK` (`SetOK`), `w` with
OK cleared and TERMINATED set (`SetTerminated`, or a `TakeStep` that terminates), `w` with OK
cleared and STATUS_ERROR set (`SetError`), and `w` with one of the two exit bits set. -/
def statusSuccessors (w : Id) : List Id :=
  [w, ParticleStatus.STATUS_OK.toId,
    Int.lor (Int.land w (Int.lnot ParticleStatus.STATUS_OK.toId)) ParticleStatus.TERMINATED.toId,
    Int.lor (Int.land w (Int.lnot ParticleStatus.STATUS_OK.toId))
      ParticleStatus.STATUS_ERROR.toId,
    Int.lor w ParticleStatus.EXITED_SPATIAL_BOUNDARY.toId,
    Int.lor w ParticleStatus.EXITED_TEMPORAL_BOUNDARY.toId]

/-- A status word with no bit outside the five flags (`0 ≤ w < 32`) in which the OK bit is
not set together with the TERMINATED bit or with the STATUS_ERROR bit. -/
def statusWordValid (w : Id) : Bool :=
  decide (0 ≤ w) && decide (w < 32) && !(Int.testBit w 0 && Int.testBit w 1) &&
    !(Int.testBit w 0 && Int.testBit w 4)

/-- The local `loc` of `TakeStep` of the windowed store: the history index it writes,
`idx * histSize + (nSteps - offset)`. -/
def StateRecordingParticlesRound.loc {T : Type} (s : StateRecordingParticlesRound T)
    (idx : Id) : Id :=
  idx * s.histSize + (s.steps idx - s.offset)

/-- One round on the windowed store: a sequence of `TakeStep(j, pt)` calls, on any slots in
any order, each issued for a particle whose `Done` is false; `none` when a call is issued for
a particle that is `Done`. -/
def StateRecordingParticlesRound.runTakeSteps {T : Type} :
    List (Id × Vec3 T) → StateRecordingParticlesRound T →
      Option (StateRecordingParticlesRound T)
  | [], s => some s
  | c :: cs, s =>
    if s.Done c.1 then none
    else StateRecordingParticlesRound.runTakeSteps cs (s.TakeStep c.1 c.2)

/-- The history writes of a sequence of `TakeStep` calls on the windowed store: for every
call its slot and the history index `loc` it writes, in call order. -/
def StateRecordingParticlesRound.writeLog {T : Type} :
    List (Id × Vec3 T) → StateRecordingParticlesRound T → List (Id × Id)
  | [], _ => []
  | c :: cs, s =>
    (c.1, s.loc c.1) :: StateRecordingParticlesRound.writeLog cs (s.TakeStep c.1 c.2)

/-- The relation between the input and the working state of the search loop of `SmallStep`:
the working position is inside the spatial bounds, and either no trial length was accepted
(working position and time are the inputs, accumulated length 0) or the working position is
`inpos + velocity * length` for a trial length on which `CheckStep` returned `SUCCESS` with
that velocity and which passed `IsWithinSpatialBoundary`, with working time
`time + length`. -/
def searchStateInside {F : Type} [LinearOrderedField F] (obj : ExecObject F) (inpos : Vec3 F)
    (time : F) (st : SmallStepState F) : Prop :=
  obj.Evaluator.IsWithinSpatialBoundary st.workpos = true ∧
    ((st.workpos = inpos ∧ st.worktime = time ∧ st.optimalLength = 0) ∨
      ∃ (length : F) (prior : Vec3 F),
        (obj.CheckStep inpos length time prior).status = IntegratorStatus.SUCCESS ∧
        obj.Evaluator.IsWithinSpatialBoundary
          (inpos + Vec3.scaleRight (obj.CheckStep inpos length time prior).velocity length)
          = true ∧
        st.workpos =
          inpos + Vec3.scaleRight (obj.CheckStep inpos length time prior).velocity length ∧
        st.worktime = time + length ∧ st.optimalLength = length)

/-! ### The voxel cell (`vtkc/Voxel.h`)

The declarations of the C++ namespace `vtkc` are in the namespace `vtkc`.

Modelling conventions
* The component types are modelled by an arbitrary linearly ordered field `F` (exact
  arithmetic), so that the `static_cast`s between them are identities.
* The template parameter `Points` is its method `getValue(pointId, component)`.
* The coordinate arguments `pcoords` and `wcoords` have three components and are vectors;
  `component(v, 0)`, `component(v, 1)`, `component(v, 2)` are `v.x`, `v.y`, `v.z`.
* An output argument is an extra input, holding the content of the caller's variable before
  the call, and part of the result.  The uninitialised local array `spacing` is an extra
  input with arbitrary content.
* Every result carries the list of the divisions made, in order, each as the pair of its
  numerator and its denominator. -/

namespace vtkc

/-- Modelled from the spec: the enumeration `vtkc::ErrorCode` is declared in
`vtkc/ErrorCode.h`, which is not among the sources; these are the two enumerators that the
voxel functions return. -/
inductive ErrorCode where
  | SUCCESS
  | DEGENERATE_CELL_DETECTED
  deriving DecidableEq, Repr

/-- The template parameter `Points`: `getValue(pointId, component)`. -/
structure Points (F : Type) where
  getValue : Nat → Nat → F

/-- The outcome of `parametricToWorld` and `worldToParametric`: the returned code, the
content of the output argument after the call, and the divisions made. -/
structure CoordResult (F : Type) where
  code : ErrorCode
  out : Vec3 F
  divisions : List (F × F)

/-- The outcome of `derivative`: the returned code, the contents of the output arguments
`dx`, `dy`, `dz` (by component) after the call, and the divisions made. -/
structure DerivativeResult (F : Type) where
  code : ErrorCode
  dx : Nat → F
  dy : Nat → F
  dz : Nat → F
  divisions : List (F × F)

variable {F : Type} [LinearOrderedField F]

/-- One pass of the loop body of `internal::getVoxelSpacing` for the axis `i`:
`spacing[i] = points.getValue(6, i) - points.getValue(0, i);
if (spacing[i] == T(0)) { zeros |= 1 << i; }`. -/
def getVoxelSpacingBody (points : Points F) (st : Nat × (Nat → F)) (i : Nat) :
    Nat × (Nat → F) :=
  let spacing : Nat → F := Function.update st.2 i (points.getValue 6 i - points.getValue 0 i)
  if spacing i = 0 then (st.1 ||| (1 <<< i), spacing) else (st.1, spacing)

/-- Function `internal::getVoxelSpacing(points, spacing)`: `zeros = 0`, the loop body for
`i = 0, 1, 2`, `return zeros`.  The result is the returned mask (an `int` with values in
`0 .. 7`) and the content of the array `spacing` after the call. -/
def getVoxelSpacing (points : Points F) (spacing : Nat → F) : Nat × (Nat → F) :=
  (List.range 3).foldl (getVoxelSpacingBody points) (0, spacing)

/-- Function `parametricToWorld(Voxel, points, pcoords, wcoords)`:
`if (getVoxelSpacing(points, spacing) != 0) return DEGENERATE_CELL_DETECTED;
component(wcoords, i) = points.getValue(0, i) + (spacing[i] * component(pcoords, i));`
for `i = 0, 1, 2`, `return SUCCESS`. -/
def parametricToWorld (points : Points F) (spacing0 : Nat → F) (pcoords wcoords : Vec3 F) :
    CoordResult F :=
  let r := getVoxelSpacing points spacing0
  let spacing := r.2
  if r.1 ≠ 0 then
    { code := ErrorCode.DEGENERATE_CELL_DETECTED, out := wcoords, divisions := [] }
  else
    let w1 : Vec3 F := { wcoords with x := points.getValue 0 0 + spacing 0 * pcoords.x }
    let w2 : Vec3 F := { w1 with y := points.getValue 0 1 + spacing 1 * pcoords.y }
    let w3 : Vec3 F := { w2 with z := points.getValue 0 2 + spacing 2 * pcoords.z }
    { code := ErrorCode.SUCCESS, out := w3, divisions := [] }

/-- Function `worldToParametric(Voxel, points, wcoords, pcoords)`:
`if (getVoxelSpacing(points, spacing) != 0) return DEGENERATE_CELL_DETECTED;
component(pcoords, i) = (component(wcoords, i) - points.getValue(0, i)) / spacing[i];`
for `i = 0, 1, 2`, `return SUCCESS`. -/
def worldToParametric (points : Points F) (spacing0 : Nat → F) (wcoords pcoords : Vec3 F) :
    CoordResult F :=
  let r := getVoxelSpacing points spacing0
  let spacing := r.2
  if r.1 ≠ 0 then
    { code := ErrorCode.DEGENERATE_CELL_DETECTED, out := pcoords, divisions := [] }
  else
    let p1 : Vec3 F := { pcoords with x := (wcoords.x - points.getValue 0 0) / spacing 0 }
    let p2 : Vec3 F := { p1 with y := (wcoords.y - points.getValue 0 1) / spacing 1 }
    let p3 : Vec3 F := { p2 with z := (wcoords.z - points.getValue 0 2) / spacing 2 }
    { code := ErrorCode.SUCCESS, out := p3,
      divisions := [(wcoords.x - points.getValue 0 0, spacing 0),
        (wcoords.y - points.getValue 0 1, spacing 1),
        (wcoords.z - points.getValue 0 2, spacing 2)] }

/-- One pass of the loop of `derivative` for the component `c`; `dvdp` is the array that
`internal::parametricDerivative(Hexahedron{}, values, c, pcoords, dvdp)` fills:
`component(dx, c) = dvdp[0] / spacing[0]; component(dy, c) = dvdp[1] / spacing[1];
component(dz, c) = dvdp[2] / spacing[2];`. -/
def derivativeBody (parametricDerivative : Nat → Nat → F) (spacing : Nat → F)
    (st : DerivativeResult F) (c : Nat) : DerivativeResult F :=
  let dvdp : Nat → F := parametricDerivative c
  { code := st.code,
    dx := Function.update st.dx c (dvdp 0 / spacing 0),
    dy := Function.update st.dy c (dvdp 1 / spacing 1),
    dz := Function.update st.dz c (dvdp 2 / spacing 2),
    divisions := st.divisions ++
      [(dvdp 0, spacing 0), (dvdp 1, spacing 1), (dvdp 2, spacing 2)] }

/-- Function `derivative(Voxel, points, values, pcoords, dx, dy, dz)`:
`if (getVoxelSpacing(points, spacing) != 0) return DEGENERATE_CELL_DETECTED;`, then the loop
body for `c = 0, ..., values.getNumberOfComponents() - 1`, `return SUCCESS`.
`internal::parametricDerivative` for hexahedra is declared in `vtkc/Hexahedron.h`, which is
not among the sources: `parametricDerivative c` is the array `dvdp` it fills for the
component `c` (of the given `values` at the given `pcoords`), and `numberOfComponents` is
`values.getNumberOfComponents()`. -/
def derivative (points : Points F) (spacing0 : Nat → F) (numberOfComponents : Nat)
    (parametricDerivative : Nat → Nat → F) (dx dy dz : Nat → F) : DerivativeResult F :=
  let r := getVoxelSpacing points spacing0
  let spacing := r.2
  if r.1 ≠ 0 then
    { code := ErrorCode.DEGENERATE_CELL_DETECTED, dx := dx, dy := dy, dz := dz,
      divisions := [] }
  else
    (List.range numberOfComponents).foldl (derivativeBody parametricDerivative spacing)
      { code := ErrorCode.SUCCESS, dx := dx, dy := dy, dz := dz, divisions := [] }

/-- A voxel over the rationals with corner 0 at `(1, 2, 3)` and corner 6 at `(3, 5, 7)`
(spacings 2, 3, 4); every other point id reads as corner 0. -/
def sampleVoxel : Points ℚ :=
  { getValue := fun pt i =>
      if pt = 6 then (if i = 0 then 3 else if i = 1 then 5 else 7)
      else (if i = 0 then 1 else if i = 1 then 2 else 3) }

end vtkc

/-! ### Extraction from structured grids (`vtkm/worklet/ExtractStructured.h`)

The members of the C++ class `vtkm::worklet::ExtractStructured` are in the namespace
`ExtractStructured`.

Modelling conventions
* `vtkm::Id` is modelled by `Int`; `/` and `%` on it are the truncating operations
  `Int.tdiv` and `Int.tmod`.  `vtkm::IdComponent` is a 32-bit signed integer: a conversion
  from `vtkm::Id` reduces the value modulo `2^32` into `[-2^31, 2^31)`.
* The bounds of an index box are `vtkm::Float64` values that hold integers; in `CreateMap`
  and `ExtractUniform` they are modelled by their integer values, so that the conversions
  between `vtkm::Float64` and `vtkm::Id` are identities.  `Run` only compares and copies
  bounds: there they are values of an arbitrary linear order.
* A thrown exception is an `Except.error`; the data set that `Run` returns is represented by
  the call that produces it. -/

/-- Modelled from the spec: `vtkm::Range::Contains(value)` is declared outside the sources:
`Min <= value && value <= Max`. -/
def Range.Contains {F : Type} [LinearOrder F] (r : Range F) (value : F) : Bool :=
  decide (r.Min ≤ value) && decide (value ≤ r.Max)

/-- Modelled from the spec: `vtkm::Range::IsNonEmpty()` is declared outside the sources:
`Min <= Max`. -/
def Range.IsNonEmpty {F : Type} [LinearOrder F] (r : Range F) : Bool :=
  decide (r.Min ≤ r.Max)

/-- Modelled from the spec: `vtkm::Bounds::Contains(point)` is declared outside the sources:
every axis range contains the corresponding coordinate. -/
def Bounds.Contains {F : Type} [LinearOrder F] (b : Bounds F) (point : Vec3 F) : Bool :=
  b.X.Contains point.x && b.Y.Contains point.y && b.Z.Contains point.z

/-- Modelled from the spec: `vtkm::Bounds::IsNonEmpty()` is declared outside the sources:
every axis range is non-empty. -/
def Bounds.IsNonEmpty {F : Type} [LinearOrder F] (b : Bounds F) : Bool :=
  b.X.IsNonEmpty && b.Y.IsNonEmpty && b.Z.IsNonEmpty

/-- Component access `v[i]` on a three-component vector (`i` is 0, 1 or 2 in every use). -/
def Vec3.getAt {α : Type} (v : Vec3 α) (i : Nat) : α :=
  if i = 0 then v.x else if i = 1 then v.y else v.z

/-- Component assignment `v[i] = a` on a three-component vector (`i` is 0, 1 or 2 in every
use). -/
def Vec3.setAt {α : Type} (v : Vec3 α) (i : Nat) (a : α) : Vec3 α :=
  if i = 0 then { v with x := a } else if i = 1 then { v with y := a } else { v with z := a }

namespace ExtractStructured

/-- The type `vtkm::Id3`. -/
abbrev Id3 := Vec3 Id

/-- The conversion of a `vtkm::Id` value to `vtkm::IdComponent`. -/
def toIdComponent (x : Id) : Id := (x + 2 ^ 31) % 2 ^ 32 - 2 ^ 31

/-- The worklet class `CreateMap`: its four data members. -/
structure CreateMap where
  RowSize : Id
  PlaneSize : Id
  OutBounds : Bounds Id
  Sample : Id3

namespace CreateMap

/-- The constructor `CreateMap(inDimension, outBounds, sample)`:
`RowSize(inDimension[1]), PlaneSize(inDimension[1] * inDimension[0]), OutBounds(outBounds),
Sample(sample)`. -/
def new (inDimension : Id3) (outBounds : Bounds Id) (sample : Id3) : CreateMap :=
  { RowSize := inDimension.getAt 1,
    PlaneSize := inDimension.getAt 1 * inDimension.getAt 0,
    OutBounds := outBounds,
    Sample := sample }

/-- The locals `(i, j, k)` of `operator()`, the "position of this point or cell in the
grid": `k = index / PlaneSize; j = (index % PlaneSize) / RowSize; i = index % RowSize;`
(each an `IdComponent`). -/
def position (m : CreateMap) (index : Id) : Id × Id × Id :=
  let k : Id := toIdComponent (Int.tdiv index m.PlaneSize)
  let j : Id := toIdComponent (Int.tdiv (Int.tmod index m.PlaneSize) m.RowSize)
  let i : Id := toIdComponent (Int.tmod index m.RowSize)
  (i, j, k)

/-- Method `operator()(index)`: `passValue = 0`; when `OutBounds.Contains(ijk)` and
`((i - minPt[0]) % Sample[0]) == 0 && ((j - minPt[1]) % Sample[1]) == 0 &&
((k - minPt[2]) % Sample[2]) == 0` then `passValue = 1`; `return passValue`. -/
def call (m : CreateMap) (index : Id) : Id :=
  let passValue : Id := 0
  let i : Id := (m.position index).1
  let j : Id := (m.position index).2.1
  let k : Id := (m.position index).2.2
  let ijk : Id3 := ⟨i, j, k⟩
  if m.OutBounds.Contains ijk then
    let minPt : Id3 := ⟨m.OutBounds.X.Min, m.OutBounds.Y.Min, m.OutBounds.Z.Min⟩
    if Int.tmod (i - minPt.getAt 0) (m.Sample.getAt 0) = 0 ∧
        Int.tmod (j - minPt.getAt 1) (m.Sample.getAt 1) = 0 ∧
        Int.tmod (k - minPt.getAt 2) (m.Sample.getAt 2) = 0 then 1
    else passValue
  else passValue

end CreateMap

/-- The array `PointMap` that `CreateDataMaps(pointDimension, numberOfPoints, numberOfCells,
outBounds, sample)` fills: the worklet `CreateMap(pointDimension, outBounds, sample)`
invoked on the indices `0, ..., numberOfPoints - 1`. -/
def PointMap (pointDimension : Id3) (numberOfPoints : Nat) (outBounds : Bounds Id)
    (sample : Id3) : List Id :=
  (List.range numberOfPoints).map
    (fun (index : Nat) => (CreateMap.new pointDimension outBounds sample).call (index : Int))

/-- The local `outDimension` of `ExtractUniform(outDim, cellSet, coordinates, outBounds,
sample)`, the point dimensions of the output:
`outDimension = (X.Max - X.Min + 1, Y.Max - Y.Min + 1, Z.Max - Z.Min + 1);
for (dim = 0; dim < outDim; dim++) if (sample[dim] > 1)
outDimension[dim] = outDimension[dim] / sample[dim] + 1;`. -/
def outDimension (outDim : Id) (outBounds : Bounds Id) (sample : Id3) : Id3 :=
  let init : Id3 :=
    ⟨outBounds.X.Max - outBounds.X.Min + 1, outBounds.Y.Max - outBounds.Y.Min + 1,
      outBounds.Z.Max - outBounds.Z.Min + 1⟩
  (List.range outDim.toNat).foldl
    (fun (od : Id3) (dim : Nat) =>
      if sample.getAt dim > 1 then
        od.setAt dim (Int.tdiv (od.getAt dim) (sample.getAt dim) + 1)
      else od)
    init

/-- The number of indices `i` in `[min, max]` with `(i - min) mod s = 0`: the number of
indices that pass the sampling test on one axis, with which the output dimension is
compared. -/
def axisPassCount (min max s : Id) : Nat :=
  ((List.range (max - min + 1).toNat).filter
    (fun (n : Nat) => decide (Int.tmod (min + (n : Int) - min) s = 0))).length

/-- The kinds of cell set that `Run` tells apart: `CellSetStructured<1>`,
`CellSetStructured<2>`, `CellSetStructured<3>`, and every other type. -/
inductive CellSetKind where
  | Structured1
  | Structured2
  | Structured3
  | Other
  deriving DecidableEq, Repr

/-- The exceptions `Run` throws, with their messages. -/
inductive RunError where
  | ErrorBadType (message : String)
  | ErrorBadValue (message : String)
  deriving DecidableEq, Repr

/-- The call with which `Run` produces its result: `ExtractUniform` (`uniform = true`) or
`ExtractRectilinear`, with the arguments `outDim`, `outBounds` and `sample`. -/
structure ExtractCall (F : Type) where
  uniform : Bool
  outDim : Id
  outBounds : Bounds F
  sample : Id3

/-- The block of `Run` that computes `outBounds`, the "requested bounding box intersection
with input bounding box": `outBounds = boundingBox`, then for each axis
`if (outBounds.X.Min < inBounds.X.Min) outBounds.X.Min = inBounds.X.Min;
if (outBounds.X.Max > inBounds.X.Max) outBounds.X.Max = inBounds.X.Max;`. -/
def intersectBounds {F : Type} [LinearOrder F] (inBounds boundingBox : Bounds F) : Bounds F :=
  let o0 : Bounds F := boundingBox
  let o1 : Bounds F :=
    if o0.X.Min < inBounds.X.Min then { o0 with X := { o0.X with Min := inBounds.X.Min } }
    else o0
  let o2 : Bounds F :=
    if o1.X.Max > inBounds.X.Max then { o1 with X := { o1.X with Max := inBounds.X.Max } }
    else o1
  let o3 : Bounds F :=
    if o2.Y.Min < inBounds.Y.Min then { o2 with Y := { o2.Y with Min := inBounds.Y.Min } }
    else o2
  let o4 : Bounds F :=
    if o3.Y.Max > inBounds.Y.Max then { o3 with Y := { o3.Y with Max := inBounds.Y.Max } }
    else o3
  let o5 : Bounds F :=
    if o4.Z.Min < inBounds.Z.Min then { o4 with Z := { o4.Z with Min := inBounds.Z.Min } }
    else o4
  if o5.Z.Max > inBounds.Z.Max then { o5 with Z := { o5.Z with Max := inBounds.Z.Max } }
  else o5

/-- Method `Run(cellSet, coordinates, boundingBox, sample)`.  `cellSet` is the kind of the
dynamic cell set, `isUniform` is `coordinates.GetData().IsSameType(UniformArrayHandle())`
and `inBounds` is `coordinates.GetBounds()`:
`inDim` is 1, 2 or 3 for the structured cell sets, otherwise `throw ErrorBadType`;
`if (boundingBox.IsNonEmpty() == false) throw ErrorBadValue;`
`if (sample[0] < 1 || sample[1] < 1 || sample[2] < 1) throw ErrorBadValue;`
then `outBounds` is computed by the intersection block;
`if (outBounds.IsNonEmpty() == false) throw ErrorBadValue;`
and the call of `ExtractUniform` or `ExtractRectilinear`. -/
def Run {F : Type} [LinearOrder F] (cellSet : CellSetKind) (isUniform : Bool)
    (inBounds boundingBox : Bounds F) (sample : Id3) : Except RunError (ExtractCall F) :=
  match cellSet with
  | .Other => Except.error (RunError.ErrorBadType "Only Structured cell sets allowed")
  | kind =>
    let inDim : Id :=
      match kind with
      | .Structured1 => 1
      | .Structured2 => 2
      | _ => 3
    if boundingBox.IsNonEmpty = false then
      Except.error (RunError.ErrorBadValue "Requested bounding box is not valid")
    else if sample.getAt 0 < 1 ∨ sample.getAt 1 < 1 ∨ sample.getAt 2 < 1 then
      Except.error (RunError.ErrorBadValue "Requested sampling is not valid")
    else
      let outBounds : Bounds F := intersectBounds inBounds boundingBox
      if outBounds.IsNonEmpty = false then
        Except.error (RunError.ErrorBadValue "Bounding box does not intersect input")
      else
        Except.ok
          { uniform := isUniform, outDim := inDim, outBounds := outBounds, sample := sample }

/-- The intersection of the requested box with the input bounds, as the property words it:
each `Min` raised to the input `Min`, each `Max` lowered to the input `Max`. -/
def clippedBox {F : Type} [LinearOrder F] (boundingBox inBounds : Bounds F) : Bounds F :=
  { X := ⟨max boundingBox.X.Min inBounds.X.Min, min boundingBox.X.Max inBounds.X.Max⟩,
    Y := ⟨max boundingBox.Y.Min inBounds.Y.Min, min boundingBox.Y.Max inBounds.Y.Max⟩,
    Z := ⟨max boundingBox.Z.Min inBounds.Z.Min, min boundingBox.Z.Max inBounds.Z.Max⟩ }

/-- A box of integer bounds, from its six limits. -/
def box (x0 x1 y0 y1 z0 z1 : Id) : Bounds Id :=
  { X := ⟨x0, x1⟩, Y := ⟨y0, y1⟩, Z := ⟨z0, z1⟩ }

end ExtractStructured

/-! ### Rounded arithmetic (`vtkm::FloatDefault` as IEEE 754 binary32)

The definitions of the integrators above read the arithmetic on `vtkm::FloatDefault` as
exact.  The definitions below are the same code with the result of every floating-point
operation passed through a rounding function `fl`: with `fl = id` they are the exact
definitions, and with `fl = roundFloat32` they compute what the code computes when
`vtkm::FloatDefault` is `vtkm::Float32`, every operation being rounded to the nearest
binary32 number, ties to even.  Overflow to infinity is not modelled: the values stay far
below `2 ^ 128` in every use. -/

/-- The power `2 ^ e` for an integer exponent. -/
def pow2 (e : Int) : ℚ :=
  if 0 ≤ e then ((2 ^ e.toNat : Nat) : ℚ) else 1 / ((2 ^ (-e).toNat : Nat) : ℚ)

/-- Rounding of a rational number to the nearest integer, ties to the even one. -/
def roundHalfEven (q : ℚ) : Int :=
  let f : Int := q.num / (q.den : Int)
  let r : ℚ := q - (f : ℚ)
  if r < 1 / 2 then f else if 1 / 2 < r then f + 1 else if f % 2 = 0 then f else f + 1

/-- For `a ≥ 1`: the exponent `e ≥ 0` with `2 ^ e ≤ a < 2 ^ (e + 1)`, found by halving
(`fuel` bounds the exponent). -/
def exponentUp : Nat → ℚ → Int
  | 0, _ => 0
  | fuel + 1, a => if a < 2 then 0 else exponentUp fuel (a / 2) + 1

/-- For `0 < a < 1`: the exponent `e < 0` with `2 ^ e ≤ a < 2 ^ (e + 1)`, found by doubling
(`fuel` bounds the exponent). -/
def exponentDown : Nat → ℚ → Int
  | 0, _ => 0
  | fuel + 1, a => if 1 ≤ a then 0 else exponentDown fuel (a * 2) - 1

/-- The binary exponent of `x ≠ 0`: the `e` with `2 ^ e ≤ |x| < 2 ^ (e + 1)`, for exponents
between -1100 and 1100. -/
def binaryExponent (x : ℚ) : Int :=
  if 1 ≤ |x| then exponentUp 1100 |x| else exponentDown 1100 |x|

/-- Rounding to the nearest binary floating-point number with `prec` significand bits and
least normal exponent `emin`, ties to even: the spacing of the numbers around `x` is
`2 ^ (e - (prec - 1))` with `e` the binary exponent of `x`, not below `emin`. -/
def roundNearestEven (prec : Nat) (emin : Int) (x : ℚ) : ℚ :=
  if x = 0 then 0
  else
    let e : Int := max (binaryExponent x) emin
    let ulp : ℚ := pow2 (e - ((prec : Int) - 1))
    (roundHalfEven (x / ulp) : ℚ) * ulp

/-- Rounding to `vtkm::Float32` (IEEE 754 binary32: 24 significand bits, least normal
exponent -126). -/
def roundFloat32 (x : ℚ) : ℚ := roundNearestEven 24 (-126) x

namespace Vec3

variable {F : Type}

/-- The sum `a + b` of two `vtkm::Vec3f`, each component rounded. -/
def addRounded [Add F] (fl : F → F) (a b : Vec3 F) : Vec3 F :=
  ⟨fl (a.x + b.x), fl (a.y + b.y), fl (a.z + b.z)⟩

/-- The product `c * v` of a scalar and a `vtkm::Vec3f`, each component rounded. -/
def scaleRounded [Mul F] (fl : F → F) (c : F) (v : Vec3 F) : Vec3 F :=
  ⟨fl (c * v.x), fl (c * v.y), fl (c * v.z)⟩

/-- The product `v * c` of a `vtkm::Vec3f` and a scalar, each component rounded. -/
def scaleRightRounded [Mul F] (fl : F → F) (v : Vec3 F) (c : F) : Vec3 F :=
  ⟨fl (v.x * c), fl (v.y * c), fl (v.z * c)⟩

/-- The quotient `v / c` of a `vtkm::Vec3f` by a scalar, each component rounded. -/
def divScalarRounded [Div F] (fl : F → F) (v : Vec3 F) (c : F) : Vec3 F :=
  ⟨fl (v.x / c), fl (v.y / c), fl (v.z / c)⟩

end Vec3

namespace ExecObject

variable {F : Type} [LinearOrderedField F]

/-- Method `RK4Integrator::ExecObject::CheckStep(inpos, stepLength, time, velocity)` with
rounded operations:
`if ((time + stepLength + Epsilon - boundary) > 0.0) stepLength = boundary - time;
var1 = stepLength / 2; var2 = time + var1; var3 = time + stepLength;`, the four evaluations
at `(inpos, time)`, `(inpos + var1 * k1, var2)`, `(inpos + var1 * k2, var2)`,
`(inpos + stepLength * k3, var3)`, each returning its converted status when it is not
`SUCCESS`, and `velocity = (k1 + 2 * k2 + 2 * k3 + k4) / 6.0f`. -/
def RK4CheckStepRounded (fl : F → F) (obj : ExecObject F) (inpos : Vec3 F) (stepLength : F)
    (time : F) (velocity : Vec3 F) : CheckResult F :=
  let boundary : F := obj.Evaluator.GetTemporalBoundary 1
  let stepLength : F :=
    if fl (fl (fl (time + stepLength) + obj.Epsilon) - boundary) > 0 then fl (boundary - time)
    else stepLength
  let var1 : F := fl (stepLength / 2)
  let var2 : F := fl (time + var1)
  let var3 : F := fl (time + stepLength)
  let e1 := obj.Evaluator.Evaluate inpos time Vec3.zero
  let c1 : EvalCall F := ⟨inpos, time, e1.1⟩
  if e1.1 ≠ EvaluatorStatus.SUCCESS then
    { status := ConvertToIntegratorStatus e1.1, velocity := velocity, evals := [c1] }
  else
    let k1 := e1.2
    let e2 := obj.Evaluator.Evaluate
      (Vec3.addRounded fl inpos (Vec3.scaleRounded fl var1 k1)) var2 Vec3.zero
    let c2 : EvalCall F :=
      ⟨Vec3.addRounded fl inpos (Vec3.scaleRounded fl var1 k1), var2, e2.1⟩
    if e2.1 ≠ EvaluatorStatus.SUCCESS then
      { status := ConvertToIntegratorStatus e2.1, velocity := velocity, evals := [c1, c2] }
    else
      let k2 := e2.2
      let e3 := obj.Evaluator.Evaluate
        (Vec3.addRounded fl inpos (Vec3.scaleRounded fl var1 k2)) var2 Vec3.zero
      let c3 : EvalCall F :=
        ⟨Vec3.addRounded fl inpos (Vec3.scaleRounded fl var1 k2), var2, e3.1⟩
      if e3.1 ≠ EvaluatorStatus.SUCCESS then
        { status := ConvertToIntegratorStatus e3.1, velocity := velocity,
          evals := [c1, c2, c3] }
      else
        let k3 := e3.2
        let e4 := obj.Evaluator.Evaluate
          (Vec3.addRounded fl inpos (Vec3.scaleRounded fl stepLength k3)) var3 Vec3.zero
        let c4 : EvalCall F :=
          ⟨Vec3.addRounded fl inpos (Vec3.scaleRounded fl stepLength k3), var3, e4.1⟩
        if e4.1 ≠ EvaluatorStatus.SUCCESS then
          { status := ConvertToIntegratorStatus e4.1, velocity := velocity,
            evals := [c1, c2, c3, c4] }
        else
          let k4 := e4.2
          { status := IntegratorStatus.SUCCESS,
            velocity := Vec3.divScalarRounded fl
              (Vec3.addRounded fl
                (Vec3.addRounded fl (Vec3.addRounded fl k1 (Vec3.scaleRounded fl 2 k2))
                  (Vec3.scaleRounded fl 2 k3))
                k4)
              6,
            evals := [c1, c2, c3, c4] }

/-- Method `ExecObjectBaseImpl::CheckStep` with rounded operations: the `CheckStep` of the
derived class (Euler's makes no arithmetic operation). -/
def CheckStepRounded (fl : F → F) (obj : ExecObject F) (inpos : Vec3 F) (stepLength : F)
    (time : F) (velocity : Vec3 F) : CheckResult F :=
  match obj.kind with
  | .RK4Integrator => obj.RK4CheckStepRounded fl inpos stepLength time velocity
  | .EulerIntegrator => obj.EulerCheckStep inpos stepLength time velocity

/-- Method `ExecObjectBaseImpl::Step(inpos, time, outpos)` with rounded operations:
`outpos = inpos + StepLength * velocity; time += StepLength;` after a successful
`CheckStep`. -/
def StepRounded (fl : F → F) (obj : ExecObject F) (inpos : Vec3 F) (time : F)
    (outpos : Vec3 F) (velocity : Vec3 F) : StepResult F :=
  if !obj.Evaluator.IsWithinSpatialBoundary inpos then
    { status := IntegratorStatus.OUTSIDE_SPATIAL_BOUNDS, time := time, outpos := outpos,
      evals := [] }
  else if !obj.Evaluator.IsWithinTemporalBoundary time then
    { status := IntegratorStatus.OUTSIDE_TEMPORAL_BOUNDS, time := time, outpos := outpos,
      evals := [] }
  else
    let c := obj.CheckStepRounded fl inpos obj.StepLength time velocity
    if c.status = IntegratorStatus.SUCCESS then
      { status := c.status, time := fl (time + obj.StepLength),
        outpos := Vec3.addRounded fl inpos (Vec3.scaleRounded fl obj.StepLength c.velocity),
        evals := c.evals }
    else
      { status := c.status, time := time, outpos := inpos, evals := c.evals }

/-- The search loop of `SmallStep` with rounded operations:
`while (iteration < maxIterations) { iteration = iteration << 1;
length = optimalLength + (StepLength / static_cast<FloatDefault>(iteration));
status = CheckStep(inpos, length, time, velocity);
if (status == SUCCESS && IsWithinSpatialBoundary(inpos + velocity * length))
{ workpos = inpos + velocity * length; worktime = time + length; optimalLength = length; } }`.
`fuel` bounds the number of loop tests; `none` when it runs out. -/
def smallStepLoopRounded (fl : F → F) (obj : ExecObject F) (inpos : Vec3 F) (time : F) :
    Nat → Id → SmallStepState F → Option (SmallStepState F)
  | 0, _, _ => none
  | fuel + 1, iteration, st =>
    if iteration < maxIterations then
      let iteration : Id := iteration <<< (1 : Int)
      let length : F := fl (st.optimalLength + fl (obj.StepLength / fl (iteration : F)))
      let c := obj.CheckStepRounded fl inpos length time st.velocity
      if c.status = IntegratorStatus.SUCCESS ∧
          obj.Evaluator.IsWithinSpatialBoundary
            (Vec3.addRounded fl inpos (Vec3.scaleRightRounded fl c.velocity length)) = true then
        smallStepLoopRounded fl obj inpos time fuel iteration
          { optimalLength := length, velocity := c.velocity,
            workpos := Vec3.addRounded fl inpos (Vec3.scaleRightRounded fl c.velocity length),
            worktime := fl (time + length),
            evals := st.evals ++ c.evals }
      else
        smallStepLoopRounded fl obj inpos time fuel iteration
          { st with velocity := c.velocity, evals := st.evals ++ c.evals }
    else some st

end ExecObject

/-- An evaluator that answers `SUCCESS` with the velocity `v` at every position and time,
with the box `[0, 10]^3` as spatial boundary and the time range `[0, B]`. -/
def constantEvaluator (v : Vec3 ℚ) (B : ℚ) : FieldEvaluator ℚ :=
  { IsWithinSpatialBoundary := fun p =>
      decide (0 ≤ p.x ∧ p.x ≤ 10 ∧ 0 ≤ p.y ∧ p.y ≤ 10 ∧ 0 ≤ p.z ∧ p.z ≤ 10),
    IsWithinTemporalBoundary := fun t => decide (0 ≤ t ∧ t ≤ B),
    Evaluate := fun _ _ _ => (EvaluatorStatus.SUCCESS, v),
    GetTemporalBoundary := fun i => if i = 0 then 0 else B,
    GetSpatialBoundary := ⟨⟨0, 10⟩, ⟨0, 10⟩, ⟨0, 10⟩⟩ }

/-- An integrator whose parameters are `vtkm::Float32` values: the step length is the
binary32 number nearest to `h`, the tolerance the one nearest to `1/1000`, and `Epsilon` is
`2 ^ (-23)`. -/
def float32Integrator (kind : IntegratorKind) (evaluator : FieldEvaluator ℚ) (h : ℚ) :
    ExecObject ℚ :=
  { kind := kind, Evaluator := evaluator, StepLength := roundFloat32 h,
    Tolerance := roundFloat32 (1 / 1000), Epsilon := 1 / 8388608,
    Magnitude := sampleMagnitude }

/-- A run of `n` successive calls of `Step` with rounded operations, each starting at the
position and time the previous call wrote back; `none` when one of the calls does not
return `SUCCESS`. -/
def ExecObject.advanceStepsRounded {F : Type} [LinearOrderedField F] (fl : F → F)
    (obj : ExecObject F) (outpos velocity : Vec3 F) : Nat → Vec3 F → F → Option (Vec3 F × F)
  | 0, p, t => some (p, t)
  | n + 1, p, t =>
    if (obj.StepRounded fl p t outpos velocity).status = IntegratorStatus.SUCCESS then
      ExecObject.advanceStepsRounded fl obj outpos velocity n
        (obj.StepRounded fl p t outpos velocity).outpos
        (obj.StepRounded fl p t outpos velocity).time
    else none

/-! ## Bit-level facts about status words -/

theorem nat_and_two_pow (m k : Nat) : m &&& 2 ^ k = if m.testBit k then 2 ^ k else 0 := by
  apply Nat.eq_of_testBit_eq
  intro i
  by_cases h : m.testBit k = true
  · simp only [h, if_true, Nat.testBit_and, Nat.testBit_two_pow]
    by_cases hk : k = i
    · subst hk; simp [h]
    · simp [hk]
  · simp only [h, Nat.testBit_and, Nat.testBit_two_pow]
    by_cases hk : k = i
    · subst hk; simp [h]
    · simp [hk]

theorem nat_ldiff_two_pow (m k : Nat) :
    Nat.ldiff (2 ^ k) m = if m.testBit k then 0 else 2 ^ k := by
  apply Nat.eq_of_testBit_eq
  intro i
  rw [Nat.testBit_ldiff]
  by_cases h : m.testBit k = true
  · simp only [h, if_true, Nat.testBit_two_pow]
    by_cases hk : k = i
    · subst hk; simp [h]
    · simp [hk]
  · simp only [h, Nat.testBit_two_pow]
    by_cases hk : k = i
    · subst hk; simp [h]
    · simp [hk]

/-- Masking with a single bit and comparing with zero reads that bit. -/
theorem land_two_pow_ne_zero (w : Int) (k : Nat) :
    (Int.land w ((2 ^ k : Nat) : Int) != 0) = Int.testBit w k := by
  cases w with
  | ofNat m =>
    show ((((m &&& 2 ^ k : Nat) : Int)) != 0) = Nat.testBit m k
    rw [nat_and_two_pow]
    by_cases h : m.testBit k = true
    · simp [h]
    · simp [h]
  | negSucc m =>
    show ((((Nat.ldiff (2 ^ k) m : Nat) : Int)) != 0) = !(Nat.testBit m k)
    rw [nat_ldiff_two_pow]
    by_cases h : m.testBit k = true
    · simp [h]
    · simp [h]

theorem testBit_two_pow_cast (j k : Nat) :
    Int.testBit ((2 ^ j : Nat) : Int) k = decide (j = k) := by
  show Nat.testBit (2 ^ j) k = decide (j = k)
  exact Nat.testBit_two_pow

theorem ParticleStatus.toId_eq_two_pow (b : ParticleStatus) :
    b.toId = ((2 ^ b.bitIndex : Nat) : Int) := by
  cases b <;> rfl

theorem ParticleStatus.testBit_toId (b : ParticleStatus) (k : Nat) :
    Int.testBit b.toId k = decide (b.bitIndex = k) := by
  rw [ParticleStatus.toId_eq_two_pow, testBit_two_pow_cast]

theorem portalSet_same {α : Type} (p : Id → α) (idx : Id) (v : α) :
    portalSet p idx v idx = v := by
  simp [portalSet]

theorem portalSet_other {α : Type} (p : Id → α) (idx j : Id) (v : α) (h : j ≠ idx) :
    portalSet p idx v j = p j := by
  simp [portalSet, h]

namespace Particles

variable {T : Type}

/-- The mask test of the source reads the enumerator's bit of the status word. -/
theorem CheckBit_eq_testBit (s : Particles T) (idx : Id) (b : ParticleStatus) :
    s.CheckBit idx b = Int.testBit (s.status idx) b.bitIndex := by
  unfold CheckBit
  rw [ParticleStatus.toId_eq_two_pow, land_two_pow_ne_zero]

theorem SetBit_status (s : Particles T) (idx : Id) (b : ParticleStatus) :
    (s.SetBit idx b).status idx = Int.lor (s.status idx) b.toId := by
  simp [SetBit, portalSet]

theorem ClearBit_status (s : Particles T) (idx : Id) (b : ParticleStatus) :
    (s.ClearBit idx b).status idx = Int.land (s.status idx) (Int.lnot b.toId) := by
  simp [ClearBit, portalSet]

theorem testBit_SetBit (s : Particles T) (idx : Id) (b : ParticleStatus) (k : Nat) :
    Int.testBit ((s.SetBit idx b).status idx) k =
      if k = b.bitIndex then true else Int.testBit (s.status idx) k := by
  rw [SetBit_status, Int.testBit_lor, ParticleStatus.testBit_toId]
  by_cases h : k = b.bitIndex
  · simp [h]
  · have h2 : ¬ b.bitIndex = k := fun e => h e.symm
    simp [h, h2]

theorem testBit_ClearBit (s : Particles T) (idx : Id) (b : ParticleStatus) (k : Nat) :
    Int.testBit ((s.ClearBit idx b).status idx) k =
      if k = b.bitIndex then false else Int.testBit (s.status idx) k := by
  rw [ClearBit_status, Int.testBit_land, Int.testBit_lnot, ParticleStatus.testBit_toId]
  by_cases h : k = b.bitIndex
  · simp [h]
  · have h2 : ¬ b.bitIndex = k := fun e => h e.symm
    simp [h, h2]

theorem Integrateable_eq_bits (s : Particles T) (idx : Id) :
    s.Integrateable idx =
      (Int.testBit (s.status idx) 0 &&
        !(Int.testBit (s.status idx) 1 || Int.testBit (s.status idx) 2 ||
          Int.testBit (s.status idx) 3)) := by
  simp only [Integrateable, OK, Terminated, ExitedSpatialBoundary, ExitedTemporalBoundary,
    CheckBit_eq_testBit, ParticleStatus.bitIndex]

theorem SetTerminated_status (s : Particles T) (idx : Id) :
    (s.SetTerminated idx).status idx =
      Int.lor (Int.land (s.status idx) (Int.lnot ParticleStatus.STATUS_OK.toId))
        ParticleStatus.TERMINATED.toId := by
  simp [SetTerminated, SetBit, ClearBit, portalSet]

theorem SetError_status (s : Particles T) (idx : Id) :
    (s.SetError idx).status idx =
      Int.lor (Int.land (s.status idx) (Int.lnot ParticleStatus.STATUS_OK.toId))
        ParticleStatus.STATUS_ERROR.toId := by
  simp [SetError, SetBit, ClearBit, portalSet]

theorem testBit_SetTerminated (s : Particles T) (idx : Id) (k : Nat) :
    Int.testBit ((s.SetTerminated idx).status idx) k =
      if k = 0 then false else if k = 1 then true else Int.testBit (s.status idx) k := by
  unfold SetTerminated
  rw [testBit_SetBit, testBit_ClearBit]
  simp only [ParticleStatus.bitIndex]
  by_cases h0 : k = 0
  · subst h0; simp
  · simp [h0]

theorem testBit_SetError (s : Particles T) (idx : Id) (k : Nat) :
    Int.testBit ((s.SetError idx).status idx) k =
      if k = 0 then false else if k = 4 then true else Int.testBit (s.status idx) k := by
  unfold SetError
  rw [testBit_SetBit, testBit_ClearBit]
  simp only [ParticleStatus.bitIndex]
  by_cases h0 : k = 0
  · subst h0; simp
  · simp [h0]

end Particles

/-! ## Status predicates and status setters -/

section StatusClaims

variable {T : Type}

/-- C1: for every status word, `Integrateable(idx)` holds exactly when the OK bit (bit 0) is
set and the TERMINATED, EXITED_SPATIAL_BOUNDARY and EXITED_TEMPORAL_BOUNDARY bits (bits 1, 2,
3) are all clear; and `Done(idx)` is the negation of `Integrateable(idx)` both in `Particles`
and in `StateRecordingParticles`. -/
theorem C1_integrateable_done (s : Particles T) (r : StateRecordingParticles T) (idx : Id) :
    (s.Integrateable idx = true ↔
      (Int.testBit (s.status idx) 0 = true ∧ Int.testBit (s.status idx) 1 = false ∧
        Int.testBit (s.status idx) 2 = false ∧ Int.testBit (s.status idx) 3 = false)) ∧
    s.Done idx = !s.Integrateable idx ∧
    r.Done idx = !r.toParticles.Integrateable idx := by
  refine ⟨?_, rfl, rfl⟩
  rw [Particles.Integrateable_eq_bits]
  cases Int.testBit (s.status idx) 0 <;> cases Int.testBit (s.status idx) 1 <;>
    cases Int.testBit (s.status idx) 2 <;> cases Int.testBit (s.status idx) 3 <;> simp

/-- C2: for every prior status word, `SetTerminated(idx)` leaves the word equal to
`(s & ~STATUS_OK) | TERMINATED` and `SetError(idx)` leaves it equal to
`(s & ~STATUS_OK) | STATUS_ERROR`; bit by bit, the OK bit is cleared, the TERMINATED
(resp. ERROR) bit is set and every other bit keeps its prior value; afterwards `OK(idx)` and
`Integrateable(idx)` are false. -/
theorem C2_setTerminated_setError (s : Particles T) (idx : Id) :
    (s.SetTerminated idx).GetStatus idx = Int.lor (Int.land (s.GetStatus idx) (Int.lnot 1)) 2 ∧
    (s.SetError idx).GetStatus idx = Int.lor (Int.land (s.GetStatus idx) (Int.lnot 1)) 16 ∧
    (∀ k : Nat, Int.testBit ((s.SetTerminated idx).GetStatus idx) k =
      if k = 0 then false else if k = 1 then true else Int.testBit (s.GetStatus idx) k) ∧
    (∀ k : Nat, Int.testBit ((s.SetError idx).GetStatus idx) k =
      if k = 0 then false else if k = 4 then true else Int.testBit (s.GetStatus idx) k) ∧
    (s.SetTerminated idx).OK idx = false ∧ (s.SetTerminated idx).Integrateable idx = false ∧
    (s.SetError idx).OK idx = false ∧ (s.SetError idx).Integrateable idx = false := by
  have hT := Particles.testBit_SetTerminated s idx
  have hE := Particles.testBit_SetError s idx
  refine ⟨Particles.SetTerminated_status s idx, Particles.SetError_status s idx, hT, hE,
    ?_, ?_, ?_, ?_⟩
  · rw [Particles.OK, Particles.CheckBit_eq_testBit, hT]; rfl
  · rw [Particles.Integrateable_eq_bits, hT 0]; rfl
  · rw [Particles.OK, Particles.CheckBit_eq_testBit, hE]; rfl
  · rw [Particles.Integrateable_eq_bits, hE 0]; rfl

/-- C3: for every prior status word, `SetExitedSpatialBoundary(idx)` yields `s | 0x4` and
`SetExitedTemporalBoundary(idx)` yields `s | 0x8`: the corresponding bit is set and every
other bit, OK included, keeps its prior value; afterwards `Integrateable(idx)` is false. -/
theorem C3_setExited (s : Particles T) (idx : Id) :
    (s.SetExitedSpatialBoundary idx).GetStatus idx = Int.lor (s.GetStatus idx) 4 ∧
    (s.SetExitedTemporalBoundary idx).GetStatus idx = Int.lor (s.GetStatus idx) 8 ∧
    (∀ k : Nat, Int.testBit ((s.SetExitedSpatialBoundary idx).GetStatus idx) k =
      if k = 2 then true else Int.testBit (s.GetStatus idx) k) ∧
    (∀ k : Nat, Int.testBit ((s.SetExitedTemporalBoundary idx).GetStatus idx) k =
      if k = 3 then true else Int.testBit (s.GetStatus idx) k) ∧
    (s.SetExitedSpatialBoundary idx).Integrateable idx = false ∧
    (s.SetExitedTemporalBoundary idx).Integrateable idx = false := by
  have hS : ∀ k : Nat, Int.testBit ((s.SetExitedSpatialBoundary idx).status idx) k =
      if k = 2 then true else Int.testBit (s.status idx) k :=
    fun k => Particles.testBit_SetBit s idx .EXITED_SPATIAL_BOUNDARY k
  have hX : ∀ k : Nat, Int.testBit ((s.SetExitedTemporalBoundary idx).status idx) k =
      if k = 3 then true else Int.testBit (s.status idx) k :=
    fun k => Particles.testBit_SetBit s idx .EXITED_TEMPORAL_BOUNDARY k
  refine ⟨Particles.SetBit_status s idx _, Particles.SetBit_status s idx _, hS, hX, ?_, ?_⟩
  · rw [Particles.Integrateable_eq_bits, hS 2]; simp
  · rw [Particles.Integrateable_eq_bits, hX 3]; simp

/-- C4: in the base store, `TakeStep(idx, pt)` leaves `GetPos(idx) = pt` and
`GetStep(idx) = n + 1` where `n` is the prior step count; the status portal is unchanged when
`n + 1` differs from `maxSteps`, and when `n + 1 = maxSteps` only slot `idx` changes, to
`(s & ~STATUS_OK) | TERMINATED` (OK cleared, TERMINATED set). -/
theorem C4_takeStep_base (s : Particles T) (idx : Id) (pt : Vec3 T) :
    (s.TakeStep idx pt).GetPos idx = pt ∧
    (s.TakeStep idx pt).GetStep idx = s.GetStep idx + 1 ∧
    (s.TakeStep idx pt).status =
      (if s.GetStep idx + 1 = s.maxSteps then
        portalSet s.status idx (Int.lor (Int.land (s.GetStatus idx) (Int.lnot 1)) 2)
      else s.status) ∧
    (s.TakeStep idx pt).OK idx =
      (if s.GetStep idx + 1 = s.maxSteps then false else s.OK idx) ∧
    (s.TakeStep idx pt).Terminated idx =
      (if s.GetStep idx + 1 = s.maxSteps then true else s.Terminated idx) := by
  by_cases h : s.steps idx + 1 = s.maxSteps
  · have hT := Particles.testBit_SetTerminated
      ({ s with pos := portalSet s.pos idx pt,
                steps := portalSet s.steps idx (s.steps idx + 1) } : Particles T) idx
    have e : s.TakeStep idx pt =
        ({ s with pos := portalSet s.pos idx pt,
                  steps := portalSet s.steps idx (s.steps idx + 1) } :
          Particles T).SetTerminated idx := by
      simp [Particles.TakeStep, h]
    refine ⟨?_, ?_, ?_, ?_, ?_⟩
    · simp [e, Particles.GetPos, Particles.SetTerminated, Particles.SetBit,
        Particles.ClearBit, portalSet]
    · simp [e, Particles.GetStep, Particles.SetTerminated, Particles.SetBit,
        Particles.ClearBit, portalSet]
    · rw [e]
      simp only [Particles.GetStep, h, if_true]
      funext j
      by_cases hj : j = idx
      · subst hj
        simp [Particles.SetTerminated, Particles.SetBit, Particles.ClearBit, portalSet,
          Particles.GetStatus, ParticleStatus.toId]
      · simp [Particles.SetTerminated, Particles.SetBit, Particles.ClearBit, portalSet, hj]
    · rw [e, Particles.OK, Particles.CheckBit_eq_testBit, hT]
      simp [Particles.GetStep, h, ParticleStatus.bitIndex]
    · rw [e, Particles.Terminated, Particles.CheckBit_eq_testBit, hT]
      simp [Particles.GetStep, h, ParticleStatus.bitIndex]
  · have e : s.TakeStep idx pt =
        ({ s with pos := portalSet s.pos idx pt,
                  steps := portalSet s.steps idx (s.steps idx + 1) } : Particles T) := by
      simp [Particles.TakeStep, h]
    refine ⟨?_, ?_, ?_, ?_, ?_⟩
    · simp [e, Particles.GetPos, portalSet]
    · simp [e, Particles.GetStep, portalSet]
    · simp [e, Particles.GetStep, h]
    · simp [e, Particles.GetStep, h, Particles.OK, Particles.CheckBit]
    · simp [e, Particles.GetStep, h, Particles.Terminated, Particles.CheckBit]

end StatusClaims

/-! ## Recording the position in `TakeStep` -/

section PositionClaims

variable {T : Type}

/-- The recording store's `TakeStep` never writes the position portal. -/
theorem recording_TakeStep_keeps_pos (s : StateRecordingParticles T) (idx : Id)
    (pt : Vec3 T) : (s.TakeStep idx pt).pos = s.pos := by
  unfold StateRecordingParticles.TakeStep
  simp only []
  split <;> rfl

/-- The windowed store's `TakeStep` records the point as the current position. -/
theorem round_TakeStep_GetPos (s : StateRecordingParticlesRound T)
    (idx : Id) (pt : Vec3 T) : (s.TakeStep idx pt).toParticles.GetPos idx = pt := by
  simp [StateRecordingParticlesRound.TakeStep, Particles.GetPos, portalSet]

/-- C5 (evaluation at the failing input): on a recording store whose slot 0 is at the origin,
`TakeStep(0, (1, 2, 3))` leaves `GetPos(0)` at the origin, not at `(1, 2, 3)`; the same call
on the base store and on the windowed store leaves `GetPos(0) = (1, 2, 3)`. -/
theorem C5_recording_takeStep_keeps_old_position :
    (sampleRecording.TakeStep 0 ⟨1, 2, 3⟩).toParticles.GetPos 0 = ⟨0, 0, 0⟩ ∧
    (sampleRecording.TakeStep 0 ⟨1, 2, 3⟩).toParticles.GetPos 0 ≠ ⟨1, 2, 3⟩ ∧
    (sampleBase.TakeStep 0 ⟨1, 2, 3⟩).GetPos 0 = ⟨1, 2, 3⟩ ∧
    (sampleRound.TakeStep 0 ⟨1, 2, 3⟩).toParticles.GetPos 0 = ⟨1, 2, 3⟩ := by
  refine ⟨by decide, by decide, by decide, by decide⟩

end PositionClaims

/-! ## Field-wise effect of the base store's methods -/

namespace Particles

variable {T : Type}

theorem base_TakeStep_pos (s : Particles T) (idx : Id) (pt : Vec3 T) :
    (s.TakeStep idx pt).pos = portalSet s.pos idx pt := by
  unfold TakeStep
  simp only []
  split <;> rfl

theorem base_TakeStep_steps (s : Particles T) (idx : Id) (pt : Vec3 T) :
    (s.TakeStep idx pt).steps = portalSet s.steps idx (s.steps idx + 1) := by
  unfold TakeStep
  simp only []
  split <;> rfl

theorem base_TakeStep_maxSteps (s : Particles T) (idx : Id) (pt : Vec3 T) :
    (s.TakeStep idx pt).maxSteps = s.maxSteps := by
  unfold TakeStep
  simp only []
  split <;> rfl

theorem base_TakeStep_status (s : Particles T) (idx : Id) (pt : Vec3 T) :
    (s.TakeStep idx pt).status =
      if s.steps idx + 1 = s.maxSteps then (s.SetTerminated idx).status else s.status := by
  unfold TakeStep
  simp only []
  split <;> rfl

theorem SetBit_status_other (s : Particles T) (j i : Id) (b : ParticleStatus) (h : i ≠ j) :
    (s.SetBit j b).status i = s.status i := by
  simp [SetBit, portalSet, h]

theorem SetTerminated_status_other (s : Particles T) (j i : Id) (h : i ≠ j) :
    (s.SetTerminated j).status i = s.status i := by
  simp [SetTerminated, SetBit, ClearBit, portalSet, h]

theorem SetError_status_other (s : Particles T) (j i : Id) (h : i ≠ j) :
    (s.SetError j).status i = s.status i := by
  simp [SetError, SetBit, ClearBit, portalSet, h]

theorem SetOK_status_other (s : Particles T) (j i : Id) (h : i ≠ j) :
    (s.SetOK j).status i = s.status i := by
  simp [SetOK, Clear, portalSet, h]

/-- A status word equal to `STATUS_OK` makes the particle integrateable. -/
theorem Integrateable_of_status_OK (s : Particles T) (idx : Id)
    (h : s.status idx = ParticleStatus.STATUS_OK.toId) : s.Integrateable idx = true := by
  rw [Integrateable_eq_bits, h]
  decide

/-- An integrateable particle has its TERMINATED bit clear. -/
theorem terminated_bit_of_Integrateable (s : Particles T) (idx : Id)
    (h : s.Integrateable idx = true) : Int.testBit (s.status idx) 1 = false := by
  rw [Integrateable_eq_bits] at h
  cases h1 : Int.testBit (s.status idx) 1
  · rfl
  · rw [h1] at h; simp at h

/-- No status setter other than `SetOK` clears the TERMINATED bit of any slot. -/
theorem execSetter_keeps_terminated (s : Particles T) (c : Call T) (idx : Id)
    (hc : advectionGuard s c = true) (hs : c.isStatusSetter = true)
    (h : Int.testBit (s.status idx) 1 = true) :
    Int.testBit ((s.execSetter c).status idx) 1 = true := by
  cases c with
  | TakeStep j pt => simp [Call.isStatusSetter] at hs
  | SetOK j => simp [advectionGuard] at hc
  | SetTerminated j =>
    by_cases hj : idx = j
    · subst hj; simp [execSetter, testBit_SetTerminated]
    · simpa [execSetter, SetTerminated_status_other s j idx hj] using h
  | SetError j =>
    by_cases hj : idx = j
    · subst hj; simpa [execSetter, testBit_SetError] using h
    · simpa [execSetter, SetError_status_other s j idx hj] using h
  | SetExitedSpatialBoundary j =>
    by_cases hj : idx = j
    · subst hj
      simpa [execSetter, SetExitedSpatialBoundary, testBit_SetBit, ParticleStatus.bitIndex]
        using h
    · simpa [execSetter, SetExitedSpatialBoundary, SetBit_status_other s j idx _ hj] using h
  | SetExitedTemporalBoundary j =>
    by_cases hj : idx = j
    · subst hj
      simpa [execSetter, SetExitedTemporalBoundary, testBit_SetBit, ParticleStatus.bitIndex]
        using h
    · simpa [execSetter, SetExitedTemporalBoundary, SetBit_status_other s j idx _ hj] using h

theorem execSetter_steps (s : Particles T) (c : Call T) : (s.execSetter c).steps = s.steps := by
  cases c <;> rfl

theorem execSetter_pos (s : Particles T) (c : Call T) : (s.execSetter c).pos = s.pos := by
  cases c <;> rfl

theorem execSetter_maxSteps (s : Particles T) (c : Call T) :
    (s.execSetter c).maxSteps = s.maxSteps := by
  cases c <;> rfl

theorem exec_of_setter (s : Particles T) (c : Call T) (hs : c.isStatusSetter = true) :
    s.exec c = s.execSetter c := by
  cases c with
  | TakeStep j pt => simp [Call.isStatusSetter] at hs
  | _ => rfl

end Particles

/-! ## The step budget -/

section BudgetClaims

variable {T : Type}

/-- One call issued under the calling discipline preserves, for every slot, the relation
`0 ≤ steps ≤ maxSteps` together with "a slot that has used up its budget is terminated". -/
theorem Particles.exec_budget (s : Particles T) (c : Call T) (idx : Id)
    (hg : advectionGuard s c = true) (h0 : 0 ≤ s.steps idx) (h1 : s.steps idx ≤ s.maxSteps)
    (h2 : s.steps idx = s.maxSteps → Int.testBit (s.status idx) 1 = true) :
    0 ≤ (s.exec c).steps idx ∧ (s.exec c).steps idx ≤ (s.exec c).maxSteps ∧
      ((s.exec c).steps idx = (s.exec c).maxSteps →
        Int.testBit ((s.exec c).status idx) 1 = true) := by
  by_cases hs : c.isStatusSetter = true
  · rw [Particles.exec_of_setter s c hs, Particles.execSetter_steps,
      Particles.execSetter_maxSteps]
    exact ⟨h0, h1, fun e => Particles.execSetter_keeps_terminated s c idx hg hs (h2 e)⟩
  · cases c with
    | TakeStep j pt =>
      simp only [Particles.exec]
      rw [Particles.base_TakeStep_steps, Particles.base_TakeStep_maxSteps,
        Particles.base_TakeStep_status]
      by_cases hj : idx = j
      · subst hj
        have hint : s.Integrateable idx = true := hg
        have hbit := Particles.terminated_bit_of_Integrateable s idx hint
        have hne : s.steps idx ≠ s.maxSteps := by
          intro e
          rw [h2 e] at hbit
          exact Bool.noConfusion hbit
        have hlt : s.steps idx < s.maxSteps := lt_of_le_of_ne h1 hne
        rw [portalSet_same]
        refine ⟨by unfold Id at *; omega, by unfold Id at *; omega, ?_⟩
        intro e
        rw [if_pos e, Particles.testBit_SetTerminated]
        rfl
      · rw [portalSet_other _ _ _ _ hj]
        refine ⟨h0, h1, ?_⟩
        intro e
        split
        · rw [Particles.SetTerminated_status_other s j idx hj]; exact h2 e
        · exact h2 e
    | _ => simp [Call.isStatusSetter] at hs

/-- The budget relation holds in every state reached under the calling discipline. -/
theorem Particles.runCalls_budget (calls : List (Call T)) (init s : Particles T) (idx : Id)
    (h0 : 0 ≤ init.steps idx) (h1 : init.steps idx ≤ init.maxSteps)
    (h2 : init.steps idx = init.maxSteps → Int.testBit (init.status idx) 1 = true)
    (hrun : Particles.runCalls calls init = some s) :
    0 ≤ s.steps idx ∧ s.steps idx ≤ s.maxSteps ∧
      (s.steps idx = s.maxSteps → Int.testBit (s.status idx) 1 = true) := by
  induction calls generalizing init with
  | nil =>
    simp only [Particles.runCalls, Option.some.injEq] at hrun
    subst hrun
    exact ⟨h0, h1, h2⟩
  | cons c cs ih =>
    simp only [Particles.runCalls] at hrun
    by_cases hg : advectionGuard init c = true
    · rw [if_pos hg] at hrun
      obtain ⟨a, b, d⟩ := Particles.exec_budget init c idx hg h0 h1 h2
      exact ih (init.exec c) a b d hrun
    · rw [if_neg hg] at hrun
      exact Option.noConfusion hrun

/-- C6 (as stated, at `maxSteps = 0`): the store starts at step count 0 with status
`STATUS_OK`, the particle is integrateable, one guarded `TakeStep` is executed, and the step
count is then 1, above the budget 0. -/
theorem C6_counterexample_zero_budget :
    sampleZeroBudget.steps 0 = 0 ∧
    sampleZeroBudget.status 0 = ParticleStatus.STATUS_OK.toId ∧
    Particles.runCalls [Call.TakeStep 0 ⟨1, 0, 0⟩] sampleZeroBudget =
      some (sampleZeroBudget.TakeStep 0 ⟨1, 0, 0⟩) ∧
    (sampleZeroBudget.TakeStep 0 ⟨1, 0, 0⟩).GetStep 0 = 1 ∧
    (sampleZeroBudget.TakeStep 0 ⟨1, 0, 0⟩).maxSteps = 0 ∧
    ¬ ((sampleZeroBudget.TakeStep 0 ⟨1, 0, 0⟩).GetStep 0 ≤
        (sampleZeroBudget.TakeStep 0 ⟨1, 0, 0⟩).maxSteps) := by
  refine ⟨rfl, rfl, rfl, by decide, by decide, by decide⟩

/-- C6 (amended): for every budget `maxSteps ≥ 1`, in every state reached from a slot with
step count 0 and status `STATUS_OK` by a sequence of `SetTerminated`, `SetError`,
`SetExitedSpatialBoundary`, `SetExitedTemporalBoundary` and `TakeStep` calls (on any slots)
in which `TakeStep` is only applied to an integrateable particle, the slot's step count is at
most `maxSteps`. -/
theorem C6_steps_le_maxSteps (init s : Particles T) (idx : Id) (calls : List (Call T))
    (hmax : 1 ≤ init.maxSteps) (h0 : init.GetStep idx = 0)
    (_hok : init.GetStatus idx = ParticleStatus.STATUS_OK.toId)
    (hrun : Particles.runCalls calls init = some s) :
    s.GetStep idx ≤ s.maxSteps := by
  have h0' : init.steps idx = 0 := h0
  have hinv := Particles.runCalls_budget calls init s idx (by unfold Id at *; omega)
    (by unfold Id at *; omega) (fun e => by unfold Id at *; omega) hrun
  exact hinv.2.1

/-- C6 witness: budget 2, two guarded `TakeStep` calls on slot 0. -/
theorem C6_steps_le_maxSteps_witness :
    (1 : Int) ≤ sampleBase.maxSteps ∧ sampleBase.GetStep 0 = 0 ∧
    sampleBase.GetStatus 0 = ParticleStatus.STATUS_OK.toId ∧
    Particles.runCalls [Call.TakeStep 0 ⟨1, 0, 0⟩, Call.TakeStep 0 ⟨2, 0, 0⟩] sampleBase =
      some ((sampleBase.TakeStep 0 ⟨1, 0, 0⟩).TakeStep 0 ⟨2, 0, 0⟩) ∧
    ((sampleBase.TakeStep 0 ⟨1, 0, 0⟩).TakeStep 0 ⟨2, 0, 0⟩).GetStep 0 ≤
      ((sampleBase.TakeStep 0 ⟨1, 0, 0⟩).TakeStep 0 ⟨2, 0, 0⟩).maxSteps :=
  ⟨by decide, rfl, rfl, rfl,
    C6_steps_le_maxSteps sampleBase _ 0
      [Call.TakeStep 0 ⟨1, 0, 0⟩, Call.TakeStep 0 ⟨2, 0, 0⟩] (by decide) rfl rfl rfl⟩

/-- While fewer than `maxSteps` steps have been taken from (step count 0, status OK), the
slot's step count is the number of calls made and its status word is still `STATUS_OK`. -/
theorem Particles.takeSteps_below_budget (s : Particles T) (idx : Id) (pts : Nat → Vec3 T)
    (h0 : s.steps idx = 0) (hok : s.status idx = ParticleStatus.STATUS_OK.toId) (k : Nat)
    (hk : (k : Int) < s.maxSteps) :
    (Particles.takeSteps pts idx k s).steps idx = (k : Int) ∧
    (Particles.takeSteps pts idx k s).status idx = ParticleStatus.STATUS_OK.toId ∧
    (Particles.takeSteps pts idx k s).maxSteps = s.maxSteps := by
  induction k with
  | zero => exact ⟨by simpa using h0, hok, rfl⟩
  | succ n ih =>
    have hn : (n : Int) < s.maxSteps := by
      unfold Id at *; push_cast at hk; omega
    obtain ⟨a, b, c⟩ := ih hn
    have hne : ¬ ((Particles.takeSteps pts idx n s).steps idx + 1 =
        (Particles.takeSteps pts idx n s).maxSteps) := by
      rw [a, c]; unfold Id at *; push_cast at hk; omega
    simp only [Particles.takeSteps]
    rw [Particles.base_TakeStep_steps, Particles.base_TakeStep_status,
      Particles.base_TakeStep_maxSteps, if_neg hne, portalSet_same, a]
    exact ⟨by push_cast; rfl, b, c⟩

/-- The `maxSteps`-th step from (step count 0, status OK) terminates the particle: its status
word becomes `(STATUS_OK & ~STATUS_OK) | TERMINATED`. -/
theorem Particles.takeSteps_at_budget (s : Particles T) (idx : Id) (pts : Nat → Vec3 T)
    (hmax : 1 ≤ s.maxSteps) (h0 : s.steps idx = 0)
    (hok : s.status idx = ParticleStatus.STATUS_OK.toId) :
    ∀ k : Nat, Int.testBit ((Particles.takeSteps pts idx s.maxSteps.toNat s).status idx) k =
      if k = 0 then false else if k = 1 then true
      else Int.testBit ParticleStatus.STATUS_OK.toId k := by
  obtain ⟨m, hm⟩ : ∃ m : Nat, s.maxSteps.toNat = m + 1 := by
    refine ⟨s.maxSteps.toNat - 1, ?_⟩
    unfold Id at *; omega
  have hlt : ((m : Nat) : Int) < s.maxSteps := by unfold Id at *; omega
  obtain ⟨a, b, c⟩ := Particles.takeSteps_below_budget s idx pts h0 hok m hlt
  have heq : (Particles.takeSteps pts idx m s).steps idx + 1 =
      (Particles.takeSteps pts idx m s).maxSteps := by
    rw [a, c]; unfold Id at *; omega
  intro k
  rw [hm]
  simp only [Particles.takeSteps]
  rw [Particles.base_TakeStep_status, if_pos heq, Particles.testBit_SetTerminated, b]

/-- The loop, started after `j ≤ maxSteps` iterations, stops after iteration `maxSteps`
provided the fuel exceeds the number of iterations left. -/
theorem Particles.integrateLoop_from (s : Particles T) (idx : Id) (pts : Nat → Vec3 T)
    (hmax : 1 ≤ s.maxSteps) (h0 : s.steps idx = 0)
    (hok : s.status idx = ParticleStatus.STATUS_OK.toId) (fuel : Nat) :
    ∀ j : Nat, j ≤ s.maxSteps.toNat → s.maxSteps.toNat - j < fuel →
      Particles.integrateLoop pts idx fuel j (Particles.takeSteps pts idx j s) =
        some (s.maxSteps.toNat, Particles.takeSteps pts idx s.maxSteps.toNat s) := by
  induction fuel with
  | zero => intro j _ hf; exact absurd hf (Nat.not_lt_zero _)
  | succ f ih =>
    intro j hj hf
    simp only [Particles.integrateLoop]
    by_cases hlt : j < s.maxSteps.toNat
    · have hjlt : ((j : Nat) : Int) < s.maxSteps := by unfold Id at *; omega
      obtain ⟨_, b, _⟩ := Particles.takeSteps_below_budget s idx pts h0 hok j hjlt
      rw [if_pos (Particles.Integrateable_of_status_OK _ idx b)]
      exact ih (j + 1) (by omega) (by omega)
    · have hje : j = s.maxSteps.toNat := by omega
      subst hje
      have hbit := Particles.takeSteps_at_budget s idx pts hmax h0 hok 0
      have hnot : (Particles.takeSteps pts idx s.maxSteps.toNat s).Integrateable idx = false := by
        rw [Particles.Integrateable_eq_bits, hbit]; rfl
      rw [hnot]
      rfl

/-- C7: for every `maxSteps ≥ 1` and a particle starting at step count 0 with status
`STATUS_OK`, whatever points are supplied: after `k < maxSteps` `TakeStep` calls the particle
is still integrateable with TERMINATED clear; after the `maxSteps`-th call TERMINATED is set,
OK is clear and the particle is not integrateable; and the loop
`while (Integrateable(idx)) TakeStep(idx, p)` returns after exactly `maxSteps` calls (given
any fuel above `maxSteps`). -/
theorem C7_loop_terminates_at_budget (s : Particles T) (idx : Id) (pts : Nat → Vec3 T)
    (hmax : 1 ≤ s.maxSteps) (h0 : s.GetStep idx = 0)
    (hok : s.GetStatus idx = ParticleStatus.STATUS_OK.toId) :
    (∀ k : Nat, (k : Int) < s.maxSteps →
      (Particles.takeSteps pts idx k s).Integrateable idx = true ∧
      (Particles.takeSteps pts idx k s).Terminated idx = false) ∧
    (Particles.takeSteps pts idx s.maxSteps.toNat s).Terminated idx = true ∧
    (Particles.takeSteps pts idx s.maxSteps.toNat s).OK idx = false ∧
    (Particles.takeSteps pts idx s.maxSteps.toNat s).Integrateable idx = false ∧
    (∀ fuel : Nat, s.maxSteps.toNat < fuel →
      Particles.integrateLoop pts idx fuel 0 s =
        some (s.maxSteps.toNat, Particles.takeSteps pts idx s.maxSteps.toNat s)) := by
  have hbit := Particles.takeSteps_at_budget s idx pts hmax h0 hok
  refine ⟨?_, ?_, ?_, ?_, ?_⟩
  · intro k hk
    obtain ⟨_, b, _⟩ := Particles.takeSteps_below_budget s idx pts h0 hok k hk
    have hi := Particles.Integrateable_of_status_OK _ idx b
    refine ⟨hi, ?_⟩
    rw [Particles.Terminated, Particles.CheckBit_eq_testBit]
    exact Particles.terminated_bit_of_Integrateable _ idx hi
  · rw [Particles.Terminated, Particles.CheckBit_eq_testBit, hbit]; rfl
  · rw [Particles.OK, Particles.CheckBit_eq_testBit, hbit]; rfl
  · rw [Particles.Integrateable_eq_bits, hbit]; rfl
  · intro fuel hf
    exact Particles.integrateLoop_from s idx pts hmax h0 hok fuel 0 (Nat.zero_le _)
      (by omega)

/-- C7 witness: budget 2, the constant point sequence; the loop makes exactly 2 calls. -/
theorem C7_loop_terminates_at_budget_witness :
    (1 : Int) ≤ sampleBase.maxSteps ∧ sampleBase.GetStep 0 = 0 ∧
    sampleBase.GetStatus 0 = ParticleStatus.STATUS_OK.toId ∧
    Particles.integrateLoop (fun _ => (⟨1, 0, 0⟩ : Vec3 Int)) 0 5 0 sampleBase =
      some (2, Particles.takeSteps (fun _ => (⟨1, 0, 0⟩ : Vec3 Int)) 0 2 sampleBase) ∧
    (Particles.takeSteps (fun _ => (⟨1, 0, 0⟩ : Vec3 Int)) 0 2 sampleBase).Integrateable 0
      = false :=
  ⟨by decide, rfl, rfl,
    (C7_loop_terminates_at_budget sampleBase 0 (fun _ => (⟨1, 0, 0⟩ : Vec3 Int))
      (by decide) rfl rfl).2.2.2.2 5 (by decide),
    (C7_loop_terminates_at_budget sampleBase 0 (fun _ => (⟨1, 0, 0⟩ : Vec3 Int))
      (by decide) rfl rfl).2.2.2.1⟩

end BudgetClaims

/-! ## Independence of slots -/

section FrameClaims

variable {T : Type}

theorem Particles.eq_of_fields (a b : Particles T) (hp : a.pos = b.pos)
    (hs : a.steps = b.steps) (hst : a.status = b.status) (hm : a.maxSteps = b.maxSteps) :
    a = b := by
  cases a
  cases b
  simp only [Particles.mk.injEq]
  exact ⟨hp, hs, hst, hm⟩

theorem Particles.exec_maxSteps (s : Particles T) (c : Call T) :
    (s.exec c).maxSteps = s.maxSteps := by
  cases c with
  | TakeStep j pt => exact Particles.base_TakeStep_maxSteps s j pt
  | _ => rfl

/-- A call leaves every slot other than its own untouched. -/
theorem Particles.exec_frame (s : Particles T) (c : Call T) (j : Id) (h : j ≠ c.slot) :
    (s.exec c).pos j = s.pos j ∧ (s.exec c).steps j = s.steps j ∧
      (s.exec c).status j = s.status j := by
  cases c with
  | TakeStep i pt =>
    have h' : j ≠ i := h
    simp only [Particles.exec]
    rw [Particles.base_TakeStep_pos, Particles.base_TakeStep_steps,
      Particles.base_TakeStep_status, portalSet_other _ _ _ _ h', portalSet_other _ _ _ _ h']
    refine ⟨rfl, rfl, ?_⟩
    split
    · exact Particles.SetTerminated_status_other s i j h'
    · rfl
  | SetOK i => exact ⟨rfl, rfl, Particles.SetOK_status_other s i j h⟩
  | SetTerminated i => exact ⟨rfl, rfl, Particles.SetTerminated_status_other s i j h⟩
  | SetError i => exact ⟨rfl, rfl, Particles.SetError_status_other s i j h⟩
  | SetExitedSpatialBoundary i => exact ⟨rfl, rfl, Particles.SetBit_status_other s i j _ h⟩
  | SetExitedTemporalBoundary i => exact ⟨rfl, rfl, Particles.SetBit_status_other s i j _ h⟩

/-- What a call writes to its own slot depends only on that slot and on `maxSteps`. -/
theorem Particles.exec_local (s r : Particles T) (c : Call T)
    (hp : s.pos c.slot = r.pos c.slot) (hs : s.steps c.slot = r.steps c.slot)
    (hst : s.status c.slot = r.status c.slot) (hm : s.maxSteps = r.maxSteps) :
    (s.exec c).pos c.slot = (r.exec c).pos c.slot ∧
      (s.exec c).steps c.slot = (r.exec c).steps c.slot ∧
      (s.exec c).status c.slot = (r.exec c).status c.slot := by
  cases c with
  | TakeStep i pt =>
    simp only [Call.slot] at hp hs hst ⊢
    simp only [Particles.exec]
    rw [Particles.base_TakeStep_pos, Particles.base_TakeStep_steps,
      Particles.base_TakeStep_status, Particles.base_TakeStep_pos,
      Particles.base_TakeStep_steps, Particles.base_TakeStep_status]
    simp only [portalSet_same, hs, hm]
    refine ⟨trivial, trivial, ?_⟩
    split
    · rw [Particles.SetTerminated_status, Particles.SetTerminated_status, hst]
    · exact hst
  | SetOK i =>
    simp only [Call.slot] at hp hs hst ⊢
    exact ⟨hp, hs, by simp [Particles.exec, Particles.execSetter, Particles.SetOK,
      Particles.Clear, portalSet]⟩
  | SetTerminated i =>
    simp only [Call.slot] at hp hs hst ⊢
    refine ⟨hp, hs, ?_⟩
    show (s.SetTerminated i).status i = (r.SetTerminated i).status i
    rw [Particles.SetTerminated_status, Particles.SetTerminated_status, hst]
  | SetError i =>
    simp only [Call.slot] at hp hs hst ⊢
    refine ⟨hp, hs, ?_⟩
    show (s.SetError i).status i = (r.SetError i).status i
    rw [Particles.SetError_status, Particles.SetError_status, hst]
  | SetExitedSpatialBoundary i =>
    simp only [Call.slot] at hp hs hst ⊢
    refine ⟨hp, hs, ?_⟩
    show (s.SetBit i _).status i = (r.SetBit i _).status i
    rw [Particles.SetBit_status, Particles.SetBit_status, hst]
  | SetExitedTemporalBoundary i =>
    simp only [Call.slot] at hp hs hst ⊢
    refine ⟨hp, hs, ?_⟩
    show (s.SetBit i _).status i = (r.SetBit i _).status i
    rw [Particles.SetBit_status, Particles.SetBit_status, hst]

/-- At every slot, running `a` then `b` (addressed to distinct slots) gives the same
position, step count and status as running `b` then `a`. -/
theorem Particles.exec_comm_at (s : Particles T) (a b : Call T) (h : a.slot ≠ b.slot)
    (j : Id) :
    ((s.exec a).exec b).pos j = ((s.exec b).exec a).pos j ∧
      ((s.exec a).exec b).steps j = ((s.exec b).exec a).steps j ∧
      ((s.exec a).exec b).status j = ((s.exec b).exec a).status j := by
  by_cases hb : j = b.slot
  · subst hb
    have hja : b.slot ≠ a.slot := fun e => h e.symm
    obtain ⟨p1, s1, t1⟩ := Particles.exec_frame s a b.slot hja
    obtain ⟨p2, s2, t2⟩ := Particles.exec_frame (s.exec b) a b.slot hja
    obtain ⟨p3, s3, t3⟩ := Particles.exec_local (s.exec a) s b p1 s1 t1
      (Particles.exec_maxSteps s a)
    exact ⟨by rw [p3, p2], by rw [s3, s2], by rw [t3, t2]⟩
  · obtain ⟨p1, s1, t1⟩ := Particles.exec_frame (s.exec a) b j hb
    obtain ⟨p0, s0, t0⟩ := Particles.exec_frame s b j hb
    by_cases ha : j = a.slot
    · subst ha
      obtain ⟨p3, s3, t3⟩ := Particles.exec_local (s.exec b) s a p0 s0 t0
        (Particles.exec_maxSteps s b)
      exact ⟨by rw [p1, p3], by rw [s1, s3], by rw [t1, t3]⟩
    · obtain ⟨p2, s2, t2⟩ := Particles.exec_frame s a j ha
      obtain ⟨p4, s4, t4⟩ := Particles.exec_frame (s.exec b) a j ha
      exact ⟨by rw [p1, p2, p4, p0], by rw [s1, s2, s4, s0], by rw [t1, t2, t4, t0]⟩

/-- C8: a call (`TakeStep`, `SetOK`, `SetTerminated`, `SetError`, `SetExitedSpatialBoundary`
or `SetExitedTemporalBoundary`) addressed to slot `i` leaves the position, step count and
status of every other slot unchanged (and `maxSteps` too); the status setters leave the
whole position and step-count portals unchanged, slot `i` included; and two calls addressed
to distinct slots commute. -/
theorem C8_distinct_slots_independent (s : Particles T) (a b : Call T)
    (h : a.slot ≠ b.slot) :
    (∀ j : Id, j ≠ a.slot →
      (s.exec a).GetPos j = s.GetPos j ∧ (s.exec a).GetStep j = s.GetStep j ∧
        (s.exec a).GetStatus j = s.GetStatus j) ∧
    (s.exec a).GetPos b.slot = s.GetPos b.slot ∧
    (s.exec a).GetStep b.slot = s.GetStep b.slot ∧
    (s.exec a).GetStatus b.slot = s.GetStatus b.slot ∧
    (s.exec a).maxSteps = s.maxSteps ∧
    (if a.isStatusSetter then (s.exec a).pos = s.pos ∧ (s.exec a).steps = s.steps
      else True) ∧
    (s.exec a).exec b = (s.exec b).exec a := by
  have hba : b.slot ≠ a.slot := fun e => h e.symm
  obtain ⟨p, q, r⟩ := Particles.exec_frame s a b.slot hba
  refine ⟨fun j hj => Particles.exec_frame s a j hj, p, q, r, Particles.exec_maxSteps s a,
    ?_, ?_⟩
  · by_cases hs : a.isStatusSetter = true
    · rw [if_pos hs, Particles.exec_of_setter s a hs]
      exact ⟨Particles.execSetter_pos s a, Particles.execSetter_steps s a⟩
    · rw [if_neg hs]
      trivial
  · apply Particles.eq_of_fields
    · funext j; exact (Particles.exec_comm_at s a b h j).1
    · funext j; exact (Particles.exec_comm_at s a b h j).2.1
    · funext j; exact (Particles.exec_comm_at s a b h j).2.2
    · rw [Particles.exec_maxSteps, Particles.exec_maxSteps, Particles.exec_maxSteps,
        Particles.exec_maxSteps]

/-- C8 witness: `TakeStep(0, (1,0,0))` and `SetError(1)` on a store with budget 2. -/
theorem C8_distinct_slots_independent_witness :
    (Call.TakeStep 0 ⟨1, 0, 0⟩ : Call Int).slot ≠ (Call.SetError 1 : Call Int).slot ∧
    (sampleBase.exec (Call.TakeStep 0 ⟨1, 0, 0⟩)).GetStatus 1 = sampleBase.GetStatus 1 ∧
    (sampleBase.exec (Call.TakeStep 0 ⟨1, 0, 0⟩)).exec (Call.SetError 1) =
      (sampleBase.exec (Call.SetError 1)).exec (Call.TakeStep 0 ⟨1, 0, 0⟩) :=
  ⟨by decide,
    (C8_distinct_slots_independent sampleBase (Call.TakeStep 0 ⟨1, 0, 0⟩) (Call.SetError 1)
      (by decide)).2.2.2.1,
    (C8_distinct_slots_independent sampleBase (Call.TakeStep 0 ⟨1, 0, 0⟩) (Call.SetError 1)
      (by decide)).2.2.2.2.2.2⟩

end FrameClaims

/-! ## History writes of the recording store -/

section HistoryClaims

variable {T : Type}

theorem recording_TakeStep_steps (s : StateRecordingParticles T) (idx : Id) (pt : Vec3 T) :
    (s.TakeStep idx pt).steps = portalSet s.steps idx (s.steps idx + 1) := by
  unfold StateRecordingParticles.TakeStep
  simp only []
  split <;> rfl

theorem recording_TakeStep_status (s : StateRecordingParticles T) (idx : Id) (pt : Vec3 T) :
    (s.TakeStep idx pt).status =
      if s.steps idx + 1 = s.maxSteps then (s.toParticles.SetTerminated idx).status
      else s.status := by
  unfold StateRecordingParticles.TakeStep
  simp only []
  split <;> rfl

theorem recording_TakeStep_maxSteps (s : StateRecordingParticles T) (idx : Id) (pt : Vec3 T) :
    (s.TakeStep idx pt).maxSteps = s.maxSteps := by
  unfold StateRecordingParticles.TakeStep
  simp only []
  split <;> rfl

theorem recording_TakeStep_histSize (s : StateRecordingParticles T) (idx : Id) (pt : Vec3 T) :
    (s.TakeStep idx pt).histSize = s.histSize := by
  unfold StateRecordingParticles.TakeStep
  simp only []
  split <;> rfl

theorem recording_TakeStep_history (s : StateRecordingParticles T) (idx : Id) (pt : Vec3 T) :
    (s.TakeStep idx pt).history =
      portalSet s.history (idx * s.histSize + s.steps idx) pt := by
  unfold StateRecordingParticles.TakeStep
  simp only []
  split <;> rfl

/-- On step counts, status words and budget, a call on the recording store acts like the
same call on its base store; the window size is never changed. -/
theorem recording_exec_view (s : StateRecordingParticles T) (c : Call T) :
    (s.exec c).steps = (s.toParticles.exec c).steps ∧
      (s.exec c).status = (s.toParticles.exec c).status ∧
      (s.exec c).maxSteps = (s.toParticles.exec c).maxSteps ∧
      (s.exec c).histSize = s.histSize := by
  cases c with
  | TakeStep i pt =>
    simp only [StateRecordingParticles.exec, Particles.exec]
    rw [recording_TakeStep_steps, recording_TakeStep_status, recording_TakeStep_maxSteps,
      recording_TakeStep_histSize, Particles.base_TakeStep_steps,
      Particles.base_TakeStep_status, Particles.base_TakeStep_maxSteps]
    exact ⟨rfl, rfl, rfl, rfl⟩
  | _ => exact ⟨rfl, rfl, rfl, rfl⟩

/-- The budget relation, the budget and the window size in every state the recording store
reaches under the calling discipline. -/
theorem recording_runCalls_budget (calls : List (Call T)) (init s : StateRecordingParticles T)
    (idx : Id) (h0 : 0 ≤ init.steps idx) (h1 : init.steps idx ≤ init.maxSteps)
    (h2 : init.steps idx = init.maxSteps → Int.testBit (init.status idx) 1 = true)
    (hrun : StateRecordingParticles.runCalls calls init = some s) :
    0 ≤ s.steps idx ∧ s.steps idx ≤ s.maxSteps ∧
      (s.steps idx = s.maxSteps → Int.testBit (s.status idx) 1 = true) ∧
      s.maxSteps = init.maxSteps ∧ s.histSize = init.histSize := by
  induction calls generalizing init with
  | nil =>
    simp only [StateRecordingParticles.runCalls, Option.some.injEq] at hrun
    subst hrun
    exact ⟨h0, h1, h2, rfl, rfl⟩
  | cons c cs ih =>
    simp only [StateRecordingParticles.runCalls] at hrun
    by_cases hg : advectionGuard init.toParticles c = true
    · rw [if_pos hg] at hrun
      obtain ⟨a, b, d⟩ := Particles.exec_budget init.toParticles c idx hg h0 h1 h2
      obtain ⟨v1, v2, v3, v4⟩ := recording_exec_view init c
      obtain ⟨r1, r2, r3, r4, r5⟩ := ih (init.exec c) (by rw [v1]; exact a)
        (by rw [v1, v3]; exact b) (by rw [v1, v2, v3]; exact d) hrun
      refine ⟨r1, r2, r3, ?_, ?_⟩
      · exact r4.trans (v3.trans (Particles.exec_maxSteps _ _))
      · exact r5.trans v4
    · rw [if_neg hg] at hrun
      exact Option.noConfusion hrun

/-- Window entries of distinct particles are distinct history indices. -/
theorem history_index_ne (H i j n m : Int) (hij : j ≠ i) (hn0 : 0 ≤ n) (hn : n < H)
    (hm0 : 0 ≤ m) (hm : m < H) : j * H + m ≠ i * H + n := by
  intro e
  rcases lt_or_gt_of_ne hij with hlt | hgt
  · have h1 : j + 1 ≤ i := hlt
    have h2 : (j + 1) * H ≤ i * H := mul_le_mul_of_nonneg_right h1 (by omega)
    have h3 : (j + 1) * H = j * H + H := by ring
    omega
  · have h1 : i + 1 ≤ j := hgt
    have h2 : (i + 1) * H ≤ j * H := mul_le_mul_of_nonneg_right h1 (by omega)
    have h3 : (i + 1) * H = i * H + H := by ring
    omega

/-- C9 (as stated, with an explicit history size below the budget): the store is built by the
five-argument constructor with `_maxSteps = 3`, `_histSize = 1`; particle 0 starts at step
count 0, takes one guarded step and is still integrateable; its next `TakeStep` writes
history index 1, outside its own range `[0, 1)`, which is entry 0 of particle 1.  With a
defaulted history size and `_maxSteps = 0` the very first `TakeStep` of the integrateable
particle 0 writes history index 0, outside its (empty) range `[0, 0)`. -/
theorem C9_counterexample_short_history :
    sampleShortHistory.GetStep 0 = 0 ∧
    StateRecordingParticles.runCalls [Call.TakeStep 0 ⟨1, 0, 0⟩] sampleShortHistory =
      some (sampleShortHistory.TakeStep 0 ⟨1, 0, 0⟩) ∧
    (sampleShortHistory.TakeStep 0 ⟨1, 0, 0⟩).Integrateable 0 = true ∧
    ¬ (0 * (sampleShortHistory.TakeStep 0 ⟨1, 0, 0⟩).histSize ≤ (1 : Int) ∧
        (1 : Int) < (0 + 1) * (sampleShortHistory.TakeStep 0 ⟨1, 0, 0⟩).histSize) ∧
    (sampleShortHistory.TakeStep 0 ⟨1, 0, 0⟩).history 1 = ⟨0, 0, 0⟩ ∧
    ((sampleShortHistory.TakeStep 0 ⟨1, 0, 0⟩).TakeStep 0 ⟨2, 0, 0⟩).history 1 = ⟨2, 0, 0⟩ ∧
    (sampleShortHistory.TakeStep 0 ⟨1, 0, 0⟩).GetHistory 1 0 = ⟨0, 0, 0⟩ ∧
    ((sampleShortHistory.TakeStep 0 ⟨1, 0, 0⟩).TakeStep 0 ⟨2, 0, 0⟩).GetHistory 1 0 =
      ⟨2, 0, 0⟩ ∧
    sampleZeroRecording.GetStep 0 = 0 ∧ sampleZeroRecording.Integrateable 0 = true ∧
    ¬ (0 * sampleZeroRecording.histSize ≤ (0 : Int) ∧
        (0 : Int) < (0 + 1) * sampleZeroRecording.histSize) ∧
    sampleZeroRecording.history 0 = ⟨0, 0, 0⟩ ∧
    (sampleZeroRecording.TakeStep 0 ⟨2, 0, 0⟩).history 0 = ⟨2, 0, 0⟩ := by
  refine ⟨rfl, rfl, by decide, by decide, by decide, by decide, by decide, by decide,
    rfl, by decide, by decide, by decide, by decide⟩

/-- C9 (amended): for a recording store with `1 ≤ maxSteps ≤ histSize` (in particular when
the history size defaulted to `maxSteps ≥ 1`), in every state reached under the calling
discipline from step count 0 in which particle `idx` is integrateable, `TakeStep(idx, pt)`
writes the history portal at the single index `idx * histSize + steps(idx)`, which lies in
the particle's own range `[idx * histSize, (idx + 1) * histSize)`; no window entry
`GetHistory(j, step)`, `0 ≤ step < histSize`, of another particle `j` is changed. -/
theorem C9_history_write_in_own_range (init s : StateRecordingParticles T) (idx : Id)
    (calls : List (Call T)) (pt : Vec3 T)
    (hmax : 1 ≤ init.maxSteps) (hhist : init.maxSteps ≤ init.histSize)
    (h0 : init.GetStep idx = 0)
    (hrun : StateRecordingParticles.runCalls calls init = some s)
    (hint : s.Integrateable idx = true) :
    (s.TakeStep idx pt).history =
      portalSet s.history (idx * s.histSize + s.GetStep idx) pt ∧
    idx * s.histSize ≤ idx * s.histSize + s.GetStep idx ∧
    idx * s.histSize + s.GetStep idx < (idx + 1) * s.histSize ∧
    (∀ k : Id, ¬ (idx * s.histSize ≤ k ∧ k < (idx + 1) * s.histSize) →
      (s.TakeStep idx pt).history k = s.history k) ∧
    (∀ j step : Id, j ≠ idx → 0 ≤ step → step < s.histSize →
      (s.TakeStep idx pt).GetHistory j step = s.GetHistory j step) := by
  have h0' : init.steps idx = 0 := h0
  obtain ⟨r1, r2, r3, r4, r5⟩ := recording_runCalls_budget calls init s idx
    (by unfold Id at *; omega) (by unfold Id at *; omega)
    (fun e => by unfold Id at *; omega) hrun
  have hbit := Particles.terminated_bit_of_Integrateable s.toParticles idx hint
  have hne : s.steps idx ≠ s.maxSteps := by
    intro e
    rw [r3 e] at hbit
    exact Bool.noConfusion hbit
  have hlt : s.steps idx < s.histSize := by
    rw [r5]
    rw [r4] at r2 hne
    unfold Id at *
    omega
  have hexp : (idx + 1) * s.histSize = idx * s.histSize + s.histSize := by
    unfold Id at *; ring
  have hlo : idx * s.histSize ≤ idx * s.histSize + s.steps idx := by
    unfold Id at *; omega
  have hhi : idx * s.histSize + s.steps idx < (idx + 1) * s.histSize := by
    rw [hexp]; unfold Id at *; omega
  refine ⟨recording_TakeStep_history s idx pt, hlo, hhi, ?_, ?_⟩
  · intro k hk
    rw [recording_TakeStep_history]
    apply portalSet_other
    intro e
    exact hk ⟨by rw [e]; exact hlo, by rw [e]; exact hhi⟩
  · intro j step hj hs0 hs1
    unfold StateRecordingParticles.GetHistory
    rw [recording_TakeStep_history, recording_TakeStep_histSize]
    apply portalSet_other
    exact history_index_ne s.histSize idx j (s.steps idx) step hj r1 hlt hs0 hs1

/-- C9 witness: a store built by the four-argument constructor with `_maxSteps = 2`, particle
0 after one guarded step. -/
theorem C9_history_write_in_own_range_witness :
    (1 : Int) ≤ sampleRecording.maxSteps ∧ sampleRecording.maxSteps ≤ sampleRecording.histSize ∧
    sampleRecording.GetStep 0 = 0 ∧
    StateRecordingParticles.runCalls [Call.TakeStep 0 ⟨1, 0, 0⟩] sampleRecording =
      some (sampleRecording.TakeStep 0 ⟨1, 0, 0⟩) ∧
    (sampleRecording.TakeStep 0 ⟨1, 0, 0⟩).Integrateable 0 = true ∧
    ((sampleRecording.TakeStep 0 ⟨1, 0, 0⟩).TakeStep 0 ⟨2, 0, 0⟩).history =
      portalSet (sampleRecording.TakeStep 0 ⟨1, 0, 0⟩).history
        (0 * (sampleRecording.TakeStep 0 ⟨1, 0, 0⟩).histSize +
          (sampleRecording.TakeStep 0 ⟨1, 0, 0⟩).GetStep 0) ⟨2, 0, 0⟩ :=
  ⟨by decide, by decide, rfl, rfl, by decide,
    (C9_history_write_in_own_range sampleRecording _ 0 [Call.TakeStep 0 ⟨1, 0, 0⟩] ⟨2, 0, 0⟩
      (by decide) (by decide) rfl rfl (by decide)).1⟩

end HistoryClaims

/-! ## The windowed store -/

section RoundClaims

variable {T : Type}

theorem round_TakeStep_steps (s : StateRecordingParticlesRound T) (idx : Id) (pt : Vec3 T) :
    (s.TakeStep idx pt).steps = portalSet s.steps idx (s.steps idx + 1) := by
  unfold StateRecordingParticlesRound.TakeStep
  simp only []
  split <;> rfl

theorem round_TakeStep_status (s : StateRecordingParticlesRound T) (idx : Id) (pt : Vec3 T) :
    (s.TakeStep idx pt).status =
      if s.steps idx + 1 = s.totalMaxSteps then (s.toParticles.SetTerminated idx).status
      else s.status := by
  unfold StateRecordingParticlesRound.TakeStep
  simp only []
  split <;> rfl

theorem round_TakeStep_window (s : StateRecordingParticlesRound T) (idx : Id) (pt : Vec3 T) :
    (s.TakeStep idx pt).offset = s.offset ∧ (s.TakeStep idx pt).histSize = s.histSize ∧
      (s.TakeStep idx pt).totalMaxSteps = s.totalMaxSteps := by
  unfold StateRecordingParticlesRound.TakeStep
  simp only []
  split <;> exact ⟨rfl, rfl, rfl⟩

/-- C10: in the windowed store `Done(idx)` is true exactly when `steps(idx) - offset` equals
`histSize` or the particle is not integrateable; and when a `TakeStep` fills the window
(`steps + 1 - offset = histSize`) while the new step count stays below `totalMaxSteps`, the
particle is `Done` although its status word is unchanged: a word that was exactly
`STATUS_OK` still is, TERMINATED is clear and the particle is still integrateable. -/
theorem C10_round_done_on_full_window (s : StateRecordingParticlesRound T) (idx : Id)
    (pt : Vec3 T) (hok : s.GetStatus idx = ParticleStatus.STATUS_OK.toId)
    (hfill : s.GetStep idx + 1 - s.offset = s.histSize)
    (hbelow : s.GetStep idx + 1 < s.totalMaxSteps) :
    (∀ (r : StateRecordingParticlesRound T) (j : Id),
      r.Done j = true ↔ (r.GetStep j - r.offset = r.histSize ∨ r.Integrateable j = false)) ∧
    (s.TakeStep idx pt).Done idx = true ∧
    (s.TakeStep idx pt).status = s.status ∧
    (s.TakeStep idx pt).GetStatus idx = ParticleStatus.STATUS_OK.toId ∧
    (s.TakeStep idx pt).Terminated idx = false ∧
    (s.TakeStep idx pt).Integrateable idx = true := by
  have hne : ¬ (s.steps idx + 1 = s.totalMaxSteps) := by
    intro e
    have h' : s.steps idx + 1 < s.totalMaxSteps := hbelow
    rw [e] at h'
    exact lt_irrefl _ h'
  have hst : (s.TakeStep idx pt).status = s.status := by
    rw [round_TakeStep_status, if_neg hne]
  have hst1 : (s.TakeStep idx pt).status idx = ParticleStatus.STATUS_OK.toId := by
    rw [hst]; exact hok
  have hint := Particles.Integrateable_of_status_OK (s.TakeStep idx pt).toParticles idx hst1
  refine ⟨?_, ?_, hst, hst1, ?_, hint⟩
  · intro r j
    simp [StateRecordingParticlesRound.Done, Particles.GetStep]
  · obtain ⟨w1, w2, _⟩ := round_TakeStep_window s idx pt
    have hfill' : s.steps idx + 1 - s.offset = s.histSize := hfill
    simp [StateRecordingParticlesRound.Done, round_TakeStep_steps, portalSet_same, w1, w2,
      hfill']
  · rw [Particles.Terminated, Particles.CheckBit_eq_testBit]
    exact Particles.terminated_bit_of_Integrateable _ idx hint

/-- C10 witness: window 2 at offset 2, total budget 10, three steps taken; the fourth step
fills the window. -/
theorem C10_round_done_on_full_window_witness :
    sampleRound.GetStatus 0 = ParticleStatus.STATUS_OK.toId ∧
    sampleRound.GetStep 0 + 1 - sampleRound.offset = sampleRound.histSize ∧
    sampleRound.GetStep 0 + 1 < sampleRound.totalMaxSteps ∧
    (sampleRound.TakeStep 0 ⟨1, 0, 0⟩).Done 0 = true ∧
    (sampleRound.TakeStep 0 ⟨1, 0, 0⟩).GetStatus 0 = ParticleStatus.STATUS_OK.toId :=
  ⟨rfl, by decide, by decide,
    (C10_round_done_on_full_window sampleRound 0 ⟨1, 0, 0⟩ rfl (by decide) (by decide)).2.1,
    (C10_round_done_on_full_window sampleRound 0 ⟨1, 0, 0⟩ rfl (by decide)
      (by decide)).2.2.2.1⟩

end RoundClaims

/-! ## Recorded history of the recording store -/

section RecordedHistoryClaims

variable {T : Type}

theorem recording_belowBudget_iff (s : StateRecordingParticles T) (j : Id) :
    s.belowBudget j = true ↔ 0 ≤ s.steps j ∧ s.steps j < s.maxSteps := by
  simp [StateRecordingParticles.belowBudget]

/-- Reading a list of entries that were each written in order gives back the list. -/
theorem map_range_succ_cons {α : Type} (f : Nat → α) (n : Nat) :
    (List.range (n + 1)).map f = f 0 :: (List.range n).map (fun i => f (i + 1)) := by
  rw [List.range_succ_eq_map, List.map_cons, List.map_map]
  rfl

/-- Generalised form of the recorded-history property: started with `m` steps already taken by
particle `idx`, a run of budget-respecting `TakeStep` calls adds the points addressed to `idx`
to its step count and to its history entries `m, m + 1, ...`, and keeps the entries below
`m`. -/
theorem recording_runTakeSteps_history (calls : List (Id × Vec3 T))
    (s0 s : StateRecordingParticles T) (idx : Id)
    (hH : s0.histSize = s0.maxSteps) (hm0 : 0 ≤ s0.steps idx)
    (hmle : s0.steps idx ≤ 0 ∨ s0.steps idx ≤ s0.maxSteps)
    (hrun : StateRecordingParticles.runTakeSteps calls s0 = some s) :
    s.steps idx = s0.steps idx + ((pointsFor idx calls).length : Int) ∧
    (∀ k : Int, 0 ≤ k → k < s0.steps idx → s.GetHistory idx k = s0.GetHistory idx k) ∧
    (List.range (pointsFor idx calls).length).map
      (fun (i : Nat) => s.GetHistory idx (s0.steps idx + (i : Int))) = pointsFor idx calls := by
  induction calls generalizing s0 with
  | nil =>
    simp only [StateRecordingParticles.runTakeSteps, Option.some.injEq] at hrun
    subst hrun
    simp [pointsFor]
  | cons c cs ih =>
    obtain ⟨j, pt⟩ := c
    simp only [StateRecordingParticles.runTakeSteps] at hrun
    by_cases hg : s0.belowBudget j = true
    · rw [if_pos hg] at hrun
      obtain ⟨hj0, hjlt⟩ := (recording_belowBudget_iff s0 j).1 hg
      have e1 : (s0.TakeStep j pt).histSize = s0.histSize := recording_TakeStep_histSize s0 j pt
      have e2 : (s0.TakeStep j pt).maxSteps = s0.maxSteps := recording_TakeStep_maxSteps s0 j pt
      have hH1 : (s0.TakeStep j pt).histSize = (s0.TakeStep j pt).maxSteps := by
        rw [e1, e2]; exact hH
      by_cases hji : j = idx
      · subst hji
        have e3 : (s0.TakeStep j pt).steps j = s0.steps j + 1 := by
          rw [recording_TakeStep_steps, portalSet_same]
        obtain ⟨r1, r2, r3⟩ := ih (s0.TakeStep j pt) hH1
          (by rw [e3]; unfold Id at *; omega)
          (by rw [e3, e2]; right; unfold Id at *; omega) hrun
        have hlen : pointsFor j ((j, pt) :: cs) = pt :: pointsFor j cs := by
          simp [pointsFor]
        have hold : ∀ k : Int, 0 ≤ k → k < s0.steps j →
            (s0.TakeStep j pt).GetHistory j k = s0.GetHistory j k := by
          intro k _ hk
          unfold StateRecordingParticles.GetHistory
          rw [recording_TakeStep_history, e1]
          apply portalSet_other
          intro e
          unfold Id at *
          omega
        refine ⟨?_, ?_, ?_⟩
        · rw [r1, e3, hlen, List.length_cons]
          push_cast
          unfold Id at *
          omega
        · intro k hk0 hk
          rw [r2 k hk0 (by rw [e3]; unfold Id at *; omega)]
          exact hold k hk0 hk
        · rw [hlen, List.length_cons, map_range_succ_cons]
          congr 1
          · have : s.GetHistory j (s0.steps j + ((0 : Nat) : Int)) =
                (s0.TakeStep j pt).GetHistory j (s0.steps j) := by
              simp only [Nat.cast_zero, add_zero]
              exact r2 (s0.steps j) hj0 (by rw [e3]; unfold Id at *; omega)
            rw [this]
            unfold StateRecordingParticles.GetHistory
            rw [recording_TakeStep_history, e1, portalSet_same]
          · refine Eq.trans ?_ r3
            apply List.map_congr_left
            intro i _
            rw [e3]
            congr 1
            push_cast
            unfold Id at *
            omega
      · have e3 : (s0.TakeStep j pt).steps idx = s0.steps idx := by
          rw [recording_TakeStep_steps, portalSet_other _ _ _ _ (fun e => hji e.symm)]
        obtain ⟨r1, r2, r3⟩ := ih (s0.TakeStep j pt) hH1 (by rw [e3]; exact hm0)
          (by rw [e3, e2]; exact hmle) hrun
        have hlen : pointsFor idx ((j, pt) :: cs) = pointsFor idx cs := by
          simp [pointsFor, hji]
        rw [e3] at r1 r2 r3
        refine ⟨by rw [hlen]; exact r1, ?_, by rw [hlen]; exact r3⟩
        intro k hk0 hk
        rw [r2 k hk0 hk]
        unfold StateRecordingParticles.GetHistory
        rw [recording_TakeStep_history, e1]
        apply portalSet_other
        have hkH : k < s0.histSize := by
          rw [hH]; unfold Id at *; omega
        exact history_index_ne s0.histSize j idx (s0.steps j) k (fun e => hji e.symm) hj0
          (by rw [hH]; exact hjlt) hk0 hkH
    · rw [if_neg hg] at hrun
      exact Option.noConfusion hrun

/-- C11: in a recording store with `histSize = maxSteps`, for a particle `idx` that starts at
step count 0, after any sequence of `TakeStep` calls (on `idx` and on other ids, arbitrarily
interleaved) in which every call is issued for a particle below its budget (step count in
`[0, maxSteps)`, so that at most `maxSteps` calls are addressed to `idx`), `GetStep(idx)` is
the number `n` of points passed for `idx`, and `GetHistory(idx, 0 .. n - 1)` are exactly those
points in call order. -/
theorem C11_history_matches_steps (init s : StateRecordingParticles T) (idx : Id)
    (calls : List (Id × Vec3 T)) (hH : init.histSize = init.maxSteps)
    (h0 : init.GetStep idx = 0)
    (hrun : StateRecordingParticles.runTakeSteps calls init = some s) :
    s.GetStep idx = ((pointsFor idx calls).length : Int) ∧
    s.readHistory idx (pointsFor idx calls).length = pointsFor idx calls := by
  have h0' : init.steps idx = 0 := h0
  obtain ⟨r1, _, r3⟩ := recording_runTakeSteps_history calls init s idx hH
    (by rw [h0']) (by left; rw [h0']) hrun
  refine ⟨?_, ?_⟩
  · show s.steps idx = _
    rw [r1, h0', zero_add]
  · unfold StateRecordingParticles.readHistory
    refine Eq.trans ?_ r3
    apply List.map_congr_left
    intro i _
    rw [h0', zero_add]

/-- C11 witness: budget 2; two steps of particle 0 with a step of particle 1 in between. -/
theorem C11_history_matches_steps_witness :
    sampleRecording.histSize = sampleRecording.maxSteps ∧ sampleRecording.GetStep 0 = 0 ∧
    StateRecordingParticles.runTakeSteps [(0, ⟨1, 0, 0⟩), (1, ⟨5, 5, 5⟩), (0, ⟨2, 0, 0⟩)]
        sampleRecording =
      some (((sampleRecording.TakeStep 0 ⟨1, 0, 0⟩).TakeStep 1 ⟨5, 5, 5⟩).TakeStep 0
        ⟨2, 0, 0⟩) ∧
    (((sampleRecording.TakeStep 0 ⟨1, 0, 0⟩).TakeStep 1 ⟨5, 5, 5⟩).TakeStep 0
        ⟨2, 0, 0⟩).GetStep 0 = 2 ∧
    (((sampleRecording.TakeStep 0 ⟨1, 0, 0⟩).TakeStep 1 ⟨5, 5, 5⟩).TakeStep 0
        ⟨2, 0, 0⟩).readHistory 0 2 = [⟨1, 0, 0⟩, ⟨2, 0, 0⟩] :=
  ⟨rfl, rfl, rfl,
    (C11_history_matches_steps sampleRecording _ 0
      [(0, ⟨1, 0, 0⟩), (1, ⟨5, 5, 5⟩), (0, ⟨2, 0, 0⟩)] rfl rfl rfl).1,
    (C11_history_matches_steps sampleRecording _ 0
      [(0, ⟨1, 0, 0⟩), (1, ⟨5, 5, 5⟩), (0, ⟨2, 0, 0⟩)] rfl rfl rfl).2⟩

end RecordedHistoryClaims

/-! ## Fill level of the window -/

section WindowFillClaims

variable {T : Type}

theorem round_TakeStep_history (s : StateRecordingParticlesRound T) (idx : Id) (pt : Vec3 T) :
    (s.TakeStep idx pt).history =
      portalSet s.history (idx * s.histSize + (s.steps idx - s.offset)) pt := by
  unfold StateRecordingParticlesRound.TakeStep
  simp only []
  split <;> rfl

theorem emod_of_window (w d : Int) (r : Nat) (hd0 : 0 ≤ d) (hd : d < w) :
    ((r : Int) * w + d) % w = d := by
  rw [add_comm, Int.add_mul_emod_self]
  exact Int.emod_eq_of_lt hd0 hd

/-- C13 (as stated, at a full window): in the sample windowed store (window 2, offset
`2 = 1 * 2`) after the step that brings particle 0 to `n = 4 = offset + w` completed steps,
the window holds `steps - offset = 2` positions, whereas `n mod w = 0`. -/
theorem C13_counterexample_full_window :
    (1 : Int) ≤ (sampleRound.TakeStep 0 ⟨1, 0, 0⟩).histSize ∧
    (sampleRound.TakeStep 0 ⟨1, 0, 0⟩).offset = 1 * (sampleRound.TakeStep 0 ⟨1, 0, 0⟩).histSize ∧
    (sampleRound.TakeStep 0 ⟨1, 0, 0⟩).GetStep 0 = 4 ∧
    (sampleRound.TakeStep 0 ⟨1, 0, 0⟩).offset ≤ (4 : Int) ∧
    (4 : Int) ≤ (sampleRound.TakeStep 0 ⟨1, 0, 0⟩).offset +
      (sampleRound.TakeStep 0 ⟨1, 0, 0⟩).histSize ∧
    (sampleRound.TakeStep 0 ⟨1, 0, 0⟩).windowFill 0 = 2 ∧
    (4 : Int) % (sampleRound.TakeStep 0 ⟨1, 0, 0⟩).histSize = 0 ∧
    (sampleRound.TakeStep 0 ⟨1, 0, 0⟩).windowFill 0 ≠
      (4 : Int) % (sampleRound.TakeStep 0 ⟨1, 0, 0⟩).histSize := by
  refine ⟨by decide, by decide, by decide, by decide, by decide, by decide, by decide,
    by decide⟩

/-- C13 (amended): in the windowed store with window size `w = histSize ≥ 1` and offset a
multiple `r * w` of the window size, when particle `idx` has `n` completed steps with
`offset ≤ n ≤ offset + w`, the number of positions held in its current window,
`steps - offset`, equals `n mod w` as long as the window is not full (`n < offset + w`) and
equals `w` when it is full (`n = offset + w`, where `n mod w = 0` and `Done` holds); `Done`
compares this number with `histSize` and the next `TakeStep` writes window entry
`idx * histSize + (steps - offset)`. -/
theorem C13_window_fill (s : StateRecordingParticlesRound T) (idx : Id) (r : Nat) (n : Int)
    (_hw : 1 ≤ s.histSize) (hoff : s.offset = (r : Int) * s.histSize)
    (hn : s.GetStep idx = n) (hlo : s.offset ≤ n) (hhi : n ≤ s.offset + s.histSize) :
    s.windowFill idx = (if n = s.offset + s.histSize then s.histSize else n % s.histSize) ∧
    (if n = s.offset + s.histSize then n % s.histSize = 0 ∧ s.Done idx = true
      else s.Done idx = !s.toParticles.Integrateable idx) ∧
    s.Done idx = (s.windowFill idx == s.histSize || !s.toParticles.Integrateable idx) ∧
    (∀ pt : Vec3 T, (s.TakeStep idx pt).history =
      portalSet s.history (idx * s.histSize + s.windowFill idx) pt) := by
  have hn' : s.steps idx = n := hn
  have hfill : s.windowFill idx = n - s.offset := by
    unfold StateRecordingParticlesRound.windowFill; rw [hn']
  have hdone : s.Done idx = (s.windowFill idx == s.histSize ||
      !s.toParticles.Integrateable idx) := rfl
  refine ⟨?_, ?_, hdone, fun pt => round_TakeStep_history s idx pt⟩
  · by_cases hfull : n = s.offset + s.histSize
    · rw [if_pos hfull, hfill, hfull]; unfold Id at *; omega
    · rw [if_neg hfull, hfill]
      have hd : n - s.offset < s.histSize := by unfold Id at *; omega
      have hd0 : 0 ≤ n - s.offset := by unfold Id at *; omega
      have e : n = (r : Int) * s.histSize + (n - s.offset) := by
        rw [← hoff]; unfold Id at *; omega
      have := emod_of_window s.histSize (n - s.offset) r hd0 hd
      rw [← e] at this
      exact this.symm
  · by_cases hfull : n = s.offset + s.histSize
    · rw [if_pos hfull]
      refine ⟨?_, ?_⟩
      · rw [hfull, hoff]
        have : (r : Int) * s.histSize + s.histSize = ((r : Int) + 1) * s.histSize := by ring
        rw [this]
        exact Int.mul_emod_left _ _
      · rw [hdone, hfill, hfull]
        have : s.offset + s.histSize - s.offset = s.histSize := by unfold Id at *; omega
        rw [this]
        simp
    · rw [if_neg hfull, hdone, hfill]
      have hne : ¬ (n - s.offset = s.histSize) := by
        intro e; apply hfull; unfold Id at *; omega
      simp [hne]

/-- C13 witness: window 2 at offset `2 = 1 * 2`, three completed steps: the window holds
`1 = 3 mod 2` position. -/
theorem C13_window_fill_witness :
    (1 : Int) ≤ sampleRound.histSize ∧
    sampleRound.offset = ((1 : Nat) : Int) * sampleRound.histSize ∧
    sampleRound.GetStep 0 = 3 ∧ sampleRound.offset ≤ (3 : Int) ∧
    (3 : Int) ≤ sampleRound.offset + sampleRound.histSize ∧
    sampleRound.windowFill 0 =
      (if (3 : Int) = sampleRound.offset + sampleRound.histSize then sampleRound.histSize
        else 3 % sampleRound.histSize) ∧
    sampleRound.windowFill 0 = 1 :=
  ⟨by decide, by decide, rfl, by decide, by decide,
    (C13_window_fill sampleRound 0 1 3 (by decide) (by decide) rfl (by decide)
      (by decide)).1, by decide⟩

end WindowFillClaims

/-! ## Rounds of the windowed store against the unwindowed store -/

section RoundTripClaims

variable {T : Type}

theorem recording_not_Done_of_OK (s : StateRecordingParticles T) (idx : Id)
    (hok : s.status idx = ParticleStatus.STATUS_OK.toId) : s.Done idx = false := by
  unfold StateRecordingParticles.Done
  rw [Particles.Integrateable_of_status_OK s.toParticles idx hok]
  rfl

theorem recording_TakeStep_status_at (s : StateRecordingParticles T) (idx : Id) (pt : Vec3 T)
    (hok : s.status idx = ParticleStatus.STATUS_OK.toId) :
    (s.TakeStep idx pt).status idx =
      if s.steps idx + 1 = s.maxSteps then
        Int.lor (Int.land ParticleStatus.STATUS_OK.toId (Int.lnot ParticleStatus.STATUS_OK.toId))
          ParticleStatus.TERMINATED.toId
      else ParticleStatus.STATUS_OK.toId := by
  rw [recording_TakeStep_status]
  split
  · rw [Particles.SetTerminated_status, hok]
  · exact hok

/-- The unwindowed loop, started with status `STATUS_OK` and enough budget left for all the
points, consumes every point: the step count grows by the number of points, the points are
the history entries `m, m + 1, ...` (`m` the prior step count), older entries are kept, and
the particle is terminated exactly when the budget is reached. -/
theorem recording_advance_spec (pts : List (Vec3 T)) (s : StateRecordingParticles T) (idx : Id)
    (hok : s.status idx = ParticleStatus.STATUS_OK.toId)
    (hle : s.steps idx + (pts.length : Int) ≤ s.maxSteps) :
    (s.advance idx pts).2 = [] ∧
    (s.advance idx pts).1.steps idx = s.steps idx + (pts.length : Int) ∧
    (s.advance idx pts).1.status idx =
      (if 0 < pts.length ∧ s.steps idx + (pts.length : Int) = s.maxSteps then
        Int.lor (Int.land ParticleStatus.STATUS_OK.toId (Int.lnot ParticleStatus.STATUS_OK.toId))
          ParticleStatus.TERMINATED.toId
      else ParticleStatus.STATUS_OK.toId) ∧
    (∀ k : Int, k < s.steps idx →
      (s.advance idx pts).1.GetHistory idx k = s.GetHistory idx k) ∧
    (List.range pts.length).map
      (fun (i : Nat) => (s.advance idx pts).1.GetHistory idx (s.steps idx + (i : Int))) = pts := by
  induction pts generalizing s with
  | nil =>
    simp [StateRecordingParticles.advance, hok]
  | cons pt rest ih =>
    have hnd := recording_not_Done_of_OK s idx hok
    have hadv : s.advance idx (pt :: rest) = (s.TakeStep idx pt).advance idx rest := by
      simp [StateRecordingParticles.advance, hnd]
    have e1 : (s.TakeStep idx pt).histSize = s.histSize := recording_TakeStep_histSize s idx pt
    have e2 : (s.TakeStep idx pt).maxSteps = s.maxSteps := recording_TakeStep_maxSteps s idx pt
    have e3 : (s.TakeStep idx pt).steps idx = s.steps idx + 1 := by
      rw [recording_TakeStep_steps, portalSet_same]
    have e4 := recording_TakeStep_status_at s idx pt hok
    have hold : ∀ k : Int, k < s.steps idx →
        (s.TakeStep idx pt).GetHistory idx k = s.GetHistory idx k := by
      intro k hk
      unfold StateRecordingParticles.GetHistory
      rw [recording_TakeStep_history, e1]
      apply portalSet_other
      intro e
      unfold Id at *
      omega
    have hnew : (s.TakeStep idx pt).GetHistory idx (s.steps idx) = pt := by
      unfold StateRecordingParticles.GetHistory
      rw [recording_TakeStep_history, e1, portalSet_same]
    rw [List.length_cons] at hle ⊢
    push_cast at hle ⊢
    rw [hadv]
    by_cases hterm : s.steps idx + 1 = s.maxSteps
    · have hrest : rest = [] := by
        apply List.length_eq_zero.1
        have := Int.ofNat_zero_le rest.length
        unfold Id at *
        omega
      subst hrest
      rw [if_pos hterm] at e4
      simp only [StateRecordingParticles.advance, List.length_nil, Nat.cast_zero, add_zero,
        zero_add]
      refine ⟨trivial, e3, ?_, hold, ?_⟩
      · rw [e4, if_pos ⟨Nat.zero_lt_one, hterm⟩]
      · rw [show List.range 1 = [0] from rfl, List.map_cons, List.map_nil]
        simp only [Nat.cast_zero, add_zero]
        rw [hnew]
    · rw [if_neg hterm] at e4
      obtain ⟨r1, r2, r3, r4, r5⟩ := ih (s.TakeStep idx pt) e4
        (by rw [e3, e2]; unfold Id at *; omega)
      rw [e3] at r2 r3 r4 r5
      rw [e2] at r3
      refine ⟨r1, ?_, ?_, ?_, ?_⟩
      · rw [r2]; unfold Id at *; omega
      · rw [r3]
        have hiff : (0 < rest.length ∧ s.steps idx + 1 + (rest.length : Int) = s.maxSteps) ↔
            (0 < rest.length + 1 ∧ s.steps idx + ((rest.length : Int) + 1) = s.maxSteps) := by
          constructor
          · rintro ⟨_, h⟩; exact ⟨Nat.succ_pos _, by unfold Id at *; omega⟩
          · rintro ⟨_, h⟩
            refine ⟨?_, by unfold Id at *; omega⟩
            rcases Nat.eq_zero_or_pos rest.length with h0 | hp
            · exfalso; apply hterm; rw [h0] at h; unfold Id at *; simpa using h
            · exact hp
        by_cases hc : 0 < rest.length ∧ s.steps idx + 1 + (rest.length : Int) = s.maxSteps
        · rw [if_pos hc, if_pos (hiff.1 hc)]
        · rw [if_neg hc, if_neg (fun h => hc (hiff.2 h))]
      · intro k hk
        rw [r4 k (by unfold Id at *; omega)]
        exact hold k hk
      · rw [map_range_succ_cons]
        congr 1
        · simp only [Nat.cast_zero, add_zero]
          rw [r4 (s.steps idx) (by unfold Id at *; omega)]
          exact hnew
        · refine Eq.trans ?_ r5
          apply List.map_congr_left
          intro i _
          congr 1
          push_cast
          unfold Id at *
          omega

theorem round_TakeStep_status_at (s : StateRecordingParticlesRound T) (idx : Id) (pt : Vec3 T)
    (hok : s.status idx = ParticleStatus.STATUS_OK.toId) :
    (s.TakeStep idx pt).status idx =
      if s.steps idx + 1 = s.totalMaxSteps then
        Int.lor (Int.land ParticleStatus.STATUS_OK.toId (Int.lnot ParticleStatus.STATUS_OK.toId))
          ParticleStatus.TERMINATED.toId
      else ParticleStatus.STATUS_OK.toId := by
  rw [round_TakeStep_status]
  split
  · rw [Particles.SetTerminated_status, hok]
  · exact hok

theorem round_Done_of_OK (s : StateRecordingParticlesRound T) (idx : Id)
    (hok : s.status idx = ParticleStatus.STATUS_OK.toId) :
    s.Done idx = decide (s.steps idx - s.offset = s.histSize) := by
  unfold StateRecordingParticlesRound.Done
  rw [Particles.Integrateable_of_status_OK s.toParticles idx hok]
  by_cases h : s.steps idx - s.offset = s.histSize
  · simp [h]
  · simp [h]

/-- One round of the windowed loop, started with status `STATUS_OK`, a window that is not
over-full and enough total budget left for all the points: it consumes the first `c` points,
where either all points are consumed or the window ends up full; the consumed points are the
window entries `m - offset, m - offset + 1, ...` (`m` the prior step count), older window
entries are kept, and the particle is terminated exactly when `totalMaxSteps` is reached. -/
theorem round_advance_spec (pts : List (Vec3 T)) (s : StateRecordingParticlesRound T)
    (idx : Id) (hlo : s.offset ≤ s.steps idx) (hhi : s.steps idx - s.offset ≤ s.histSize)
    (hok : s.status idx = ParticleStatus.STATUS_OK.toId)
    (hle : s.steps idx + (pts.length : Int) ≤ s.totalMaxSteps) :
    ∃ c : Nat, c ≤ pts.length ∧
      (s.advance idx pts).2 = pts.drop c ∧
      (s.advance idx pts).1.steps idx = s.steps idx + (c : Int) ∧
      s.steps idx + (c : Int) - s.offset ≤ s.histSize ∧
      (c < pts.length → s.steps idx + (c : Int) - s.offset = s.histSize) ∧
      (s.advance idx pts).1.status idx =
        (if 0 < c ∧ s.steps idx + (c : Int) = s.totalMaxSteps then
          Int.lor
            (Int.land ParticleStatus.STATUS_OK.toId (Int.lnot ParticleStatus.STATUS_OK.toId))
            ParticleStatus.TERMINATED.toId
        else ParticleStatus.STATUS_OK.toId) ∧
      (s.advance idx pts).1.offset = s.offset ∧ (s.advance idx pts).1.histSize = s.histSize ∧
      (s.advance idx pts).1.totalMaxSteps = s.totalMaxSteps ∧
      (∀ k : Int, k < s.steps idx - s.offset →
        (s.advance idx pts).1.GetHistory idx k = s.GetHistory idx k) ∧
      (List.range c).map (fun (i : Nat) =>
        (s.advance idx pts).1.GetHistory idx (s.steps idx - s.offset + (i : Int))) =
          pts.take c := by
  induction pts generalizing s with
  | nil =>
    refine ⟨0, le_refl _, ?_⟩
    simp [StateRecordingParticlesRound.advance, hok, hhi]
  | cons pt rest ih =>
    have hdone := round_Done_of_OK s idx hok
    by_cases hfull : s.steps idx - s.offset = s.histSize
    · have hadv : s.advance idx (pt :: rest) = (s, pt :: rest) := by
        simp [StateRecordingParticlesRound.advance, hdone, hfull]
      rw [hadv]
      refine ⟨0, Nat.zero_le _, ?_⟩
      simp [hok, hhi, hfull]
    · have hadv : s.advance idx (pt :: rest) = (s.TakeStep idx pt).advance idx rest := by
        simp [StateRecordingParticlesRound.advance, hdone, hfull]
      obtain ⟨w1, w2, w3⟩ := round_TakeStep_window s idx pt
      have e3 : (s.TakeStep idx pt).steps idx = s.steps idx + 1 := by
        rw [round_TakeStep_steps, portalSet_same]
      have e4 := round_TakeStep_status_at s idx pt hok
      have hold : ∀ k : Int, k < s.steps idx - s.offset →
          (s.TakeStep idx pt).GetHistory idx k = s.GetHistory idx k := by
        intro k hk
        unfold StateRecordingParticlesRound.GetHistory
        rw [round_TakeStep_history, w2]
        apply portalSet_other
        intro e
        unfold Id at *
        omega
      have hnew : (s.TakeStep idx pt).GetHistory idx (s.steps idx - s.offset) = pt := by
        unfold StateRecordingParticlesRound.GetHistory
        rw [round_TakeStep_history, w2, portalSet_same]
      rw [List.length_cons] at hle ⊢
      push_cast at hle
      rw [hadv]
      by_cases hterm : s.steps idx + 1 = s.totalMaxSteps
      · have hrest : rest = [] := by
          apply List.length_eq_zero.1
          have := Int.ofNat_zero_le rest.length
          unfold Id at *
          omega
        subst hrest
        rw [if_pos hterm] at e4
        refine ⟨1, le_refl _, ?_⟩
        simp only [StateRecordingParticlesRound.advance, List.length_nil, Nat.cast_one,
          List.drop_succ_cons, List.drop_zero, zero_add]
        refine ⟨trivial, e3, by unfold Id at *; omega, fun h => absurd h (lt_irrefl _), ?_,
          w1, w2, w3, hold, ?_⟩
        · rw [e4, if_pos ⟨Nat.zero_lt_one, hterm⟩]
        · rw [show List.range 1 = [0] from rfl, List.map_cons, List.map_nil]
          simp only [Nat.cast_zero, add_zero]
          rw [hnew]
          rfl
      · rw [if_neg hterm] at e4
        obtain ⟨c, r0, r1, r2, r3, r4, r5, r6, r7, r8, r9, r10⟩ := ih (s.TakeStep idx pt)
          (by rw [e3, w1]; unfold Id at *; omega)
          (by rw [e3, w1, w2]; unfold Id at *; omega) e4
          (by rw [e3, w3]; unfold Id at *; omega)
        rw [e3] at r2 r3 r4 r5 r9 r10
        rw [w1] at r3 r4 r6 r9 r10
        rw [w2] at r3 r4 r7
        rw [w3] at r5 r8
        refine ⟨c + 1, Nat.succ_le_succ r0, ?_, ?_, ?_, ?_, ?_, r6, r7, r8, ?_, ?_⟩
        · rw [r1]; rfl
        · rw [r2]; push_cast; unfold Id at *; omega
        · push_cast; unfold Id at *; omega
        · intro h
          have := r4 (Nat.lt_of_succ_lt_succ h)
          push_cast; unfold Id at *; omega
        · rw [r5]
          have hiff : (0 < c ∧ s.steps idx + 1 + (c : Int) = s.totalMaxSteps) ↔
              (0 < c + 1 ∧ s.steps idx + ((c + 1 : Nat) : Int) = s.totalMaxSteps) := by
            constructor
            · rintro ⟨_, h⟩; exact ⟨Nat.succ_pos _, by push_cast; unfold Id at *; omega⟩
            · rintro ⟨_, h⟩
              push_cast at h
              refine ⟨?_, by unfold Id at *; omega⟩
              rcases Nat.eq_zero_or_pos c with h0 | hp
              · exfalso; apply hterm; rw [h0] at h; unfold Id at *; simpa using h
              · exact hp
          by_cases hc : 0 < c ∧ s.steps idx + 1 + (c : Int) = s.totalMaxSteps
          · rw [if_pos hc, if_pos (hiff.1 hc)]
          · rw [if_neg hc, if_neg (fun h => hc (hiff.2 h))]
        · intro k hk
          rw [r9 k (by unfold Id at *; omega)]
          exact hold k hk
        · rw [map_range_succ_cons, List.take_succ_cons]
          congr 1
          · simp only [Nat.cast_zero, add_zero]
            rw [r9 (s.steps idx - s.offset) (by unfold Id at *; omega)]
            exact hnew
          · refine Eq.trans ?_ r10
            apply List.map_congr_left
            intro i _
            congr 1
            push_cast
            unfold Id at *
            omega

/-- The rounds, started at a round boundary (`steps = r * w`) with status `STATUS_OK`, enough
total budget for all the points and enough fuel, return the points as the concatenation of
the windows, the step count grown by the number of points, and a particle terminated exactly
when `totalMaxSteps` is reached. -/
theorem runRounds_spec (w totalMaxSteps numValues : Id) (out : Nat → Id → Vec3 T) (idx : Id)
    (hw : 1 ≤ w) (fuel : Nat) :
    ∀ (r : Nat) (b : Particles T) (pts : List (Vec3 T)),
      b.steps idx = (r : Int) * w → b.status idx = ParticleStatus.STATUS_OK.toId →
      (r : Int) * w + (pts.length : Int) ≤ totalMaxSteps → pts.length < fuel →
      ∃ b' : Particles T,
        runRounds w totalMaxSteps numValues out idx fuel r b pts = some (pts, b') ∧
        b'.steps idx = (r : Int) * w + (pts.length : Int) ∧
        b'.status idx =
          (if 0 < pts.length ∧ (r : Int) * w + (pts.length : Int) = totalMaxSteps then
            Int.lor
              (Int.land ParticleStatus.STATUS_OK.toId (Int.lnot ParticleStatus.STATUS_OK.toId))
              ParticleStatus.TERMINATED.toId
          else ParticleStatus.STATUS_OK.toId) := by
  induction fuel with
  | zero => intro r b pts _ _ _ hf; exact absurd hf (Nat.not_lt_zero _)
  | succ f ih =>
    intro r b pts hsteps hok hle hf
    obtain ⟨c, r0, r1, r2, r3, r4, r5, r6, r7, r8, r9, r10⟩ :=
      round_advance_spec pts
        (roundStore w totalMaxSteps numValues (out r) r b) idx
        (by show (r : Int) * w ≤ b.steps idx; rw [hsteps])
        (by show b.steps idx - (r : Int) * w ≤ w; rw [hsteps]; unfold Id at *; omega)
        hok (by show b.steps idx + (pts.length : Int) ≤ totalMaxSteps; rw [hsteps]; exact hle)
    have hsteps' : (roundStore w totalMaxSteps numValues (out r) r b).steps idx =
        (r : Int) * w := hsteps
    have hoff' : (roundStore w totalMaxSteps numValues (out r) r b).offset = (r : Int) * w :=
      rfl
    have hhist' : (roundStore w totalMaxSteps numValues (out r) r b).histSize = w := rfl
    have htot' : (roundStore w totalMaxSteps numValues (out r) r b).totalMaxSteps =
        totalMaxSteps := rfl
    rw [hsteps'] at r2 r3 r4 r5 r10
    rw [hoff'] at r3 r4 r6 r10
    rw [hhist'] at r3 r4
    rw [htot'] at r5
    have hwin : StateRecordingParticlesRound.readWindow
        (StateRecordingParticlesRound.advance idx pts
          (roundStore w totalMaxSteps numValues (out r) r b)).1 idx = pts.take c := by
      unfold StateRecordingParticlesRound.readWindow
      rw [r2, r6]
      have hc : ((r : Int) * w + (c : Int) - (r : Int) * w).toNat = c := by
        have : (r : Int) * w + (c : Int) - (r : Int) * w = (c : Int) := by ring
        rw [this]; exact Int.toNat_natCast c
      rw [hc]
      refine Eq.trans ?_ r10
      apply List.map_congr_left
      intro i _
      congr 1
      ring
    rw [runRounds]
    rw [hwin, r1]
    by_cases hall : c < pts.length
    · have hcw : (c : Int) = w := by
        have := r4 hall
        unfold Id at *; omega
      have hstat : (StateRecordingParticlesRound.advance idx pts
          (roundStore w totalMaxSteps numValues (out r) r b)).1.status idx = ParticleStatus.STATUS_OK.toId := by
        rw [r5, if_neg]
        rintro ⟨_, h⟩
        have : (c : Int) < (pts.length : Int) := by exact_mod_cast hall
        unfold Id at *; omega
      have hnotdone : (StateRecordingParticlesRound.advance idx pts
          (roundStore w totalMaxSteps numValues (out r) r b)).1.toParticles.Done idx = false := by
        unfold Particles.Done
        rw [Particles.Integrateable_of_status_OK _ idx hstat]
        rfl
      have hne : (pts.drop c).isEmpty = false := by
        cases hd : pts.drop c with
        | nil =>
          have := congrArg List.length hd
          rw [List.length_drop, List.length_nil] at this
          omega
        | cons a l => rfl
      rw [hne, hnotdone]
      simp only [Bool.or_false, Bool.false_eq_true, if_false]
      have hlen : (pts.drop c).length = pts.length - c := List.length_drop c pts
      have hcast : ((pts.drop c).length : Int) = (pts.length : Int) - (c : Int) := by
        rw [hlen]; exact Int.ofNat_sub (Nat.le_of_lt hall)
      have hcpos : 0 < c := by
        have : (0 : Int) < (c : Int) := by rw [hcw]; unfold Id at *; omega
        exact_mod_cast this
      have esum : ((r + 1 : Nat) : Int) * w + ((pts.drop c).length : Int) =
          (r : Int) * w + (pts.length : Int) := by
        rw [hcast]; push_cast; rw [← hcw]; ring
      obtain ⟨b', q1, q2, q3⟩ := ih (r + 1) _ (pts.drop c)
        (by rw [r2]; push_cast; rw [hcw]; ring) hstat
        (by rw [esum]; exact hle)
        (by rw [hlen]; omega)
      refine ⟨b', ?_, ?_, ?_⟩
      · rw [q1]
        simp only [Option.map_some', List.take_append_drop]
      · rw [q2, esum]
      · rw [q3]
        have hiff : (0 < (pts.drop c).length ∧
            ((r + 1 : Nat) : Int) * w + ((pts.drop c).length : Int) = totalMaxSteps) ↔
            (0 < pts.length ∧ (r : Int) * w + (pts.length : Int) = totalMaxSteps) := by
          rw [esum]
          constructor
          · rintro ⟨_, h⟩; exact ⟨by omega, h⟩
          · rintro ⟨_, h⟩; exact ⟨by rw [hlen]; omega, h⟩
        by_cases hc : 0 < (pts.drop c).length ∧
            ((r + 1 : Nat) : Int) * w + ((pts.drop c).length : Int) = totalMaxSteps
        · rw [if_pos hc, if_pos (hiff.1 hc)]
        · rw [if_neg hc, if_neg (fun h => hc (hiff.2 h))]
    · have hceq : c = pts.length := by omega
      subst hceq
      rw [List.drop_length, List.take_length]
      simp only [List.isEmpty_nil, Bool.true_or, if_true]
      exact ⟨_, rfl, r2, r5⟩

/-- C12: for every window size `w ≥ 1`, total budget `totalMaxSteps` and points
`p_0, ..., p_(n-1)` with `n ≤ totalMaxSteps`, for a particle that starts at step count 0 with
status `STATUS_OK`: running the windowed store in successive rounds (round `r` built with
`histSize = w` and `offset = r * w`, `TakeStep` with the next point while `Done(idx)` is
false, then reading `GetHistory(idx, 0 .. steps - offset - 1)`) and concatenating the windows
in round order returns exactly the points (given fuel for more than `n` rounds); the
unwindowed recording store with `maxSteps = totalMaxSteps`, driven by the same loop, consumes
all the points and holds the same history in `GetHistory(idx, 0 .. n - 1)`; and both end with
the same step count `n` and the same status word. -/
theorem C12_rounds_reproduce_unwindowed_history (w totalMaxSteps numValues : Id)
    (out : Nat → Id → Vec3 T) (outU : Id → Vec3 T) (idx : Id) (b : Particles T)
    (pts : List (Vec3 T)) (fuel : Nat)
    (hw : 1 ≤ w) (hn : (pts.length : Int) ≤ totalMaxSteps)
    (h0 : b.GetStep idx = 0) (hok : b.GetStatus idx = ParticleStatus.STATUS_OK.toId)
    (hfuel : pts.length < fuel) :
    (runRounds w totalMaxSteps numValues out idx fuel 0 b pts).map Prod.fst = some pts ∧
    ((StateRecordingParticles.new b.pos numValues b.steps b.status totalMaxSteps outU).advance
      idx pts).2 = [] ∧
    ((StateRecordingParticles.new b.pos numValues b.steps b.status totalMaxSteps outU).advance
      idx pts).1.readHistory idx pts.length = pts ∧
    ((StateRecordingParticles.new b.pos numValues b.steps b.status totalMaxSteps outU).advance
      idx pts).1.GetStep idx = (pts.length : Int) ∧
    (runRounds w totalMaxSteps numValues out idx fuel 0 b pts).map
        (fun x => x.2.GetStep idx) =
      some (((StateRecordingParticles.new b.pos numValues b.steps b.status totalMaxSteps
        outU).advance idx pts).1.GetStep idx) ∧
    (runRounds w totalMaxSteps numValues out idx fuel 0 b pts).map
        (fun x => x.2.GetStatus idx) =
      some (((StateRecordingParticles.new b.pos numValues b.steps b.status totalMaxSteps
        outU).advance idx pts).1.GetStatus idx) := by
  have h0' : b.steps idx = 0 := h0
  have hok' : b.status idx = ParticleStatus.STATUS_OK.toId := hok
  obtain ⟨b', q1, q2, q3⟩ := runRounds_spec w totalMaxSteps numValues out idx hw fuel 0 b pts
    (by rw [h0']; simp) hok' (by simpa using hn) hfuel
  have hu0 : (StateRecordingParticles.new b.pos numValues b.steps b.status totalMaxSteps
      outU).steps idx = 0 := h0'
  have hum : (StateRecordingParticles.new b.pos numValues b.steps b.status totalMaxSteps
      outU).maxSteps = totalMaxSteps := rfl
  obtain ⟨u1, u2, u3, _, u5⟩ := recording_advance_spec pts
    (StateRecordingParticles.new b.pos numValues b.steps b.status totalMaxSteps outU) idx hok'
    (by rw [hu0, hum, zero_add]; exact hn)
  rw [hu0, zero_add] at u2
  rw [hu0, hum, zero_add] at u3
  simp only [Nat.cast_zero, zero_mul, zero_add] at q2 q3
  refine ⟨by rw [q1]; rfl, u1, ?_, u2, ?_, ?_⟩
  · unfold StateRecordingParticles.readHistory
    refine Eq.trans ?_ u5
    apply List.map_congr_left
    intro i _
    rw [hu0, zero_add]
  · rw [q1]
    show some (b'.steps idx) = some _
    rw [q2]
    exact congrArg some u2.symm
  · rw [q1]
    show some (b'.status idx) = some _
    rw [q3]
    exact congrArg some u3.symm

/-- C12 witness: window 2, total budget 3, three points: two rounds. -/
theorem C12_rounds_reproduce_unwindowed_history_witness :
    (1 : Int) ≤ 2 ∧ (([⟨1, 0, 0⟩, ⟨2, 0, 0⟩, ⟨3, 0, 0⟩] : List (Vec3 Int)).length : Int) ≤ 3 ∧
    sampleBase.GetStep 0 = 0 ∧ sampleBase.GetStatus 0 = ParticleStatus.STATUS_OK.toId ∧
    (runRounds 2 3 2 (fun _ _ => (⟨0, 0, 0⟩ : Vec3 Int)) 0 4 0 sampleBase
      [⟨1, 0, 0⟩, ⟨2, 0, 0⟩, ⟨3, 0, 0⟩]).map Prod.fst =
        some [⟨1, 0, 0⟩, ⟨2, 0, 0⟩, ⟨3, 0, 0⟩] :=
  ⟨by decide, by decide, rfl, rfl,
    (C12_rounds_reproduce_unwindowed_history 2 3 2 (fun _ _ => (⟨0, 0, 0⟩ : Vec3 Int))
      (fun _ => (⟨0, 0, 0⟩ : Vec3 Int)) 0 sampleBase [⟨1, 0, 0⟩, ⟨2, 0, 0⟩, ⟨3, 0, 0⟩] 4
      (by decide) (by decide) rfl rfl (by decide)).1⟩

end RoundTripClaims

/-! ## The integrators: bounds checks of `Step` -/

section StepGuardClaims

variable {F : Type} [LinearOrderedField F]

/-- What `Step` does when the position is outside the spatial bounds: it returns at once,
leaving `time` and `outpos` as the caller passed them. -/
theorem Step_of_outside_spatial (obj : ExecObject F) (inpos : Vec3 F) (time : F)
    (outpos velocity : Vec3 F) (h : obj.Evaluator.IsWithinSpatialBoundary inpos = false) :
    obj.Step inpos time outpos velocity =
      { status := IntegratorStatus.OUTSIDE_SPATIAL_BOUNDS, time := time, outpos := outpos,
        evals := [] } := by
  simp [ExecObject.Step, h]

/-- What `Step` does when the position is inside the spatial bounds and the time is outside
the temporal bounds: it returns at once, leaving `time` and `outpos` as the caller passed
them. -/
theorem Step_of_outside_temporal (obj : ExecObject F) (inpos : Vec3 F) (time : F)
    (outpos velocity : Vec3 F) (hs : obj.Evaluator.IsWithinSpatialBoundary inpos = true)
    (h : obj.Evaluator.IsWithinTemporalBoundary time = false) :
    obj.Step inpos time outpos velocity =
      { status := IntegratorStatus.OUTSIDE_TEMPORAL_BOUNDS, time := time, outpos := outpos,
        evals := [] } := by
  simp [ExecObject.Step, hs, h]

/-- What `Step` does when both bounds checks pass. -/
theorem Step_of_inside (obj : ExecObject F) (inpos : Vec3 F) (time : F)
    (outpos velocity : Vec3 F) (hs : obj.Evaluator.IsWithinSpatialBoundary inpos = true)
    (ht : obj.Evaluator.IsWithinTemporalBoundary time = true) :
    obj.Step inpos time outpos velocity =
      if (obj.CheckStep inpos obj.StepLength time velocity).status = IntegratorStatus.SUCCESS
      then
        { status := (obj.CheckStep inpos obj.StepLength time velocity).status,
          time := time + obj.StepLength,
          outpos := inpos +
            Vec3.scale obj.StepLength (obj.CheckStep inpos obj.StepLength time velocity).velocity,
          evals := (obj.CheckStep inpos obj.StepLength time velocity).evals }
      else
        { status := (obj.CheckStep inpos obj.StepLength time velocity).status, time := time,
          outpos := inpos,
          evals := (obj.CheckStep inpos obj.StepLength time velocity).evals } := by
  simp [ExecObject.Step, hs, ht]

/-- C14 (evaluation at the failing input): the position `(11, 0, 0)` is outside the box
`[0, 10]^3` and the caller's `outpos` holds `(9, 9, 9)`.  For both strategies `Step` returns
`OUTSIDE_SPATIAL_BOUNDS` without any field evaluation and leaves the time at 0, but `outpos`
still holds `(9, 9, 9)`: it is not the input position. -/
theorem C14_step_outside_spatial_leaves_outpos :
    sampleEvaluator.IsWithinSpatialBoundary ⟨11, 0, 0⟩ = false ∧
    (sampleEuler.Step ⟨11, 0, 0⟩ 0 ⟨9, 9, 9⟩ ⟨0, 0, 0⟩).status =
      IntegratorStatus.OUTSIDE_SPATIAL_BOUNDS ∧
    (sampleEuler.Step ⟨11, 0, 0⟩ 0 ⟨9, 9, 9⟩ ⟨0, 0, 0⟩).evals = [] ∧
    (sampleEuler.Step ⟨11, 0, 0⟩ 0 ⟨9, 9, 9⟩ ⟨0, 0, 0⟩).time = 0 ∧
    (sampleEuler.Step ⟨11, 0, 0⟩ 0 ⟨9, 9, 9⟩ ⟨0, 0, 0⟩).outpos = ⟨9, 9, 9⟩ ∧
    (sampleEuler.Step ⟨11, 0, 0⟩ 0 ⟨9, 9, 9⟩ ⟨0, 0, 0⟩).outpos ≠ ⟨11, 0, 0⟩ ∧
    (sampleRK4.Step ⟨11, 0, 0⟩ 0 ⟨9, 9, 9⟩ ⟨0, 0, 0⟩).status =
      IntegratorStatus.OUTSIDE_SPATIAL_BOUNDS ∧
    (sampleRK4.Step ⟨11, 0, 0⟩ 0 ⟨9, 9, 9⟩ ⟨0, 0, 0⟩).outpos = ⟨9, 9, 9⟩ ∧
    (sampleRK4.Step ⟨11, 0, 0⟩ 0 ⟨9, 9, 9⟩ ⟨0, 0, 0⟩).outpos ≠ ⟨11, 0, 0⟩ := by
  have hout : sampleEvaluator.IsWithinSpatialBoundary ⟨11, 0, 0⟩ = false := by decide
  have e1 := Step_of_outside_spatial sampleEuler ⟨11, 0, 0⟩ 0 ⟨9, 9, 9⟩ ⟨0, 0, 0⟩ hout
  have e2 := Step_of_outside_spatial sampleRK4 ⟨11, 0, 0⟩ 0 ⟨9, 9, 9⟩ ⟨0, 0, 0⟩ hout
  rw [e1, e2]
  exact ⟨hout, rfl, rfl, rfl, rfl, by decide, rfl, rfl, by decide⟩

/-- C15 (evaluation at the failing input): the position `(0, 0, 0)` is inside the box, the
time 2 is outside the time range `[0, 1]`, and the caller's `outpos` holds `(9, 9, 9)`.  For
both strategies `Step` returns `OUTSIDE_TEMPORAL_BOUNDS` without any field evaluation and
leaves the time at 2, but `outpos` still holds `(9, 9, 9)`: it is not the input position. -/
theorem C15_step_outside_temporal_leaves_outpos :
    sampleEvaluator.IsWithinSpatialBoundary ⟨0, 0, 0⟩ = true ∧
    sampleEvaluator.IsWithinTemporalBoundary 2 = false ∧
    (sampleEuler.Step ⟨0, 0, 0⟩ 2 ⟨9, 9, 9⟩ ⟨0, 0, 0⟩).status =
      IntegratorStatus.OUTSIDE_TEMPORAL_BOUNDS ∧
    (sampleEuler.Step ⟨0, 0, 0⟩ 2 ⟨9, 9, 9⟩ ⟨0, 0, 0⟩).evals = [] ∧
    (sampleEuler.Step ⟨0, 0, 0⟩ 2 ⟨9, 9, 9⟩ ⟨0, 0, 0⟩).time = 2 ∧
    (sampleEuler.Step ⟨0, 0, 0⟩ 2 ⟨9, 9, 9⟩ ⟨0, 0, 0⟩).outpos = ⟨9, 9, 9⟩ ∧
    (sampleEuler.Step ⟨0, 0, 0⟩ 2 ⟨9, 9, 9⟩ ⟨0, 0, 0⟩).outpos ≠ ⟨0, 0, 0⟩ ∧
    (sampleRK4.Step ⟨0, 0, 0⟩ 2 ⟨9, 9, 9⟩ ⟨0, 0, 0⟩).status =
      IntegratorStatus.OUTSIDE_TEMPORAL_BOUNDS ∧
    (sampleRK4.Step ⟨0, 0, 0⟩ 2 ⟨9, 9, 9⟩ ⟨0, 0, 0⟩).outpos = ⟨9, 9, 9⟩ ∧
    (sampleRK4.Step ⟨0, 0, 0⟩ 2 ⟨9, 9, 9⟩ ⟨0, 0, 0⟩).outpos ≠ ⟨0, 0, 0⟩ := by
  have hin : sampleEvaluator.IsWithinSpatialBoundary ⟨0, 0, 0⟩ = true := by decide
  have hout : sampleEvaluator.IsWithinTemporalBoundary 2 = false := by decide
  have e1 := Step_of_outside_temporal sampleEuler ⟨0, 0, 0⟩ 2 ⟨9, 9, 9⟩ ⟨0, 0, 0⟩ hin hout
  have e2 := Step_of_outside_temporal sampleRK4 ⟨0, 0, 0⟩ 2 ⟨9, 9, 9⟩ ⟨0, 0, 0⟩ hin hout
  rw [e1, e2]
  exact ⟨hin, hout, rfl, rfl, rfl, rfl, by decide, rfl, rfl, by decide⟩

end StepGuardClaims

/-! ## The integrators: `CheckStep` and the outcome of `Step` -/

section StepClaims

variable {F : Type} [LinearOrderedField F]

/-- The status of `Step` is `SUCCESS` only when both bounds checks passed and `CheckStep`
succeeded. -/
theorem Step_success_inv (obj : ExecObject F) (inpos : Vec3 F) (time : F)
    (outpos velocity : Vec3 F)
    (h : (obj.Step inpos time outpos velocity).status = IntegratorStatus.SUCCESS) :
    obj.Evaluator.IsWithinSpatialBoundary inpos = true ∧
      obj.Evaluator.IsWithinTemporalBoundary time = true ∧
      (obj.CheckStep inpos obj.StepLength time velocity).status = IntegratorStatus.SUCCESS := by
  cases hs : obj.Evaluator.IsWithinSpatialBoundary inpos with
  | false =>
    rw [Step_of_outside_spatial obj inpos time outpos velocity hs] at h
    exact IntegratorStatus.noConfusion h
  | true =>
    cases ht : obj.Evaluator.IsWithinTemporalBoundary time with
    | false =>
      rw [Step_of_outside_temporal obj inpos time outpos velocity hs ht] at h
      exact IntegratorStatus.noConfusion h
    | true =>
      refine ⟨rfl, rfl, ?_⟩
      rw [Step_of_inside obj inpos time outpos velocity hs ht] at h
      by_cases hc : (obj.CheckStep inpos obj.StepLength time velocity).status =
          IntegratorStatus.SUCCESS
      · exact hc
      · rw [if_neg hc] at h
        exact absurd h hc

/-- C16 (as stated, at `t = 1/2`, `h = 1`, `B = 1`): the time `1/2` is inside the temporal
bounds `[0, 1]` of the sample evaluator and the step length 1 is non-negative; for both
strategies `Step` returns `SUCCESS` and writes back the time `3/2`, which exceeds the
temporal upper bound `GetTemporalBoundary(1) = 1`. -/
theorem C16_counterexample_time_exceeds_bound :
    sampleEvaluator.GetTemporalBoundary 1 = 1 ∧
    sampleEvaluator.IsWithinTemporalBoundary (1 / 2) = true ∧
    (0 : ℚ) ≤ sampleEuler.StepLength ∧ (0 : ℚ) ≤ sampleRK4.StepLength ∧
    (sampleEuler.Step ⟨0, 0, 0⟩ (1 / 2) ⟨0, 0, 0⟩ ⟨0, 0, 0⟩).status =
      IntegratorStatus.SUCCESS ∧
    (sampleEuler.Step ⟨0, 0, 0⟩ (1 / 2) ⟨0, 0, 0⟩ ⟨0, 0, 0⟩).time = 3 / 2 ∧
    ¬ ((sampleEuler.Step ⟨0, 0, 0⟩ (1 / 2) ⟨0, 0, 0⟩ ⟨0, 0, 0⟩).time ≤
        sampleEvaluator.GetTemporalBoundary 1) ∧
    (sampleRK4.Step ⟨0, 0, 0⟩ (1 / 2) ⟨0, 0, 0⟩ ⟨0, 0, 0⟩).status =
      IntegratorStatus.SUCCESS ∧
    (sampleRK4.Step ⟨0, 0, 0⟩ (1 / 2) ⟨0, 0, 0⟩ ⟨0, 0, 0⟩).time = 3 / 2 ∧
    ¬ ((sampleRK4.Step ⟨0, 0, 0⟩ (1 / 2) ⟨0, 0, 0⟩ ⟨0, 0, 0⟩).time ≤
        sampleEvaluator.GetTemporalBoundary 1) := by
  refine ⟨by decide, by decide!, by decide!, by decide!, by decide!, by decide!, by decide!,
    by decide!, by decide!, by decide!⟩

/-- C16 (amended): for both strategies, whenever `Step` returns `SUCCESS` the time it writes
back is exactly `t + StepLength`: `Step` adds the unclamped step length (the clamp of RK4's
`CheckStep` only moves the sample points).  Hence the new time does not exceed the temporal
upper bound `B = GetTemporalBoundary(1)` exactly when `t + StepLength ≤ B`. -/
theorem C16_success_time_is_unclamped (obj : ExecObject F) (inpos : Vec3 F) (time : F)
    (outpos velocity : Vec3 F)
    (hsucc : (obj.Step inpos time outpos velocity).status = IntegratorStatus.SUCCESS) :
    (obj.Step inpos time outpos velocity).time = time + obj.StepLength ∧
    ((obj.Step inpos time outpos velocity).time ≤ obj.Evaluator.GetTemporalBoundary 1 ↔
      time + obj.StepLength ≤ obj.Evaluator.GetTemporalBoundary 1) := by
  obtain ⟨hs, ht, hc⟩ := Step_success_inv obj inpos time outpos velocity hsucc
  have e : (obj.Step inpos time outpos velocity).time = time + obj.StepLength := by
    rw [Step_of_inside obj inpos time outpos velocity hs ht, if_pos hc]
  exact ⟨e, by rw [e]⟩

/-- C16 witness: the sample Euler integrator (step length 1) at time 0. -/
theorem C16_success_time_is_unclamped_witness :
    (sampleEuler.Step ⟨0, 0, 0⟩ 0 ⟨0, 0, 0⟩ ⟨0, 0, 0⟩).status = IntegratorStatus.SUCCESS ∧
    (sampleEuler.Step ⟨0, 0, 0⟩ 0 ⟨0, 0, 0⟩ ⟨0, 0, 0⟩).time = 0 + sampleEuler.StepLength :=
  ⟨by decide!,
    (C16_success_time_is_unclamped sampleEuler ⟨0, 0, 0⟩ 0 ⟨0, 0, 0⟩ ⟨0, 0, 0⟩
      (by decide!)).1⟩

/-- C17: in exact arithmetic, for the RK4 strategy with step length `h`, a start `(p, t)`
inside both bounds with `t + h + Epsilon ≤ B` (no clamping) and an evaluator that succeeds
at the four sample points with `k1 = v(p, t)`, `k2 = v(p + (h/2) k1, t + h/2)`,
`k3 = v(p + (h/2) k2, t + h/2)`, `k4 = v(p + h k3, t + h)`: `Step` returns `SUCCESS`, the
new time is `t + h`, the new position is `p + h (k1 + 2 k2 + 2 k3 + k4) / 6`, and exactly
these four evaluations are made, in this order. -/
theorem C17_rk4_step (obj : ExecObject F) (p : Vec3 F) (t : F) (outpos velocity : Vec3 F)
    (k1 k2 k3 k4 : Vec3 F) (hkind : obj.kind = IntegratorKind.RK4Integrator)
    (hs : obj.Evaluator.IsWithinSpatialBoundary p = true)
    (ht : obj.Evaluator.IsWithinTemporalBoundary t = true)
    (hB : t + obj.StepLength + obj.Epsilon ≤ obj.Evaluator.GetTemporalBoundary 1)
    (h1 : obj.Evaluator.Evaluate p t Vec3.zero = (EvaluatorStatus.SUCCESS, k1))
    (h2 : obj.Evaluator.Evaluate (p + Vec3.scale (obj.StepLength / 2) k1)
      (t + obj.StepLength / 2) Vec3.zero = (EvaluatorStatus.SUCCESS, k2))
    (h3 : obj.Evaluator.Evaluate (p + Vec3.scale (obj.StepLength / 2) k2)
      (t + obj.StepLength / 2) Vec3.zero = (EvaluatorStatus.SUCCESS, k3))
    (h4 : obj.Evaluator.Evaluate (p + Vec3.scale obj.StepLength k3)
      (t + obj.StepLength) Vec3.zero = (EvaluatorStatus.SUCCESS, k4)) :
    (obj.Step p t outpos velocity).status = IntegratorStatus.SUCCESS ∧
    (obj.Step p t outpos velocity).time = t + obj.StepLength ∧
    (obj.Step p t outpos velocity).outpos =
      p + Vec3.scale obj.StepLength
        (Vec3.divScalar (k1 + Vec3.scale 2 k2 + Vec3.scale 2 k3 + k4) 6) ∧
    (obj.Step p t outpos velocity).outpos.x =
      p.x + obj.StepLength * (k1.x + 2 * k2.x + 2 * k3.x + k4.x) / 6 ∧
    (obj.Step p t outpos velocity).outpos.y =
      p.y + obj.StepLength * (k1.y + 2 * k2.y + 2 * k3.y + k4.y) / 6 ∧
    (obj.Step p t outpos velocity).outpos.z =
      p.z + obj.StepLength * (k1.z + 2 * k2.z + 2 * k3.z + k4.z) / 6 ∧
    (obj.Step p t outpos velocity).evals =
      [⟨p, t, EvaluatorStatus.SUCCESS⟩,
       ⟨p + Vec3.scale (obj.StepLength / 2) k1, t + obj.StepLength / 2,
         EvaluatorStatus.SUCCESS⟩,
       ⟨p + Vec3.scale (obj.StepLength / 2) k2, t + obj.StepLength / 2,
         EvaluatorStatus.SUCCESS⟩,
       ⟨p + Vec3.scale obj.StepLength k3, t + obj.StepLength, EvaluatorStatus.SUCCESS⟩] := by
  have hno : ¬ (t + obj.StepLength + obj.Epsilon - obj.Evaluator.GetTemporalBoundary 1 > 0) := by
    intro h
    have := sub_pos.1 h
    exact absurd hB (not_le.2 this)
  have hc : obj.CheckStep p obj.StepLength t velocity =
      { status := IntegratorStatus.SUCCESS,
        velocity := Vec3.divScalar (k1 + Vec3.scale 2 k2 + Vec3.scale 2 k3 + k4) 6,
        evals := [⟨p, t, EvaluatorStatus.SUCCESS⟩,
          ⟨p + Vec3.scale (obj.StepLength / 2) k1, t + obj.StepLength / 2,
            EvaluatorStatus.SUCCESS⟩,
          ⟨p + Vec3.scale (obj.StepLength / 2) k2, t + obj.StepLength / 2,
            EvaluatorStatus.SUCCESS⟩,
          ⟨p + Vec3.scale obj.StepLength k3, t + obj.StepLength,
            EvaluatorStatus.SUCCESS⟩] } := by
    unfold ExecObject.CheckStep
    rw [hkind]
    simp only []
    unfold ExecObject.RK4CheckStep
    simp only [if_neg hno, h1, h2, h3, h4, ne_eq, not_true_eq_false, if_false]
  rw [Step_of_inside obj p t outpos velocity hs ht, hc]
  simp only [if_true]
  refine ⟨trivial, trivial, trivial, ?_, ?_, ?_, trivial⟩
  · show p.x + obj.StepLength * ((k1.x + 2 * k2.x + 2 * k3.x + k4.x) / 6) = _
    ring
  · show p.y + obj.StepLength * ((k1.y + 2 * k2.y + 2 * k3.y + k4.y) / 6) = _
    ring
  · show p.z + obj.StepLength * ((k1.z + 2 * k2.z + 2 * k3.z + k4.z) / 6) = _
    ring

/-- C17 witness: the sample RK4 integrator with step length 1/2 at `p = (0, 0, 0)`,
`t = 0` in the uniform field `(1, 0, 0)`. -/
theorem C17_rk4_step_witness :
    sampleRK4Half.kind = IntegratorKind.RK4Integrator ∧
    sampleRK4Half.Evaluator.IsWithinSpatialBoundary ⟨0, 0, 0⟩ = true ∧
    sampleRK4Half.Evaluator.IsWithinTemporalBoundary 0 = true ∧
    (0 : ℚ) + sampleRK4Half.StepLength + sampleRK4Half.Epsilon ≤
      sampleRK4Half.Evaluator.GetTemporalBoundary 1 ∧
    (sampleRK4Half.Step ⟨0, 0, 0⟩ 0 ⟨9, 9, 9⟩ ⟨7, 7, 7⟩).status = IntegratorStatus.SUCCESS ∧
    (sampleRK4Half.Step ⟨0, 0, 0⟩ 0 ⟨9, 9, 9⟩ ⟨7, 7, 7⟩).time = 0 + sampleRK4Half.StepLength :=
  ⟨rfl, by decide, by decide, by decide!,
    (C17_rk4_step sampleRK4Half ⟨0, 0, 0⟩ 0 ⟨9, 9, 9⟩ ⟨7, 7, 7⟩ ⟨1, 0, 0⟩ ⟨1, 0, 0⟩ ⟨1, 0, 0⟩
      ⟨1, 0, 0⟩ rfl (by decide) (by decide) (by decide!) (by decide!) (by decide!)
      (by decide!) (by decide!)).1,
    (C17_rk4_step sampleRK4Half ⟨0, 0, 0⟩ 0 ⟨9, 9, 9⟩ ⟨7, 7, 7⟩ ⟨1, 0, 0⟩ ⟨1, 0, 0⟩ ⟨1, 0, 0⟩
      ⟨1, 0, 0⟩ rfl (by decide) (by decide) (by decide!) (by decide!) (by decide!)
      (by decide!) (by decide!)).2.1⟩

/-- C18: for the Euler strategy with step length `h`, a start `(p, t)` inside both bounds and
an evaluator that succeeds at `(p, t)` with velocity `v`: `Step` makes exactly one field
evaluation, at `(p, t)`, and returns `SUCCESS` with new position `p + h v` and new time
`t + h`; and the outcome of Euler's `CheckStep` is the same for every step length passed to
it. -/
theorem C18_euler_step (obj : ExecObject F) (p : Vec3 F) (t : F) (outpos velocity v : Vec3 F)
    (hkind : obj.kind = IntegratorKind.EulerIntegrator)
    (hs : obj.Evaluator.IsWithinSpatialBoundary p = true)
    (ht : obj.Evaluator.IsWithinTemporalBoundary t = true)
    (hv : obj.Evaluator.Evaluate p t velocity = (EvaluatorStatus.SUCCESS, v)) :
    (obj.Step p t outpos velocity).status = IntegratorStatus.SUCCESS ∧
    (obj.Step p t outpos velocity).time = t + obj.StepLength ∧
    (obj.Step p t outpos velocity).outpos = p + Vec3.scale obj.StepLength v ∧
    (obj.Step p t outpos velocity).outpos.x = p.x + obj.StepLength * v.x ∧
    (obj.Step p t outpos velocity).outpos.y = p.y + obj.StepLength * v.y ∧
    (obj.Step p t outpos velocity).outpos.z = p.z + obj.StepLength * v.z ∧
    (obj.Step p t outpos velocity).evals = [⟨p, t, EvaluatorStatus.SUCCESS⟩] ∧
    (∀ (q w : Vec3 F) (s l1 l2 : F),
      obj.EulerCheckStep q l1 s w = obj.EulerCheckStep q l2 s w) ∧
    (∀ (q w : Vec3 F) (s l1 l2 : F), obj.CheckStep q l1 s w = obj.CheckStep q l2 s w) := by
  have hc : obj.CheckStep p obj.StepLength t velocity =
      { status := IntegratorStatus.SUCCESS, velocity := v,
        evals := [⟨p, t, EvaluatorStatus.SUCCESS⟩] } := by
    unfold ExecObject.CheckStep
    rw [hkind]
    simp only []
    unfold ExecObject.EulerCheckStep
    simp only [hv, ConvertToIntegratorStatus]
  rw [Step_of_inside obj p t outpos velocity hs ht, hc]
  simp only [if_true]
  refine ⟨trivial, trivial, trivial, rfl, rfl, rfl, trivial, fun _ _ _ _ _ => rfl, ?_⟩
  intro q w s l1 l2
  unfold ExecObject.CheckStep
  rw [hkind]
  rfl

/-- C18 witness: the sample Euler integrator at `p = (0, 0, 0)`, `t = 0`. -/
theorem C18_euler_step_witness :
    sampleEuler.kind = IntegratorKind.EulerIntegrator ∧
    sampleEuler.Evaluator.IsWithinSpatialBoundary ⟨0, 0, 0⟩ = true ∧
    sampleEuler.Evaluator.IsWithinTemporalBoundary 0 = true ∧
    sampleEuler.Evaluator.Evaluate ⟨0, 0, 0⟩ 0 ⟨7, 7, 7⟩ =
      (EvaluatorStatus.SUCCESS, ⟨1, 0, 0⟩) ∧
    (sampleEuler.Step ⟨0, 0, 0⟩ 0 ⟨9, 9, 9⟩ ⟨7, 7, 7⟩).outpos =
      (⟨0, 0, 0⟩ : Vec3 ℚ) + Vec3.scale sampleEuler.StepLength ⟨1, 0, 0⟩ ∧
    (sampleEuler.Step ⟨0, 0, 0⟩ 0 ⟨9, 9, 9⟩ ⟨7, 7, 7⟩).evals =
      [⟨⟨0, 0, 0⟩, 0, EvaluatorStatus.SUCCESS⟩] :=
  ⟨rfl, by decide, by decide, by decide!,
    (C18_euler_step sampleEuler ⟨0, 0, 0⟩ 0 ⟨9, 9, 9⟩ ⟨7, 7, 7⟩ ⟨1, 0, 0⟩ rfl (by decide)
      (by decide) (by decide!)).2.2.1,
    (C18_euler_step sampleEuler ⟨0, 0, 0⟩ 0 ⟨9, 9, 9⟩ ⟨7, 7, 7⟩ ⟨1, 0, 0⟩ rfl (by decide)
      (by decide) (by decide!)).2.2.2.2.2.2.1⟩

end StepClaims

/-! ## The integrators: status of `SmallStep` -/

section SmallStepClaims

variable {F : Type} [LinearOrderedField F]

theorem maxIterations_eq : maxIterations = (2 : Int) ^ 20 := by decide

theorem shiftLeft_one_two_pow (k : Nat) : ((2 : Int) ^ k) <<< (1 : Int) = (2 : Int) ^ (k + 1) := by
  have h := Int.shiftLeft_eq_mul_pow ((2 : Int) ^ k) 1
  have e : (((1 : Nat) : Int)) = (1 : Int) := rfl
  rw [e] at h
  rw [h]
  push_cast
  ring

/-- The search loop of `SmallStep`, entered with `iteration = 2 ^ k` (`k ≤ 20`), returns
when the fuel exceeds the `20 - k` iterations left. -/
theorem smallStepLoop_isSome (obj : ExecObject F) (inpos : Vec3 F) (time : F) (fuel : Nat) :
    ∀ (k : Nat) (st : SmallStepState F), k ≤ 20 → 20 - k < fuel →
      (obj.smallStepLoop inpos time fuel ((2 : Int) ^ k) st).isSome = true := by
  induction fuel with
  | zero => intro k st _ hf; exact absurd hf (Nat.not_lt_zero _)
  | succ f ih =>
    intro k st hk hf
    unfold ExecObject.smallStepLoop
    by_cases hlt : k < 20
    · have hcond : (2 : Int) ^ k < maxIterations := by
        rw [maxIterations_eq]
        exact pow_lt_pow_right₀ (by norm_num) hlt
      rw [if_pos hcond]
      simp only [shiftLeft_one_two_pow]
      split
      · exact ih (k + 1) _ (by omega) (by omega)
      · exact ih (k + 1) _ (by omega) (by omega)
    · have hk20 : k = 20 := by omega
      subst hk20
      have hcond : ¬ ((2 : Int) ^ 20 < maxIterations) := by
        rw [maxIterations_eq]; exact lt_irrefl _
      rw [if_neg hcond]
      rfl

/-- C20 (as stated, at a time outside the temporal bounds): the position `(0, 0, 0)` is
inside the box and the time 2 is outside the time range `[0, 1]` of the sample evaluator;
for both strategies `SmallStep` returns `OUTSIDE_TEMPORAL_BOUNDS`, not
`OUTSIDE_SPATIAL_BOUNDS`. -/
theorem C20_counterexample_outside_temporal :
    sampleEvaluator.IsWithinSpatialBoundary ⟨0, 0, 0⟩ = true ∧
    sampleEvaluator.IsWithinTemporalBoundary 2 = false ∧
    (sampleEuler.SmallStep 21 ⟨0, 0, 0⟩ 2 ⟨9, 9, 9⟩ ⟨0, 0, 0⟩).map (fun r => r.status) =
      some IntegratorStatus.OUTSIDE_TEMPORAL_BOUNDS ∧
    (sampleRK4.SmallStep 21 ⟨0, 0, 0⟩ 2 ⟨9, 9, 9⟩ ⟨0, 0, 0⟩).map (fun r => r.status) =
      some IntegratorStatus.OUTSIDE_TEMPORAL_BOUNDS ∧
    (sampleEuler.SmallStep 21 ⟨0, 0, 0⟩ 2 ⟨9, 9, 9⟩ ⟨0, 0, 0⟩).map (fun r => r.status) ≠
      some IntegratorStatus.OUTSIDE_SPATIAL_BOUNDS := by
  refine ⟨by decide, by decide, by decide, by decide, by decide⟩

/-- C20 (amended): for every evaluator, strategy, input position and time, `SmallStep`
returns (its search loop ends after 20 iterations, so any fuel of at least 21 loop tests is
enough), and the status returned is `OUTSIDE_TEMPORAL_BOUNDS` when the position is inside
the spatial bounds and the time is outside the temporal bounds, and
`OUTSIDE_SPATIAL_BOUNDS` in every other case. -/
theorem C20_smallStep_status (obj : ExecObject F) (fuel : Nat) (inpos : Vec3 F) (time : F)
    (outpos velocity : Vec3 F) (hfuel : 21 ≤ fuel) :
    (obj.SmallStep fuel inpos time outpos velocity).map (fun r => r.status) =
      some (if obj.Evaluator.IsWithinSpatialBoundary inpos = true ∧
              obj.Evaluator.IsWithinTemporalBoundary time = false
            then IntegratorStatus.OUTSIDE_TEMPORAL_BOUNDS
            else IntegratorStatus.OUTSIDE_SPATIAL_BOUNDS) := by
  unfold ExecObject.SmallStep
  cases hs : obj.Evaluator.IsWithinSpatialBoundary inpos with
  | false => simp
  | true =>
    cases ht : obj.Evaluator.IsWithinTemporalBoundary time with
    | false => simp
    | true =>
      simp only [Bool.not_true, Bool.false_eq_true, if_false]
      have hsome := smallStepLoop_isSome obj inpos time fuel 0
        { optimalLength := 0, velocity := (obj.Evaluator.Evaluate inpos time velocity).2,
          workpos := inpos, worktime := time,
          evals := [⟨inpos, time, (obj.Evaluator.Evaluate inpos time velocity).1⟩] }
        (by omega) (by omega)
      rw [pow_zero] at hsome
      obtain ⟨st, hst⟩ := Option.isSome_iff_exists.1 hsome
      rw [hst]
      simp

/-- C20 witness: the sample Euler integrator at `p = (19/2, 0, 0)`, `t = 0`, inside both
bounds, with fuel 21. -/
theorem C20_smallStep_status_witness :
    21 ≤ 21 ∧
    (sampleEuler.SmallStep 21 ⟨19 / 2, 0, 0⟩ 0 ⟨9, 9, 9⟩ ⟨0, 0, 0⟩).map (fun r => r.status) =
      some (if sampleEuler.Evaluator.IsWithinSpatialBoundary ⟨19 / 2, 0, 0⟩ = true ∧
              sampleEuler.Evaluator.IsWithinTemporalBoundary 0 = false
            then IntegratorStatus.OUTSIDE_TEMPORAL_BOUNDS
            else IntegratorStatus.OUTSIDE_SPATIAL_BOUNDS) :=
  ⟨le_refl 21,
    C20_smallStep_status sampleEuler 21 ⟨19 / 2, 0, 0⟩ 0 ⟨9, 9, 9⟩ ⟨0, 0, 0⟩ (le_refl 21)⟩

end SmallStepClaims

/-! ## Resuming a particle with `SetOK` -/

section ResumeClaims

variable {T : Type}

/-- C28: for every prior status word of slot `idx`, `SetOK(idx)` leaves the status word
exactly `STATUS_OK` (bit 0 set and every other bit clear), so `Integrateable(idx)` is true
afterwards, while the position and step-count portals (slot `idx` included), and `maxSteps`,
are unchanged. -/
theorem C28_setOK_resets_status (s : Particles T) (idx : Id) :
    (s.SetOK idx).GetStatus idx = ParticleStatus.STATUS_OK.toId ∧
    (s.SetOK idx).GetStatus idx = 1 ∧
    (∀ k : Nat, Int.testBit ((s.SetOK idx).GetStatus idx) k = decide (k = 0)) ∧
    (s.SetOK idx).OK idx = true ∧ (s.SetOK idx).Terminated idx = false ∧
    (s.SetOK idx).ExitedSpatialBoundary idx = false ∧
    (s.SetOK idx).ExitedTemporalBoundary idx = false ∧
    (s.SetOK idx).Error idx = false ∧
    (s.SetOK idx).Integrateable idx = true ∧
    (s.SetOK idx).GetPos idx = s.GetPos idx ∧ (s.SetOK idx).GetStep idx = s.GetStep idx ∧
    (s.SetOK idx).pos = s.pos ∧ (s.SetOK idx).steps = s.steps ∧
    (s.SetOK idx).maxSteps = s.maxSteps := by
  have h1 : (s.SetOK idx).status idx = ParticleStatus.STATUS_OK.toId := by
    simp [Particles.SetOK, Particles.Clear, portalSet]
  have hbit : ∀ k : Nat, Int.testBit ((s.SetOK idx).status idx) k = decide (k = 0) := by
    intro k
    rw [h1, ParticleStatus.testBit_toId]
    simp only [ParticleStatus.bitIndex]
    by_cases hk : k = 0
    · subst hk; rfl
    · have : ¬ (0 = k) := fun e => hk e.symm
      simp [hk, this]
  refine ⟨h1, h1, hbit, ?_, ?_, ?_, ?_, ?_, Particles.Integrateable_of_status_OK _ idx h1,
    rfl, rfl, rfl, rfl, rfl⟩
  · rw [Particles.OK, Particles.CheckBit_eq_testBit, hbit]; rfl
  · rw [Particles.Terminated, Particles.CheckBit_eq_testBit, hbit]; rfl
  · rw [Particles.ExitedSpatialBoundary, Particles.CheckBit_eq_testBit, hbit]; rfl
  · rw [Particles.ExitedTemporalBoundary, Particles.CheckBit_eq_testBit, hbit]; rfl
  · rw [Particles.Error, Particles.CheckBit_eq_testBit, hbit]; rfl

end ResumeClaims

/-! ## The temporal clamp of RK4's `CheckStep` -/

section ClampClaims

variable {F : Type} [LinearOrderedField F]

end ClampClaims

/-! ## Dispatch of the particle advector -/

section DispatchClaims

variable {Block BoundsMapType Seeds Output F : Type}

theorem flow_ExecuteTyped_eq (pa : flow.ParticleAdvector Block BoundsMapType)
    (run : flow.AlgorithmType → BoundsMapType → List Block → Id → F → Seeds → Output)
    (particle : flow.ParticleType) (numSteps : Id) (stepSize : F) (seeds : Seeds) :
    pa.ExecuteTyped run particle numSteps stepSize seeds =
      { runs := [pa.selectedAlgorithm particle],
        output := run (pa.selectedAlgorithm particle) pa.BoundsMap pa.Blocks numSteps stepSize
          seeds } := by
  unfold flow.ParticleAdvector.ExecuteTyped flow.ParticleAdvector.selectedAlgorithm
    flow.ParticleAdvector.RunAlgo
  cases pa.UseThreadedAlgorithm <;>
    by_cases h : pa.ResultType = flow.FlowResultType.PARTICLE_ADVECT_TYPE <;> simp [h]

/-- C27: `Execute` throws `ErrorFilterExecution` exactly when the base component type of
the seed array is neither `Particle` nor `ChargedParticle`; otherwise it runs exactly one
algorithm, the one selected by the two configuration flags (`AdvectAlgorithmThreaded` when
`UseThreadedAlgorithm` is true and `AdvectAlgorithm` when it is false, with
`ParticleAdvectionResult` when `ResultType` is `PARTICLE_ADVECT_TYPE` and `StreamlineResult`
for every other `ResultType`), instantiated with the particle type of the seeds, on the
bounds map, blocks, step count, step size and seeds given, and returns its output. -/
theorem C27_execute_dispatch (pa : flow.ParticleAdvector Block BoundsMapType)
    (run : flow.AlgorithmType → BoundsMapType → List Block → Id → F → Seeds → Output)
    (numSteps : Id) (stepSize : F) (seeds : flow.UnknownArrayHandle Seeds) :
    pa.Execute run numSteps stepSize seeds =
      (match seeds.componentType with
      | flow.SeedComponentType.Particle =>
        Except.ok
          { runs := [pa.selectedAlgorithm .Particle],
            output := run (pa.selectedAlgorithm .Particle) pa.BoundsMap pa.Blocks numSteps
              stepSize seeds.values }
      | flow.SeedComponentType.ChargedParticle =>
        Except.ok
          { runs := [pa.selectedAlgorithm .ChargedParticle],
            output := run (pa.selectedAlgorithm .ChargedParticle) pa.BoundsMap pa.Blocks
              numSteps stepSize seeds.values }
      | flow.SeedComponentType.Other _ =>
        Except.error (flow.Error.ErrorFilterExecution "Unsupported options in AdvectAlgorithm")) ∧
    ((∃ message, pa.Execute run numSteps stepSize seeds =
        Except.error (flow.Error.ErrorFilterExecution message)) ↔
      (seeds.componentType ≠ flow.SeedComponentType.Particle ∧
        seeds.componentType ≠ flow.SeedComponentType.ChargedParticle)) ∧
    (pa.selectedAlgorithm flow.ParticleType.Particle).template =
      (if pa.UseThreadedAlgorithm = true then flow.AlgorithmTemplate.AdvectAlgorithmThreaded
        else flow.AlgorithmTemplate.AdvectAlgorithm) ∧
    (pa.selectedAlgorithm flow.ParticleType.Particle).result =
      (if pa.ResultType = flow.FlowResultType.PARTICLE_ADVECT_TYPE
        then flow.ResultKind.ParticleAdvectionResult else flow.ResultKind.StreamlineResult) := by
  have hmain : pa.Execute run numSteps stepSize seeds =
      (match seeds.componentType with
      | flow.SeedComponentType.Particle =>
        Except.ok
          { runs := [pa.selectedAlgorithm .Particle],
            output := run (pa.selectedAlgorithm .Particle) pa.BoundsMap pa.Blocks numSteps
              stepSize seeds.values }
      | flow.SeedComponentType.ChargedParticle =>
        Except.ok
          { runs := [pa.selectedAlgorithm .ChargedParticle],
            output := run (pa.selectedAlgorithm .ChargedParticle) pa.BoundsMap pa.Blocks
              numSteps stepSize seeds.values }
      | flow.SeedComponentType.Other _ =>
        Except.error
          (flow.Error.ErrorFilterExecution "Unsupported options in AdvectAlgorithm")) := by
    unfold flow.ParticleAdvector.Execute
    cases hct : seeds.componentType with
    | Particle => simp [flow_ExecuteTyped_eq]
    | ChargedParticle => simp [flow_ExecuteTyped_eq]
    | Other code => simp
  refine ⟨hmain, ?_, ?_, rfl⟩
  · rw [hmain]
    cases hct : seeds.componentType with
    | Particle => simp
    | ChargedParticle => simp
    | Other code => simp
  · unfold flow.ParticleAdvector.selectedAlgorithm
    cases pa.UseThreadedAlgorithm <;> simp

end DispatchClaims

/-! ## The search loop of `SmallStep` -/

section SearchLoopClaims

variable {F : Type} [LinearOrderedField F]

/-- One loop test that passes runs the body with the shifted counter. -/
theorem smallStepLoop_step (obj : ExecObject F) (inpos : Vec3 F) (time : F) (fuel : Nat)
    (iteration : Id) (st : SmallStepState F) (h : iteration < maxIterations) :
    obj.smallStepLoop inpos time (fuel + 1) iteration st =
      obj.smallStepLoop inpos time fuel (iteration <<< (1 : Int))
        (obj.smallStepBody inpos time (iteration <<< (1 : Int)) st) := by
  rw [ExecObject.smallStepLoop]
  rw [if_pos h]
  unfold ExecObject.smallStepBody
  simp only []
  split <;> rfl

/-- The search loop, entered with `iteration = 2 ^ k` (`k ≤ 20`) and enough fuel, runs the
body for the counter values `2 ^ (k + 1), ..., 2 ^ 20`, in this order, and stops. -/
theorem smallStepLoop_unroll (obj : ExecObject F) (inpos : Vec3 F) (time : F) (fuel : Nat) :
    ∀ (k : Nat) (st : SmallStepState F), k ≤ 20 → 20 - k < fuel →
      obj.smallStepLoop inpos time fuel ((2 : Int) ^ k) st =
        some ((List.range' (k + 1) (20 - k)).foldl
          (fun s j => obj.smallStepBody inpos time ((2 : Int) ^ j) s) st) := by
  induction fuel with
  | zero => intro k st _ hf; exact absurd hf (Nat.not_lt_zero _)
  | succ f ih =>
    intro k st hk hf
    by_cases hlt : k < 20
    · have hcond : (2 : Int) ^ k < maxIterations := by
        rw [maxIterations_eq]
        exact pow_lt_pow_right₀ (by norm_num) hlt
      rw [smallStepLoop_step obj inpos time f _ st hcond, shiftLeft_one_two_pow,
        ih (k + 1) _ (by omega) (by omega)]
      have e : 20 - k = (20 - (k + 1)) + 1 := by omega
      rw [e, List.range'_succ, List.foldl_cons]
    · have hk20 : k = 20 := by omega
      subst hk20
      have hcond : ¬ ((2 : Int) ^ 20 < maxIterations) := by
        rw [maxIterations_eq]; exact lt_irrefl _
      rw [ExecObject.smallStepLoop, if_neg hcond]
      rfl

/-- When both bounds checks pass, `SmallStep` is its search loop, started with counter 1 on
the initial state, followed by the final push. -/
theorem SmallStep_of_inside (obj : ExecObject F) (fuel : Nat) (inpos : Vec3 F) (time : F)
    (outpos velocity : Vec3 F) (hs : obj.Evaluator.IsWithinSpatialBoundary inpos = true)
    (ht : obj.Evaluator.IsWithinTemporalBoundary time = true) :
    obj.SmallStep fuel inpos time outpos velocity =
      (obj.smallStepLoop inpos time fuel 1 (obj.smallStepInit inpos time velocity)).map
        obj.smallStepFinish := by
  unfold ExecObject.SmallStep ExecObject.smallStepInit
  simp only [hs, ht, Bool.not_true, Bool.false_eq_true, if_false]
  cases obj.smallStepLoop inpos time fuel 1
      { optimalLength := 0, velocity := (obj.Evaluator.Evaluate inpos time velocity).2,
        workpos := inpos, worktime := time,
        evals := [⟨inpos, time, (obj.Evaluator.Evaluate inpos time velocity).1⟩] } with
  | none => rfl
  | some st => rfl

/-- C29: for every input that passes the two initial bounds checks of `SmallStep`, and
whatever the evaluator answers, the search loop (given fuel for its 21 loop tests) ends
after running its body exactly for the counter values `2^1, 2^2, ..., 2^20`, in this order;
each pass makes exactly one `CheckStep` call, at the trial length
`optimalLength + StepLength / 2^k`; `SmallStep` then returns the final push applied to the
state the 20 passes leave. -/
theorem C29_search_loop_runs_twenty_trials (obj : ExecObject F) (fuel : Nat) (inpos : Vec3 F)
    (time : F) (outpos velocity : Vec3 F) (hfuel : 21 ≤ fuel)
    (hs : obj.Evaluator.IsWithinSpatialBoundary inpos = true)
    (ht : obj.Evaluator.IsWithinTemporalBoundary time = true) :
    obj.smallStepLoop inpos time fuel 1 (obj.smallStepInit inpos time velocity) =
      some ((List.range' 1 20).foldl
        (fun s j => obj.smallStepBody inpos time ((2 : Int) ^ j) s)
        (obj.smallStepInit inpos time velocity)) ∧
    List.range' 1 20 =
      [1, 2, 3, 4, 5, 6, 7, 8, 9, 10, 11, 12, 13, 14, 15, 16, 17, 18, 19, 20] ∧
    obj.SmallStep fuel inpos time outpos velocity =
      some (obj.smallStepFinish ((List.range' 1 20).foldl
        (fun s j => obj.smallStepBody inpos time ((2 : Int) ^ j) s)
        (obj.smallStepInit inpos time velocity))) ∧
    (∀ (k : Nat) (st : SmallStepState F),
      (obj.smallStepBody inpos time ((2 : Int) ^ k) st).evals =
        st.evals ++
          (obj.CheckStep inpos (st.optimalLength + obj.StepLength / (2 : F) ^ k) time
            st.velocity).evals) := by
  have hloop := smallStepLoop_unroll obj inpos time fuel 0
    (obj.smallStepInit inpos time velocity) (by omega) (by omega)
  rw [pow_zero] at hloop
  refine ⟨hloop, by decide, ?_, ?_⟩
  · rw [SmallStep_of_inside obj fuel inpos time outpos velocity hs ht, hloop]
    rfl
  · intro k st
    unfold ExecObject.smallStepBody
    simp only []
    have hcast : (((2 : Int) ^ k : Int) : F) = (2 : F) ^ k := by push_cast; rfl
    rw [hcast]
    split <;> rfl

/-- C29 witness: the sample Euler integrator at `p = (19/2, 0, 0)`, `t = 0`, fuel 21. -/
theorem C29_search_loop_runs_twenty_trials_witness :
    21 ≤ 21 ∧ sampleEuler.Evaluator.IsWithinSpatialBoundary ⟨19 / 2, 0, 0⟩ = true ∧
    sampleEuler.Evaluator.IsWithinTemporalBoundary 0 = true ∧
    sampleEuler.smallStepLoop ⟨19 / 2, 0, 0⟩ 0 21 1
        (sampleEuler.smallStepInit ⟨19 / 2, 0, 0⟩ 0 ⟨0, 0, 0⟩) =
      some ((List.range' 1 20).foldl
        (fun s j => sampleEuler.smallStepBody ⟨19 / 2, 0, 0⟩ 0 ((2 : Int) ^ j) s)
        (sampleEuler.smallStepInit ⟨19 / 2, 0, 0⟩ 0 ⟨0, 0, 0⟩)) :=
  ⟨le_refl 21, by decide!, by decide,
    (C29_search_loop_runs_twenty_trials sampleEuler 21 ⟨19 / 2, 0, 0⟩ 0 ⟨9, 9, 9⟩ ⟨0, 0, 0⟩
      (le_refl 21) (by decide!) (by decide)).1⟩

end SearchLoopClaims

/-! ## The search of `SmallStep` with an Euler integrator -/

section EulerSearchClaims

variable {F : Type} [LinearOrderedField F]

theorem Vec3.add_scaleRight_zero (p v : Vec3 F) : p + Vec3.scaleRight v 0 = p := by
  cases p
  cases v
  show Vec3.add _ _ = _
  simp [Vec3.add, Vec3.scaleRight]

/-- Euler's `CheckStep` at a point where the evaluator answers `SUCCESS` with `v`. -/
theorem Euler_CheckStep_of_success (obj : ExecObject F) (p v : Vec3 F) (t : F)
    (hkind : obj.kind = IntegratorKind.EulerIntegrator)
    (hE : ∀ out : Vec3 F, obj.Evaluator.Evaluate p t out = (EvaluatorStatus.SUCCESS, v))
    (length : F) (velocity : Vec3 F) :
    obj.CheckStep p length t velocity =
      { status := IntegratorStatus.SUCCESS, velocity := v,
        evals := [⟨p, t, EvaluatorStatus.SUCCESS⟩] } := by
  unfold ExecObject.CheckStep
  rw [hkind]
  simp only []
  unfold ExecObject.EulerCheckStep
  simp only [hE velocity, ConvertToIntegratorStatus]

/-- The state on entry to the search loop satisfies the invariant for `k = 0`. -/
theorem searchInvariant_init (obj : ExecObject F) (p v : Vec3 F) (t : F) (velocity : Vec3 F)
    (hs : obj.Evaluator.IsWithinSpatialBoundary p = true) :
    searchInvariant obj p v t 0 (obj.smallStepInit p t velocity) := by
  refine ⟨0, by norm_num, ?_, ?_, ?_, ?_, Or.inl (by norm_num)⟩
  · simp [ExecObject.smallStepInit]
  · show p = p + Vec3.scaleRight v 0
    rw [Vec3.add_scaleRight_zero]
  · show t = t + 0
    rw [add_zero]
  · show obj.Evaluator.IsWithinSpatialBoundary (p + Vec3.scaleRight v 0) = true
    rw [Vec3.add_scaleRight_zero]
    exact hs

/-- One pass of the loop body takes the invariant from `k` to `k + 1`. -/
theorem searchInvariant_body (obj : ExecObject F) (p v : Vec3 F) (t : F)
    (hkind : obj.kind = IntegratorKind.EulerIntegrator)
    (hE : ∀ out : Vec3 F, obj.Evaluator.Evaluate p t out = (EvaluatorStatus.SUCCESS, v))
    (k : Nat) (st : SmallStepState F) (hinv : searchInvariant obj p v t k st) :
    searchInvariant obj p v t (k + 1) (obj.smallStepBody p t ((2 : Int) ^ (k + 1)) st) := by
  obtain ⟨m, hm, hL, hwp, hwt, hin, hmax⟩ := hinv
  have hcast : (((2 : Int) ^ (k + 1) : Int) : F) = (2 : F) ^ (k + 1) := by push_cast; rfl
  have h2k : (0 : F) < (2 : F) ^ k := pow_pos (by norm_num) k
  have hlen : st.optimalLength + obj.StepLength / (2 : F) ^ (k + 1) =
      obj.StepLength * ((2 * m + 1 : Nat) : F) / (2 : F) ^ (k + 1) := by
    rw [hL, pow_succ]
    push_cast
    field_simp
    ring
  unfold ExecObject.smallStepBody
  simp only [hcast, Euler_CheckStep_of_success obj p v t hkind hE, true_and]
  by_cases hw : obj.Evaluator.IsWithinSpatialBoundary
      (p + Vec3.scaleRight v (st.optimalLength + obj.StepLength / (2 : F) ^ (k + 1))) = true
  · rw [if_pos hw]
    refine ⟨2 * m + 1, by rw [pow_succ]; omega, hlen, rfl, rfl, hw, ?_⟩
    rcases hmax with hfull | hout
    · left
      rw [pow_succ]; omega
    · right
      have e : obj.StepLength * (((2 * m + 1 : Nat) : F) + 1) / (2 : F) ^ (k + 1) =
          obj.StepLength * ((m : F) + 1) / (2 : F) ^ k := by
        rw [pow_succ]
        push_cast
        field_simp
        ring
      rw [e]
      exact hout
  · rw [if_neg hw]
    have hL2 : st.optimalLength = obj.StepLength * ((2 * m : Nat) : F) / (2 : F) ^ (k + 1) := by
      rw [hL, pow_succ]
      push_cast
      field_simp
      ring
    refine ⟨2 * m, by rw [pow_succ]; omega, hL2, hwp, hwt, hin, Or.inr ?_⟩
    have e : obj.StepLength * (((2 * m : Nat) : F) + 1) / (2 : F) ^ (k + 1) =
        st.optimalLength + obj.StepLength / (2 : F) ^ (k + 1) := by
      rw [hlen]
      push_cast
      rfl
    rw [e]
    simpa using hw

/-- The passes for the counters `2 ^ (k + 1), ..., 2 ^ (k + n)` take the invariant from `k`
to `k + n`. -/
theorem searchInvariant_foldl (obj : ExecObject F) (p v : Vec3 F) (t : F)
    (hkind : obj.kind = IntegratorKind.EulerIntegrator)
    (hE : ∀ out : Vec3 F, obj.Evaluator.Evaluate p t out = (EvaluatorStatus.SUCCESS, v))
    (n : Nat) :
    ∀ (k : Nat) (st : SmallStepState F), searchInvariant obj p v t k st →
      searchInvariant obj p v t (k + n)
        ((List.range' (k + 1) n).foldl (fun s j => obj.smallStepBody p t ((2 : Int) ^ j) s)
          st) := by
  induction n with
  | zero => intro k st h; simpa using h
  | succ n ih =>
    intro k st h
    rw [List.range'_succ, List.foldl_cons]
    have := ih (k + 1) _ (searchInvariant_body obj p v t hkind hE k st h)
    have e : k + 1 + n = k + (n + 1) := by omega
    rw [e] at this
    exact this

/-- The search of `SmallStep` with an Euler integrator whose evaluator answers `SUCCESS`
with `v` at `(p, t)`: the loop returns a state that satisfies the invariant for `k = 20`. -/
theorem searchInvariant_final (obj : ExecObject F) (fuel : Nat) (p v : Vec3 F) (t : F)
    (velocity : Vec3 F) (hkind : obj.kind = IntegratorKind.EulerIntegrator)
    (hs : obj.Evaluator.IsWithinSpatialBoundary p = true)
    (hE : ∀ out : Vec3 F, obj.Evaluator.Evaluate p t out = (EvaluatorStatus.SUCCESS, v))
    (hfuel : 21 ≤ fuel) :
    ∃ st : SmallStepState F,
      obj.smallStepLoop p t fuel 1 (obj.smallStepInit p t velocity) = some st ∧
      searchInvariant obj p v t 20 st := by
  have hloop := smallStepLoop_unroll obj p t fuel 0 (obj.smallStepInit p t velocity)
    (by omega) (by omega)
  rw [pow_zero] at hloop
  refine ⟨_, hloop, ?_⟩
  have := searchInvariant_foldl obj p v t hkind hE 20 0 _
    (searchInvariant_init obj p v t velocity hs)
  simpa using this

end EulerSearchClaims

/-! ## What the search of `SmallStep` finds -/

section EulerSearchResultClaims

variable {F : Type} [LinearOrderedField F]

theorem Vec3.sq_sum_pos (v : Vec3 F) (hv : v ≠ Vec3.zero) :
    0 < v.x ^ 2 + v.y ^ 2 + v.z ^ 2 := by
  rcases v with ⟨x, y, z⟩
  by_contra hneg
  apply hv
  have hx := sq_nonneg x
  have hy := sq_nonneg y
  have hz := sq_nonneg z
  have hx0 : x ^ 2 = 0 := le_antisymm (by simp only [not_lt] at hneg; linarith) hx
  have hy0 : y ^ 2 = 0 := le_antisymm (by simp only [not_lt] at hneg; linarith) hy
  have hz0 : z ^ 2 = 0 := le_antisymm (by simp only [not_lt] at hneg; linarith) hz
  rw [pow_eq_zero_iff (by norm_num)] at hx0 hy0 hz0
  rw [hx0, hy0, hz0]
  rfl

/-- A full Euler `Step` from a start inside both bounds at which the evaluator answers
`SUCCESS` with `v`. -/
theorem Euler_Step_of_success (obj : ExecObject F) (p v : Vec3 F) (t : F)
    (outpos velocity : Vec3 F) (hkind : obj.kind = IntegratorKind.EulerIntegrator)
    (hs : obj.Evaluator.IsWithinSpatialBoundary p = true)
    (ht : obj.Evaluator.IsWithinTemporalBoundary t = true)
    (hE : ∀ out : Vec3 F, obj.Evaluator.Evaluate p t out = (EvaluatorStatus.SUCCESS, v)) :
    obj.Step p t outpos velocity =
      { status := IntegratorStatus.SUCCESS, time := t + obj.StepLength,
        outpos := p + Vec3.scale obj.StepLength v,
        evals := [⟨p, t, EvaluatorStatus.SUCCESS⟩] } := by
  rw [Step_of_inside obj p t outpos velocity hs ht,
    Euler_CheckStep_of_success obj p v t hkind hE]
  rfl

/-- C22 (amended): in exact arithmetic, for the Euler strategy with step length `h > 0`, an
evaluator that answers `SUCCESS` with a non-zero velocity `v` at `(p, t)`, and a start
`(p, t)` inside both bounds: the search loop of `SmallStep` (given fuel for its 21 loop
tests) returns a state whose accumulated length `L` satisfies `0 ≤ L ≤ h * (1 - 1 / 2^20) < h`, whose working position is
`p + v * L` and is inside the spatial bounds, while a full `Step` moves to `p + h * v`; the
displacement `v * L` is strictly shorter (in squared Euclidean length) than the
displacement `h * v` of the full `Step`. -/
theorem C22_search_length_below_step (obj : ExecObject F) (fuel : Nat) (p v : Vec3 F) (t : F)
    (outpos velocity : Vec3 F) (hkind : obj.kind = IntegratorKind.EulerIntegrator)
    (hh : 0 < obj.StepLength) (hv : v ≠ Vec3.zero)
    (hs : obj.Evaluator.IsWithinSpatialBoundary p = true)
    (ht : obj.Evaluator.IsWithinTemporalBoundary t = true)
    (hE : ∀ out : Vec3 F, obj.Evaluator.Evaluate p t out = (EvaluatorStatus.SUCCESS, v))
    (hfuel : 21 ≤ fuel) :
    ∃ st : SmallStepState F,
      obj.smallStepLoop p t fuel 1 (obj.smallStepInit p t velocity) = some st ∧
      0 ≤ st.optimalLength ∧
      st.optimalLength ≤ obj.StepLength * (1 - 1 / (2 : F) ^ 20) ∧
      obj.StepLength * (1 - 1 / (2 : F) ^ 20) < obj.StepLength ∧
      st.workpos = p + Vec3.scaleRight v st.optimalLength ∧
      obj.Evaluator.IsWithinSpatialBoundary st.workpos = true ∧
      (obj.Step p t outpos velocity).outpos = p + Vec3.scale obj.StepLength v ∧
      (Vec3.scaleRight v st.optimalLength).x ^ 2 + (Vec3.scaleRight v st.optimalLength).y ^ 2 +
          (Vec3.scaleRight v st.optimalLength).z ^ 2 <
        (Vec3.scale obj.StepLength v).x ^ 2 + (Vec3.scale obj.StepLength v).y ^ 2 +
          (Vec3.scale obj.StepLength v).z ^ 2 := by
  obtain ⟨st, hloop, m, hm, hL, hwp, _, hin, _⟩ :=
    searchInvariant_final obj fuel p v t velocity hkind hs hE hfuel
  have h2 : (0 : F) < (2 : F) ^ 20 := pow_pos (by norm_num) 20
  have hm1 : ((m + 1 : Nat) : F) ≤ ((2 ^ 20 : Nat) : F) := by exact_mod_cast hm
  push_cast at hm1
  have hm0 : (0 : F) ≤ (m : F) := Nat.cast_nonneg m
  have hL0 : 0 ≤ st.optimalLength := by
    rw [hL]
    exact div_nonneg (mul_nonneg hh.le hm0) h2.le
  have hLle : st.optimalLength ≤ obj.StepLength * (1 - 1 / (2 : F) ^ 20) := by
    rw [hL, mul_div_assoc]
    apply mul_le_mul_of_nonneg_left _ hh.le
    rw [div_le_iff₀ h2, sub_mul, one_mul, one_div, inv_mul_cancel₀ h2.ne']
    linarith
  have hlt : obj.StepLength * (1 - 1 / (2 : F) ^ 20) < obj.StepLength := by
    have : (0 : F) < 1 / (2 : F) ^ 20 := one_div_pos.mpr h2
    nlinarith
  have hLlt : st.optimalLength < obj.StepLength := lt_of_le_of_lt hLle hlt
  refine ⟨st, hloop, hL0, hLle, hlt, hwp, ?_, ?_, ?_⟩
  · rw [hwp]
    exact hin
  · rw [Euler_Step_of_success obj p v t outpos velocity hkind hs ht hE]
  · have hS := Vec3.sq_sum_pos v hv
    have hsq : st.optimalLength ^ 2 < obj.StepLength ^ 2 := by nlinarith
    show (v.x * st.optimalLength) ^ 2 + (v.y * st.optimalLength) ^ 2 +
        (v.z * st.optimalLength) ^ 2 <
      (obj.StepLength * v.x) ^ 2 + (obj.StepLength * v.y) ^ 2 + (obj.StepLength * v.z) ^ 2
    have e1 : (v.x * st.optimalLength) ^ 2 + (v.y * st.optimalLength) ^ 2 +
        (v.z * st.optimalLength) ^ 2 =
        st.optimalLength ^ 2 * (v.x ^ 2 + v.y ^ 2 + v.z ^ 2) := by ring
    have e2 : (obj.StepLength * v.x) ^ 2 + (obj.StepLength * v.y) ^ 2 +
        (obj.StepLength * v.z) ^ 2 =
        obj.StepLength ^ 2 * (v.x ^ 2 + v.y ^ 2 + v.z ^ 2) := by ring
    rw [e1, e2]
    exact mul_lt_mul_of_pos_right hsq hS

/-- The sample evaluator answers `SUCCESS` with `(1, 0, 0)` at `((19/2, 0, 0), 0)`. -/
theorem sampleEuler_evaluate_start (out : Vec3 ℚ) :
    sampleEuler.Evaluator.Evaluate ⟨19 / 2, 0, 0⟩ 0 out =
      (EvaluatorStatus.SUCCESS, ⟨1, 0, 0⟩) := by
  show (if _ then _ else _) = _
  rw [if_pos (by norm_num), if_pos (by norm_num)]

/-- C22 witness: the sample Euler integrator at `p = (19/2, 0, 0)`, `t = 0`, fuel 21. -/
theorem C22_search_length_below_step_witness :
    sampleEuler.kind = IntegratorKind.EulerIntegrator ∧ 0 < sampleEuler.StepLength ∧
    ((⟨1, 0, 0⟩ : Vec3 ℚ) ≠ Vec3.zero) ∧
    sampleEuler.Evaluator.IsWithinSpatialBoundary ⟨19 / 2, 0, 0⟩ = true ∧
    sampleEuler.Evaluator.IsWithinTemporalBoundary 0 = true ∧
    (∀ out : Vec3 ℚ, sampleEuler.Evaluator.Evaluate ⟨19 / 2, 0, 0⟩ 0 out =
      (EvaluatorStatus.SUCCESS, ⟨1, 0, 0⟩)) ∧
    ∃ st : SmallStepState ℚ,
      sampleEuler.smallStepLoop ⟨19 / 2, 0, 0⟩ 0 21 1
        (sampleEuler.smallStepInit ⟨19 / 2, 0, 0⟩ 0 ⟨0, 0, 0⟩) = some st ∧
      0 ≤ st.optimalLength ∧
      st.optimalLength ≤ sampleEuler.StepLength * (1 - 1 / (2 : ℚ) ^ 20) ∧
      sampleEuler.StepLength * (1 - 1 / (2 : ℚ) ^ 20) < sampleEuler.StepLength ∧
      st.workpos = ⟨19 / 2, 0, 0⟩ + Vec3.scaleRight ⟨1, 0, 0⟩ st.optimalLength ∧
      sampleEuler.Evaluator.IsWithinSpatialBoundary st.workpos = true ∧
      (sampleEuler.Step ⟨19 / 2, 0, 0⟩ 0 ⟨9, 9, 9⟩ ⟨0, 0, 0⟩).outpos =
        ⟨19 / 2, 0, 0⟩ + Vec3.scale sampleEuler.StepLength ⟨1, 0, 0⟩ ∧
      (Vec3.scaleRight (⟨1, 0, 0⟩ : Vec3 ℚ) st.optimalLength).x ^ 2 +
          (Vec3.scaleRight (⟨1, 0, 0⟩ : Vec3 ℚ) st.optimalLength).y ^ 2 +
          (Vec3.scaleRight (⟨1, 0, 0⟩ : Vec3 ℚ) st.optimalLength).z ^ 2 <
        (Vec3.scale sampleEuler.StepLength (⟨1, 0, 0⟩ : Vec3 ℚ)).x ^ 2 +
          (Vec3.scale sampleEuler.StepLength (⟨1, 0, 0⟩ : Vec3 ℚ)).y ^ 2 +
          (Vec3.scale sampleEuler.StepLength (⟨1, 0, 0⟩ : Vec3 ℚ)).z ^ 2 :=
  ⟨rfl, by decide!, by decide!, by decide!, by decide, sampleEuler_evaluate_start,
    C22_search_length_below_step sampleEuler 21 ⟨19 / 2, 0, 0⟩ ⟨1, 0, 0⟩ 0 ⟨9, 9, 9⟩ ⟨0, 0, 0⟩
      rfl (by decide!) (by decide!) (by decide!) (by decide) sampleEuler_evaluate_start
      (le_refl 21)⟩

/-- C23 (amended): in exact arithmetic, for the Euler strategy with step length `h > 0`, an
evaluator that answers `SUCCESS` with `v` at `(p, t)`, a start inside the spatial bounds, and
a spatial region for which
the set of lengths `L ≥ 0` with `p + v * L` inside is downward closed: the search loop of
`SmallStep` (given fuel for its 21 loop tests) returns a state whose accumulated length is
`h * m / 2^20` for a natural number `m < 2^20` with `p + v * (h * m / 2^20)` inside the
spatial bounds, where `m` is the largest such number below `2^20`; the working position is
`p + v * L` and the working time is `t + L`. -/
theorem C23_search_finds_largest_multiple (obj : ExecObject F) (fuel : Nat) (p v : Vec3 F)
    (t : F) (velocity : Vec3 F) (hkind : obj.kind = IntegratorKind.EulerIntegrator)
    (hh : 0 < obj.StepLength)
    (hs : obj.Evaluator.IsWithinSpatialBoundary p = true)
    (hE : ∀ out : Vec3 F, obj.Evaluator.Evaluate p t out = (EvaluatorStatus.SUCCESS, v))
    (hdc : ∀ a b : F, 0 ≤ a → a ≤ b →
      obj.Evaluator.IsWithinSpatialBoundary (p + Vec3.scaleRight v b) = true →
      obj.Evaluator.IsWithinSpatialBoundary (p + Vec3.scaleRight v a) = true)
    (hfuel : 21 ≤ fuel) :
    ∃ (st : SmallStepState F) (m : Nat),
      obj.smallStepLoop p t fuel 1 (obj.smallStepInit p t velocity) = some st ∧
      m < 2 ^ 20 ∧
      st.optimalLength = obj.StepLength * (m : F) / (2 : F) ^ 20 ∧
      obj.Evaluator.IsWithinSpatialBoundary
        (p + Vec3.scaleRight v (obj.StepLength * (m : F) / (2 : F) ^ 20)) = true ∧
      (∀ j : Nat, j < 2 ^ 20 →
        obj.Evaluator.IsWithinSpatialBoundary
          (p + Vec3.scaleRight v (obj.StepLength * (j : F) / (2 : F) ^ 20)) = true → j ≤ m) ∧
      st.workpos = p + Vec3.scaleRight v st.optimalLength ∧
      st.worktime = t + st.optimalLength := by
  obtain ⟨st, hloop, m, hm, hL, hwp, hwt, hin, hmax⟩ :=
    searchInvariant_final obj fuel p v t velocity hkind hs hE hfuel
  have h2 : (0 : F) < (2 : F) ^ 20 := pow_pos (by norm_num) 20
  refine ⟨st, m, hloop, hm, hL, ?_, ?_, hwp, hwt⟩
  · rw [← hL]
    exact hin
  · intro j hj hjin
    by_contra hnot
    have hmj : m + 1 ≤ j := by omega
    rcases hmax with hfull | hout
    · omega
    · have hcast : ((m : F) + 1) ≤ (j : F) := by exact_mod_cast hmj
      have hm0 : (0 : F) ≤ (m : F) := Nat.cast_nonneg m
      have ha : 0 ≤ obj.StepLength * ((m : F) + 1) / (2 : F) ^ 20 :=
        div_nonneg (mul_nonneg hh.le (by linarith)) h2.le
      have hab : obj.StepLength * ((m : F) + 1) / (2 : F) ^ 20 ≤
          obj.StepLength * (j : F) / (2 : F) ^ 20 :=
        div_le_div_of_nonneg_right (mul_le_mul_of_nonneg_left hcast hh.le) h2.le
      have := hdc _ _ ha hab hjin
      rw [hout] at this
      exact Bool.false_ne_true this

/-- In the sample box, the lengths that keep `(19/2, 0, 0) + (1, 0, 0) * L` inside are
downward closed. -/
theorem sampleEuler_downward_closed (a b : ℚ) (ha : 0 ≤ a) (hab : a ≤ b)
    (hb : sampleEuler.Evaluator.IsWithinSpatialBoundary
      (⟨19 / 2, 0, 0⟩ + Vec3.scaleRight ⟨1, 0, 0⟩ b) = true) :
    sampleEuler.Evaluator.IsWithinSpatialBoundary
      (⟨19 / 2, 0, 0⟩ + Vec3.scaleRight ⟨1, 0, 0⟩ a) = true := by
  have hb2 : decide (0 ≤ 19 / 2 + 1 * b ∧ 19 / 2 + 1 * b ≤ 10 ∧ (0 : ℚ) ≤ 0 + 0 * b ∧
      0 + 0 * b ≤ 10 ∧ (0 : ℚ) ≤ 0 + 0 * b ∧ 0 + 0 * b ≤ 10) = true := hb
  show decide (0 ≤ 19 / 2 + 1 * a ∧ 19 / 2 + 1 * a ≤ 10 ∧ (0 : ℚ) ≤ 0 + 0 * a ∧
      0 + 0 * a ≤ 10 ∧ (0 : ℚ) ≤ 0 + 0 * a ∧ 0 + 0 * a ≤ 10) = true
  rw [decide_eq_true_iff] at hb2 ⊢
  obtain ⟨h1, h2, _⟩ := hb2
  refine ⟨by linarith, by linarith, by norm_num, by norm_num, by norm_num, by norm_num⟩

/-- C23 witness: the sample Euler integrator at `p = (19/2, 0, 0)`, `t = 0`, fuel 21. -/
theorem C23_search_finds_largest_multiple_witness :
    sampleEuler.kind = IntegratorKind.EulerIntegrator ∧ 0 < sampleEuler.StepLength ∧
    sampleEuler.Evaluator.IsWithinSpatialBoundary ⟨19 / 2, 0, 0⟩ = true ∧
    (∀ out : Vec3 ℚ, sampleEuler.Evaluator.Evaluate ⟨19 / 2, 0, 0⟩ 0 out =
      (EvaluatorStatus.SUCCESS, ⟨1, 0, 0⟩)) ∧
    (∀ a b : ℚ, 0 ≤ a → a ≤ b →
      sampleEuler.Evaluator.IsWithinSpatialBoundary
        (⟨19 / 2, 0, 0⟩ + Vec3.scaleRight ⟨1, 0, 0⟩ b) = true →
      sampleEuler.Evaluator.IsWithinSpatialBoundary
        (⟨19 / 2, 0, 0⟩ + Vec3.scaleRight ⟨1, 0, 0⟩ a) = true) ∧
    ∃ (st : SmallStepState ℚ) (m : Nat),
      sampleEuler.smallStepLoop ⟨19 / 2, 0, 0⟩ 0 21 1
        (sampleEuler.smallStepInit ⟨19 / 2, 0, 0⟩ 0 ⟨0, 0, 0⟩) = some st ∧
      m < 2 ^ 20 ∧
      st.optimalLength = sampleEuler.StepLength * (m : ℚ) / (2 : ℚ) ^ 20 ∧
      sampleEuler.Evaluator.IsWithinSpatialBoundary
        (⟨19 / 2, 0, 0⟩ +
          Vec3.scaleRight ⟨1, 0, 0⟩ (sampleEuler.StepLength * (m : ℚ) / (2 : ℚ) ^ 20)) = true ∧
      (∀ j : Nat, j < 2 ^ 20 →
        sampleEuler.Evaluator.IsWithinSpatialBoundary
          (⟨19 / 2, 0, 0⟩ +
            Vec3.scaleRight ⟨1, 0, 0⟩ (sampleEuler.StepLength * (j : ℚ) / (2 : ℚ) ^ 20)) = true →
        j ≤ m) ∧
      st.workpos = ⟨19 / 2, 0, 0⟩ + Vec3.scaleRight ⟨1, 0, 0⟩ st.optimalLength ∧
      st.worktime = 0 + st.optimalLength :=
  ⟨rfl, by decide!, by decide!, sampleEuler_evaluate_start, sampleEuler_downward_closed,
    C23_search_finds_largest_multiple sampleEuler 21 ⟨19 / 2, 0, 0⟩ ⟨1, 0, 0⟩ 0 ⟨0, 0, 0⟩
      rfl (by decide!) (by decide!) sampleEuler_evaluate_start sampleEuler_downward_closed
      (le_refl 21)⟩

/-- C21 (evaluation at the failing input): the sample field has velocity `(1, 0, 0)` on the
box `[0, 10]^3`, and the start `((19/2, 0, 0), 0)` is inside both bounds.  A full Euler
`Step` returns `SUCCESS` with the position `(21/2, 0, 0)`, outside the box; a full RK4
`Step` reports `OUTSIDE_SPATIAL_BOUNDS`.  For both strategies `SmallStep` returns
`OUTSIDE_SPATIAL_BOUNDS` and writes the position `(10, 0, 0)`, which is inside the spatial
boundary: the final push has length 0, the minimum over the three axes. -/
theorem C21_small_step_position_inside :
    sampleEvaluator.IsWithinSpatialBoundary ⟨19 / 2, 0, 0⟩ = true ∧
    sampleEvaluator.IsWithinTemporalBoundary 0 = true ∧
    (sampleEuler.Step ⟨19 / 2, 0, 0⟩ 0 ⟨9, 9, 9⟩ ⟨0, 0, 0⟩).status = IntegratorStatus.SUCCESS ∧
    (sampleEuler.Step ⟨19 / 2, 0, 0⟩ 0 ⟨9, 9, 9⟩ ⟨0, 0, 0⟩).outpos = ⟨21 / 2, 0, 0⟩ ∧
    sampleEvaluator.IsWithinSpatialBoundary ⟨21 / 2, 0, 0⟩ = false ∧
    (sampleEuler.SmallStep 21 ⟨19 / 2, 0, 0⟩ 0 ⟨9, 9, 9⟩ ⟨0, 0, 0⟩).map
        (fun r => (r.status, r.outpos, r.time)) =
      some (IntegratorStatus.OUTSIDE_SPATIAL_BOUNDS, ⟨10, 0, 0⟩, 1 / 2) ∧
    (sampleRK4.Step ⟨19 / 2, 0, 0⟩ 0 ⟨9, 9, 9⟩ ⟨0, 0, 0⟩).status =
      IntegratorStatus.OUTSIDE_SPATIAL_BOUNDS ∧
    (sampleRK4.SmallStep 21 ⟨19 / 2, 0, 0⟩ 0 ⟨9, 9, 9⟩ ⟨0, 0, 0⟩).map
        (fun r => (r.status, r.outpos, r.time)) =
      some (IntegratorStatus.OUTSIDE_SPATIAL_BOUNDS, ⟨10, 0, 0⟩, 1 / 2) ∧
    sampleEvaluator.IsWithinSpatialBoundary ⟨10, 0, 0⟩ = true := by
  refine ⟨by decide!, by decide, by decide!, by decide!, by decide!, by decide!, by decide!,
    by decide!, by decide!⟩

end EulerSearchResultClaims

/-! ## RK4 and Euler in a constant field -/

section ConstantFieldClaims

variable {F : Type} [LinearOrderedField F]

theorem Vec3.add_def (a b : Vec3 F) : a + b = ⟨a.x + b.x, a.y + b.y, a.z + b.z⟩ := rfl

theorem Vec3.rk4_average_const (v : Vec3 F) :
    Vec3.divScalar (v + Vec3.scale 2 v + Vec3.scale 2 v + v) 6 = v := by
  rcases v with ⟨x, y, z⟩
  simp only [Vec3.add_def, Vec3.scale, Vec3.divScalar]
  congr 1 <;> ring

/-- In a constant field RK4's `CheckStep` returns `SUCCESS` and the field's velocity. -/
theorem RK4_CheckStep_of_constant (obj : ExecObject F) (v : Vec3 F)
    (hkind : obj.kind = IntegratorKind.RK4Integrator)
    (hE : ∀ (q : Vec3 F) (s : F) (out : Vec3 F),
      obj.Evaluator.Evaluate q s out = (EvaluatorStatus.SUCCESS, v))
    (p : Vec3 F) (length t : F) (velocity : Vec3 F) :
    (obj.CheckStep p length t velocity).status = IntegratorStatus.SUCCESS ∧
    (obj.CheckStep p length t velocity).velocity = v := by
  unfold ExecObject.CheckStep
  rw [hkind]
  simp only []
  unfold ExecObject.RK4CheckStep
  simp only [hE, ne_eq, not_true_eq_false, if_false, Vec3.rk4_average_const, and_self]

/-- The status, position and time `Step` writes when `CheckStep` always answers `SUCCESS`
with velocity `v`. -/
theorem Step_of_constant_check (obj : ExecObject F) (v : Vec3 F)
    (hc : ∀ (p : Vec3 F) (length t : F) (velocity : Vec3 F),
      (obj.CheckStep p length t velocity).status = IntegratorStatus.SUCCESS ∧
      (obj.CheckStep p length t velocity).velocity = v)
    (p : Vec3 F) (t : F) (outpos velocity : Vec3 F) :
    (obj.Step p t outpos velocity).status =
      (if obj.Evaluator.IsWithinSpatialBoundary p = true then
        if obj.Evaluator.IsWithinTemporalBoundary t = true then IntegratorStatus.SUCCESS
        else IntegratorStatus.OUTSIDE_TEMPORAL_BOUNDS
      else IntegratorStatus.OUTSIDE_SPATIAL_BOUNDS) ∧
    (obj.Step p t outpos velocity).outpos =
      (if obj.Evaluator.IsWithinSpatialBoundary p = true then
        if obj.Evaluator.IsWithinTemporalBoundary t = true then
          p + Vec3.scale obj.StepLength v
        else outpos
      else outpos) ∧
    (obj.Step p t outpos velocity).time =
      (if obj.Evaluator.IsWithinSpatialBoundary p = true then
        if obj.Evaluator.IsWithinTemporalBoundary t = true then t + obj.StepLength else t
      else t) := by
  by_cases hs : obj.Evaluator.IsWithinSpatialBoundary p = true
  · by_cases ht : obj.Evaluator.IsWithinTemporalBoundary t = true
    · rw [Step_of_inside obj p t outpos velocity hs ht, if_pos (hc _ _ _ _).1, if_pos hs,
        if_pos ht, if_pos hs, if_pos ht, if_pos hs, if_pos ht, (hc _ _ _ _).2]
      exact ⟨(hc _ _ _ _).1, rfl, rfl⟩
    · have ht2 : obj.Evaluator.IsWithinTemporalBoundary t = false := by simpa using ht
      rw [Step_of_outside_temporal obj p t outpos velocity hs ht2, if_pos hs, if_neg ht,
        if_pos hs, if_neg ht, if_pos hs, if_neg ht]
      exact ⟨rfl, rfl, rfl⟩
  · have hs2 : obj.Evaluator.IsWithinSpatialBoundary p = false := by simpa using hs
    rw [Step_of_outside_spatial obj p t outpos velocity hs2, if_neg hs, if_neg hs, if_neg hs]
    exact ⟨rfl, rfl, rfl⟩

/-- Two integrators whose `Step` calls agree in status, position and time make the same
runs of successive steps. -/
theorem advanceSteps_congr (objA objB : ExecObject F) (outpos velocity : Vec3 F)
    (h : ∀ (p : Vec3 F) (t : F),
      (objA.Step p t outpos velocity).status = (objB.Step p t outpos velocity).status ∧
      (objA.Step p t outpos velocity).outpos = (objB.Step p t outpos velocity).outpos ∧
      (objA.Step p t outpos velocity).time = (objB.Step p t outpos velocity).time)
    (n : Nat) :
    ∀ (p : Vec3 F) (t : F),
      objA.advanceSteps outpos velocity n p t = objB.advanceSteps outpos velocity n p t := by
  induction n with
  | zero => intro p t; rfl
  | succ n ih =>
    intro p t
    rw [ExecObject.advanceSteps, ExecObject.advanceSteps, (h p t).1, (h p t).2.1, (h p t).2.2,
      ih]

/-- With velocity `(1, 0, 0)` and step length 1, `n` steps from `((k, 0, 0), k)` through
starts that are inside both bounds end at `((k + n, 0, 0), k + n)`. -/
theorem advanceSteps_unit_line (obj : ExecObject F)
    (hc : ∀ (p : Vec3 F) (length t : F) (velocity : Vec3 F),
      (obj.CheckStep p length t velocity).status = IntegratorStatus.SUCCESS ∧
      (obj.CheckStep p length t velocity).velocity = ⟨1, 0, 0⟩)
    (hlen : obj.StepLength = 1) (outpos velocity : Vec3 F) (n : Nat) :
    ∀ k : Nat,
      (∀ i : Nat, k ≤ i → i < k + n →
        obj.Evaluator.IsWithinSpatialBoundary ⟨(i : F), 0, 0⟩ = true ∧
        obj.Evaluator.IsWithinTemporalBoundary (i : F) = true) →
      obj.advanceSteps outpos velocity n ⟨(k : F), 0, 0⟩ (k : F) =
        some (⟨((k + n : Nat) : F), 0, 0⟩, ((k + n : Nat) : F)) := by
  induction n with
  | zero => intro k _; rfl
  | succ n ih =>
    intro k hin
    obtain ⟨hs, ht⟩ := hin k (le_refl k) (by omega)
    obtain ⟨e1, e2, e3⟩ := Step_of_constant_check obj ⟨1, 0, 0⟩ hc ⟨(k : F), 0, 0⟩ (k : F)
      outpos velocity
    rw [if_pos hs, if_pos ht] at e1 e2 e3
    rw [ExecObject.advanceSteps, if_pos e1, e2, e3, hlen]
    have ep : (⟨(k : F), 0, 0⟩ : Vec3 F) + Vec3.scale 1 ⟨1, 0, 0⟩ =
        ⟨((k + 1 : Nat) : F), 0, 0⟩ := by
      simp only [Vec3.add_def, Vec3.scale]
      push_cast
      congr 1 <;> ring
    have et : (k : F) + 1 = ((k + 1 : Nat) : F) := by push_cast; rfl
    rw [ep, et, ih (k + 1) (fun i h1 h2 => hin i (by omega) (by omega))]
    have e : k + 1 + n = k + (n + 1) := by omega
    rw [e]

/-- C25 (amended): in exact arithmetic, for an RK4 and an Euler integrator on the same
evaluator with the same step length, where the evaluator answers `SUCCESS` with the same velocity `v` at every position
and time: RK4's `CheckStep` returns `SUCCESS` and exactly `v` for every step length; from
every start `Step` returns the same status, position and time for both strategies, and so
do runs of successive steps; and with `v = (1, 0, 0)`, step length 1 and the ten starts
`((i, 0, 0), i)`, `i < 10`, inside both bounds, both strategies are at position
`(10, 0, 0)` and time 10 after ten successful steps from `(0, 0, 0)` at time 0. -/
theorem C25_constant_field_rk4_equals_euler (objR objE : ExecObject F) (v : Vec3 F)
    (hR : objR.kind = IntegratorKind.RK4Integrator)
    (hEu : objE.kind = IntegratorKind.EulerIntegrator)
    (hev : objE.Evaluator = objR.Evaluator) (hlen : objE.StepLength = objR.StepLength)
    (hE : ∀ (q : Vec3 F) (s : F) (out : Vec3 F),
      objR.Evaluator.Evaluate q s out = (EvaluatorStatus.SUCCESS, v)) :
    (∀ (p : Vec3 F) (length t : F) (velocity : Vec3 F),
      (objR.CheckStep p length t velocity).status = IntegratorStatus.SUCCESS ∧
      (objR.CheckStep p length t velocity).velocity = v) ∧
    (∀ (p : Vec3 F) (t : F) (outpos velocity : Vec3 F),
      (objR.Step p t outpos velocity).status = (objE.Step p t outpos velocity).status ∧
      (objR.Step p t outpos velocity).outpos = (objE.Step p t outpos velocity).outpos ∧
      (objR.Step p t outpos velocity).time = (objE.Step p t outpos velocity).time) ∧
    (∀ (n : Nat) (p : Vec3 F) (t : F) (outpos velocity : Vec3 F),
      objR.advanceSteps outpos velocity n p t = objE.advanceSteps outpos velocity n p t) ∧
    (v = ⟨1, 0, 0⟩ → objR.StepLength = 1 →
      (∀ i : Nat, i < 10 →
        objR.Evaluator.IsWithinSpatialBoundary ⟨(i : F), 0, 0⟩ = true ∧
        objR.Evaluator.IsWithinTemporalBoundary (i : F) = true) →
      ∀ outpos velocity : Vec3 F,
        objR.advanceSteps outpos velocity 10 ⟨0, 0, 0⟩ 0 = some (⟨10, 0, 0⟩, 10) ∧
        objE.advanceSteps outpos velocity 10 ⟨0, 0, 0⟩ 0 = some (⟨10, 0, 0⟩, 10)) := by
  have hcR := RK4_CheckStep_of_constant objR v hR hE
  have hE2 : ∀ (q : Vec3 F) (s : F) (out : Vec3 F),
      objE.Evaluator.Evaluate q s out = (EvaluatorStatus.SUCCESS, v) := by
    rw [hev]; exact hE
  have hcE : ∀ (p : Vec3 F) (length t : F) (velocity : Vec3 F),
      (objE.CheckStep p length t velocity).status = IntegratorStatus.SUCCESS ∧
      (objE.CheckStep p length t velocity).velocity = v := by
    intro p length t velocity
    rw [Euler_CheckStep_of_success objE p v t hEu (hE2 p t) length velocity]
    exact ⟨rfl, rfl⟩
  have hstep : ∀ (p : Vec3 F) (t : F) (outpos velocity : Vec3 F),
      (objR.Step p t outpos velocity).status = (objE.Step p t outpos velocity).status ∧
      (objR.Step p t outpos velocity).outpos = (objE.Step p t outpos velocity).outpos ∧
      (objR.Step p t outpos velocity).time = (objE.Step p t outpos velocity).time := by
    intro p t outpos velocity
    obtain ⟨a1, a2, a3⟩ := Step_of_constant_check objR v hcR p t outpos velocity
    obtain ⟨b1, b2, b3⟩ := Step_of_constant_check objE v hcE p t outpos velocity
    rw [hev] at b1 b2 b3
    rw [hlen] at b2 b3
    exact ⟨a1.trans b1.symm, a2.trans b2.symm, a3.trans b3.symm⟩
  have hadv : ∀ (n : Nat) (p : Vec3 F) (t : F) (outpos velocity : Vec3 F),
      objR.advanceSteps outpos velocity n p t = objE.advanceSteps outpos velocity n p t :=
    fun n p t outpos velocity =>
      advanceSteps_congr objR objE outpos velocity (fun p t => hstep p t outpos velocity) n p t
  refine ⟨hcR, hstep, hadv, ?_⟩
  intro hv hone hin outpos velocity
  subst hv
  have hline := advanceSteps_unit_line objR hcR hone outpos velocity 10 0
    (fun i _ h2 => hin i (by omega))
  have hr : objR.advanceSteps outpos velocity 10 ⟨0, 0, 0⟩ 0 = some (⟨10, 0, 0⟩, 10) := by
    have e0 : ((0 : Nat) : F) = 0 := Nat.cast_zero
    have e10 : ((0 + 10 : Nat) : F) = 10 := by push_cast; norm_num
    rw [e0, e10] at hline
    exact hline
  exact ⟨hr, (hadv 10 _ _ outpos velocity).symm.trans hr⟩

/-- C25 witness: the uniform field `(1, 0, 0)` with step length 1: both strategies are at
`(10, 0, 0)` after ten steps from `(0, 0, 0)` at time 0. -/
theorem C25_constant_field_rk4_equals_euler_witness :
    uniformRK4.kind = IntegratorKind.RK4Integrator ∧
    uniformEuler.kind = IntegratorKind.EulerIntegrator ∧
    uniformEuler.Evaluator = uniformRK4.Evaluator ∧
    uniformEuler.StepLength = uniformRK4.StepLength ∧
    (∀ (q : Vec3 ℚ) (s : ℚ) (out : Vec3 ℚ),
      uniformRK4.Evaluator.Evaluate q s out = (EvaluatorStatus.SUCCESS, ⟨1, 0, 0⟩)) ∧
    uniformRK4.advanceSteps ⟨9, 9, 9⟩ ⟨7, 7, 7⟩ 10 ⟨0, 0, 0⟩ 0 = some (⟨10, 0, 0⟩, 10) ∧
    uniformEuler.advanceSteps ⟨9, 9, 9⟩ ⟨7, 7, 7⟩ 10 ⟨0, 0, 0⟩ 0 = some (⟨10, 0, 0⟩, 10) :=
  ⟨rfl, rfl, rfl, rfl, fun _ _ _ => rfl,
    (C25_constant_field_rk4_equals_euler uniformRK4 uniformEuler ⟨1, 0, 0⟩ rfl rfl rfl rfl
      (fun _ _ _ => rfl)).2.2.2 rfl rfl (by decide!) ⟨9, 9, 9⟩ ⟨7, 7, 7⟩⟩

end ConstantFieldClaims

/-! ## RK4 and Euler in the rotation field -/

section RotationFieldClaims

/-- One RK4 `Step` from `(1, 0, 0)` in the rotation field, without clamping. -/
theorem RK4_Step_of_rotation {F : Type} [LinearOrderedField F] (obj : ExecObject F) (t : F)
    (outpos velocity : Vec3 F) (hkind : obj.kind = IntegratorKind.RK4Integrator)
    (hs : obj.Evaluator.IsWithinSpatialBoundary ⟨1, 0, 0⟩ = true)
    (ht : obj.Evaluator.IsWithinTemporalBoundary t = true)
    (hB : t + obj.StepLength + obj.Epsilon ≤ obj.Evaluator.GetTemporalBoundary 1)
    (hrot : ∀ (q : Vec3 F) (s : F) (out : Vec3 F),
      obj.Evaluator.Evaluate q s out = (EvaluatorStatus.SUCCESS, ⟨-q.y, q.x, 0⟩)) :
    (obj.Step ⟨1, 0, 0⟩ t outpos velocity).outpos =
      ⟨1 - obj.StepLength ^ 2 / 2 + obj.StepLength ^ 4 / 24,
        obj.StepLength - obj.StepLength ^ 3 / 6, 0⟩ := by
  have hno : ¬ (t + obj.StepLength + obj.Epsilon - obj.Evaluator.GetTemporalBoundary 1 > 0) := by
    intro h
    have := sub_pos.1 h
    exact absurd hB (not_le.2 this)
  have hc : obj.CheckStep ⟨1, 0, 0⟩ obj.StepLength t velocity =
      obj.RK4CheckStep ⟨1, 0, 0⟩ obj.StepLength t velocity := by
    unfold ExecObject.CheckStep
    rw [hkind]
  rw [Step_of_inside obj ⟨1, 0, 0⟩ t outpos velocity hs ht, hc]
  unfold ExecObject.RK4CheckStep
  simp only [if_neg hno, hrot, ne_eq, not_true_eq_false, if_false, if_true, Vec3.add_def,
    Vec3.scale, Vec3.divScalar]
  congr 1 <;> ring

/-- One Euler `Step` from `(1, 0, 0)` in the rotation field. -/
theorem Euler_Step_of_rotation {F : Type} [LinearOrderedField F] (obj : ExecObject F) (t : F)
    (outpos velocity : Vec3 F) (hkind : obj.kind = IntegratorKind.EulerIntegrator)
    (hs : obj.Evaluator.IsWithinSpatialBoundary ⟨1, 0, 0⟩ = true)
    (ht : obj.Evaluator.IsWithinTemporalBoundary t = true)
    (hrot : ∀ (q : Vec3 F) (s : F) (out : Vec3 F),
      obj.Evaluator.Evaluate q s out = (EvaluatorStatus.SUCCESS, ⟨-q.y, q.x, 0⟩)) :
    (obj.Step ⟨1, 0, 0⟩ t outpos velocity).outpos = ⟨1, obj.StepLength, 0⟩ := by
  rw [Euler_Step_of_success obj ⟨1, 0, 0⟩ ⟨-0, 1, 0⟩ t outpos velocity hkind hs ht
    (fun out => hrot ⟨1, 0, 0⟩ t out)]
  simp only [Vec3.add_def, Vec3.scale]
  congr 1 <;> ring

/-- The truncation errors on the unit circle: for `0 < h ≤ 1` the point
`(1 - h^2/2 + h^4/24, h - h^3/6)` is closer to `(cos h, sin h)` than the point `(1, h)`. -/
theorem rotation_error_lt (h : ℝ) (h0 : 0 < h) (h1 : h ≤ 1) :
    (1 - h ^ 2 / 2 + h ^ 4 / 24 - Real.cos h) ^ 2 + (h - h ^ 3 / 6 - Real.sin h) ^ 2 +
        ((0 : ℝ) - 0) ^ 2 <
      (1 - Real.cos h) ^ 2 + (h - Real.sin h) ^ 2 + ((0 : ℝ) - 0) ^ 2 := by
  have habs : |h| ≤ 1 := by rw [abs_of_pos h0]; exact h1
  have hc := Real.cos_bound habs
  have hs := Real.sin_bound habs
  rw [abs_of_pos h0, abs_le] at hc hs
  obtain ⟨hc1, hc2⟩ := hc
  obtain ⟨hs1, hs2⟩ := hs
  have h4pos : 0 < h ^ 4 := by positivity
  have h4le : h ^ 4 ≤ h ^ 2 := pow_le_pow_of_le_one h0.le h1 (by norm_num)
  have h8le : h ^ 8 ≤ h ^ 4 := pow_le_pow_of_le_one h0.le h1 (by norm_num)
  have ex : (1 - h ^ 2 / 2 + h ^ 4 / 24 - Real.cos h) ^ 2 ≤ (9 / 96 * h ^ 4) ^ 2 :=
    sq_le_sq' (by linarith) (by linarith)
  have ey : (h - h ^ 3 / 6 - Real.sin h) ^ 2 ≤ (5 / 96 * h ^ 4) ^ 2 :=
    sq_le_sq' (by linarith) (by linarith)
  have eE : (43 / 96 * h ^ 2) ^ 2 ≤ (1 - Real.cos h) ^ 2 :=
    pow_le_pow_left₀ (by positivity) (by linarith) 2
  have eS : 0 ≤ (h - Real.sin h) ^ 2 := sq_nonneg _
  have e1 : (9 / 96 * h ^ 4) ^ 2 + (5 / 96 * h ^ 4) ^ 2 = 106 / 9216 * h ^ 8 := by ring
  have e2 : (43 / 96 * h ^ 2) ^ 2 = 1849 / 9216 * h ^ 4 := by ring
  rw [e2] at eE
  have e0 : ((0 : ℝ) - 0) ^ 2 = 0 := by norm_num
  rw [e0]
  linarith

/-- C24: in exact real arithmetic, for an RK4 and an Euler integrator on the same evaluator
with the same step length `h`, `0 < h ≤ 1`, where the evaluator answers `SUCCESS` with the
rotation field `(-y, x, 0)` at every position and time, the start `((1, 0, 0), t)` is inside
both bounds and RK4 does not clamp (`t + h + Epsilon ≤ B`): one RK4 `Step` moves to
`(1 - h^2/2 + h^4/24, h - h^3/6, 0)`, one Euler `Step` moves to `(1, h, 0)`, and the
Euclidean distance from the RK4 position to the exact solution `(cos h, sin h, 0)` is
strictly smaller than the distance from the Euler position. -/
theorem C24_rk4_closer_than_euler_on_rotation (objR objE : ExecObject ℝ) (t : ℝ)
    (outpos velocity : Vec3 ℝ) (hR : objR.kind = IntegratorKind.RK4Integrator)
    (hEu : objE.kind = IntegratorKind.EulerIntegrator)
    (hev : objE.Evaluator = objR.Evaluator) (hlen : objE.StepLength = objR.StepLength)
    (hs : objR.Evaluator.IsWithinSpatialBoundary ⟨1, 0, 0⟩ = true)
    (ht : objR.Evaluator.IsWithinTemporalBoundary t = true)
    (hB : t + objR.StepLength + objR.Epsilon ≤ objR.Evaluator.GetTemporalBoundary 1)
    (hrot : ∀ (q : Vec3 ℝ) (s : ℝ) (out : Vec3 ℝ),
      objR.Evaluator.Evaluate q s out = (EvaluatorStatus.SUCCESS, ⟨-q.y, q.x, 0⟩))
    (h0 : 0 < objR.StepLength) (h1 : objR.StepLength ≤ 1) :
    (objR.Step ⟨1, 0, 0⟩ t outpos velocity).outpos =
      ⟨1 - objR.StepLength ^ 2 / 2 + objR.StepLength ^ 4 / 24,
        objR.StepLength - objR.StepLength ^ 3 / 6, 0⟩ ∧
    (objE.Step ⟨1, 0, 0⟩ t outpos velocity).outpos = ⟨1, objR.StepLength, 0⟩ ∧
    Real.sqrt
        (((objR.Step ⟨1, 0, 0⟩ t outpos velocity).outpos.x - Real.cos objR.StepLength) ^ 2 +
          ((objR.Step ⟨1, 0, 0⟩ t outpos velocity).outpos.y - Real.sin objR.StepLength) ^ 2 +
          ((objR.Step ⟨1, 0, 0⟩ t outpos velocity).outpos.z - 0) ^ 2) <
      Real.sqrt
        (((objE.Step ⟨1, 0, 0⟩ t outpos velocity).outpos.x - Real.cos objR.StepLength) ^ 2 +
          ((objE.Step ⟨1, 0, 0⟩ t outpos velocity).outpos.y - Real.sin objR.StepLength) ^ 2 +
          ((objE.Step ⟨1, 0, 0⟩ t outpos velocity).outpos.z - 0) ^ 2) := by
  have eR := RK4_Step_of_rotation objR t outpos velocity hR hs ht hB hrot
  have eE := Euler_Step_of_rotation objE t outpos velocity hEu (by rw [hev]; exact hs)
    (by rw [hev]; exact ht) (by rw [hev]; exact hrot)
  rw [hlen] at eE
  refine ⟨eR, eE, ?_⟩
  rw [eR, eE]
  exact Real.sqrt_lt_sqrt (by positivity) (rotation_error_lt objR.StepLength h0 h1)

/-- C24 witness: the rotation integrators over the reals with step length 1, at time 0. -/
theorem C24_rk4_closer_than_euler_on_rotation_witness :
    (0 : ℝ) < (rotationIntegrator ℝ IntegratorKind.RK4Integrator 1).StepLength ∧
    (rotationIntegrator ℝ IntegratorKind.RK4Integrator 1).StepLength ≤ 1 ∧
    (0 : ℝ) + (rotationIntegrator ℝ IntegratorKind.RK4Integrator 1).StepLength +
        (rotationIntegrator ℝ IntegratorKind.RK4Integrator 1).Epsilon ≤
      (rotationIntegrator ℝ IntegratorKind.RK4Integrator 1).Evaluator.GetTemporalBoundary 1 ∧
    ((rotationIntegrator ℝ IntegratorKind.RK4Integrator 1).Step ⟨1, 0, 0⟩ 0 ⟨9, 9, 9⟩
        ⟨7, 7, 7⟩).outpos = ⟨1 - 1 ^ 2 / 2 + 1 ^ 4 / 24, 1 - 1 ^ 3 / 6, 0⟩ ∧
    ((rotationIntegrator ℝ IntegratorKind.EulerIntegrator 1).Step ⟨1, 0, 0⟩ 0 ⟨9, 9, 9⟩
        ⟨7, 7, 7⟩).outpos = ⟨1, 1, 0⟩ ∧
    Real.sqrt
        ((((rotationIntegrator ℝ IntegratorKind.RK4Integrator 1).Step ⟨1, 0, 0⟩ 0 ⟨9, 9, 9⟩
            ⟨7, 7, 7⟩).outpos.x - Real.cos 1) ^ 2 +
          (((rotationIntegrator ℝ IntegratorKind.RK4Integrator 1).Step ⟨1, 0, 0⟩ 0 ⟨9, 9, 9⟩
            ⟨7, 7, 7⟩).outpos.y - Real.sin 1) ^ 2 +
          (((rotationIntegrator ℝ IntegratorKind.RK4Integrator 1).Step ⟨1, 0, 0⟩ 0 ⟨9, 9, 9⟩
            ⟨7, 7, 7⟩).outpos.z - 0) ^ 2) <
      Real.sqrt
        ((((rotationIntegrator ℝ IntegratorKind.EulerIntegrator 1).Step ⟨1, 0, 0⟩ 0 ⟨9, 9, 9⟩
            ⟨7, 7, 7⟩).outpos.x - Real.cos 1) ^ 2 +
          (((rotationIntegrator ℝ IntegratorKind.EulerIntegrator 1).Step ⟨1, 0, 0⟩ 0 ⟨9, 9, 9⟩
            ⟨7, 7, 7⟩).outpos.y - Real.sin 1) ^ 2 +
          (((rotationIntegrator ℝ IntegratorKind.EulerIntegrator 1).Step ⟨1, 0, 0⟩ 0 ⟨9, 9, 9⟩
            ⟨7, 7, 7⟩).outpos.z - 0) ^ 2) :=
  have hpos : (0 : ℝ) < (rotationIntegrator ℝ IntegratorKind.RK4Integrator 1).StepLength :=
    show (0 : ℝ) < 1 from one_pos
  have hle : (rotationIntegrator ℝ IntegratorKind.RK4Integrator 1).StepLength ≤ 1 :=
    show (1 : ℝ) ≤ 1 from le_refl 1
  have hB : (0 : ℝ) + (rotationIntegrator ℝ IntegratorKind.RK4Integrator 1).StepLength +
        (rotationIntegrator ℝ IntegratorKind.RK4Integrator 1).Epsilon ≤
      (rotationIntegrator ℝ IntegratorKind.RK4Integrator 1).Evaluator.GetTemporalBoundary 1 := by
    show (0 : ℝ) + 1 + 1 / 1000000 ≤ (if (1 : Id) = 0 then 0 else 100)
    rw [if_neg (by decide)]
    norm_num
  ⟨hpos, hle, hB,
    C24_rk4_closer_than_euler_on_rotation
      (rotationIntegrator ℝ IntegratorKind.RK4Integrator 1)
      (rotationIntegrator ℝ IntegratorKind.EulerIntegrator 1) 0 ⟨9, 9, 9⟩ ⟨7, 7, 7⟩ rfl rfl rfl
      rfl rfl rfl hB (fun _ _ _ => rfl) hpos hle⟩

end RotationFieldClaims

/-! ## Termination in the windowed store -/

section RoundTerminationClaims

variable {T : Type}

theorem SetTerminated_status_portal (s : Particles T) (idx : Id) :
    (s.SetTerminated idx).status =
      portalSet s.status idx
        (Int.lor (Int.land (s.status idx) (Int.lnot ParticleStatus.STATUS_OK.toId))
          ParticleStatus.TERMINATED.toId) := by
  funext j
  by_cases h : j = idx
  · subst h
    rw [Particles.SetTerminated_status, portalSet_same]
  · rw [Particles.SetTerminated_status_other s idx j h, portalSet_other _ _ _ _ h]

/-- C34: in the windowed store `TakeStep(idx, pt)` increments the step count and leaves the
status portal as it was unless the new step count equals `totalMaxSteps`; in that case it
replaces the status word of `idx` by the word with OK cleared and TERMINATED set, so that
`Terminated(idx)` is true and `OK(idx)` is false.  The outcome (status, step counts, history
and positions) is the same for every value of the inherited `maxSteps`, and the status is
the same for every window size and offset: filling the window does not change the status
word. -/
theorem C34_round_takeStep_termination (s : StateRecordingParticlesRound T) (idx : Id)
    (pt : Vec3 T) (m h o : Id) :
    (s.TakeStep idx pt).GetStep idx = s.GetStep idx + 1 ∧
    (s.TakeStep idx pt).status =
      (if s.GetStep idx + 1 = s.totalMaxSteps then
        portalSet s.status idx
          (Int.lor (Int.land (s.status idx) (Int.lnot ParticleStatus.STATUS_OK.toId))
            ParticleStatus.TERMINATED.toId)
      else s.status) ∧
    (if s.GetStep idx + 1 = s.totalMaxSteps then
      (s.TakeStep idx pt).Terminated idx = true ∧ (s.TakeStep idx pt).OK idx = false
    else (s.TakeStep idx pt).status = s.status) ∧
    (({ s with toParticles := { s.toParticles with maxSteps := m } } :
        StateRecordingParticlesRound T).TakeStep idx pt).status = (s.TakeStep idx pt).status ∧
    (({ s with toParticles := { s.toParticles with maxSteps := m } } :
        StateRecordingParticlesRound T).TakeStep idx pt).steps = (s.TakeStep idx pt).steps ∧
    (({ s with toParticles := { s.toParticles with maxSteps := m } } :
        StateRecordingParticlesRound T).TakeStep idx pt).history =
      (s.TakeStep idx pt).history ∧
    (({ s with toParticles := { s.toParticles with maxSteps := m } } :
        StateRecordingParticlesRound T).TakeStep idx pt).pos = (s.TakeStep idx pt).pos ∧
    (({ s with histSize := h, offset := o } :
        StateRecordingParticlesRound T).TakeStep idx pt).status = (s.TakeStep idx pt).status := by
  have hst : (s.TakeStep idx pt).status =
      (if s.GetStep idx + 1 = s.totalMaxSteps then
        portalSet s.status idx
          (Int.lor (Int.land (s.status idx) (Int.lnot ParticleStatus.STATUS_OK.toId))
            ParticleStatus.TERMINATED.toId)
      else s.status) := by
    rw [round_TakeStep_status]
    show (if s.steps idx + 1 = s.totalMaxSteps then _ else _) = _
    rw [SetTerminated_status_portal]
    rfl
  refine ⟨?_, hst, ?_, ?_, ?_, ?_, ?_, ?_⟩
  · show (s.TakeStep idx pt).steps idx = s.steps idx + 1
    rw [round_TakeStep_steps, portalSet_same]
  · by_cases hc : s.GetStep idx + 1 = s.totalMaxSteps
    · rw [if_pos hc]
      have hw : (s.TakeStep idx pt).status idx =
          (s.toParticles.SetTerminated idx).status idx := by
        have hc2 : s.steps idx + 1 = s.totalMaxSteps := hc
        rw [round_TakeStep_status, if_pos hc2]
      constructor
      · rw [Particles.Terminated, Particles.CheckBit_eq_testBit]
        show Int.testBit ((s.TakeStep idx pt).status idx) 1 = true
        rw [hw, Particles.testBit_SetTerminated]
        simp
      · rw [Particles.OK, Particles.CheckBit_eq_testBit]
        show Int.testBit ((s.TakeStep idx pt).status idx) 0 = false
        rw [hw, Particles.testBit_SetTerminated]
        simp
    · rw [if_neg hc]
      rw [hst, if_neg hc]
  · rw [round_TakeStep_status, round_TakeStep_status]
    rfl
  · rw [round_TakeStep_steps, round_TakeStep_steps]
  · rw [round_TakeStep_history, round_TakeStep_history]
  · unfold StateRecordingParticlesRound.TakeStep
    simp only []
    split <;> rfl
  · rw [round_TakeStep_status, round_TakeStep_status]

end RoundTerminationClaims

/-! ## Reachable status words -/

section ReachableStatusClaims

variable {T : Type}

theorem statusSuccessors_valid (w : Id) (h0 : 0 ≤ w) (h1 : w < 32) :
    statusWordValid w = false ∨ (statusSuccessors w).all statusWordValid = true := by
  unfold Id at *
  interval_cases w <;> decide!

theorem statusWordValid_bounds (w : Id) (h : statusWordValid w = true) : 0 ≤ w ∧ w < 32 := by
  unfold statusWordValid at h
  simp only [Bool.and_eq_true, decide_eq_true_eq] at h
  exact ⟨h.1.1.1, h.1.1.2⟩

theorem statusWordValid_step (w w' : Id) (h : statusWordValid w = true)
    (hmem : w' ∈ statusSuccessors w) : statusWordValid w' = true := by
  obtain ⟨h0, h1⟩ := statusWordValid_bounds w h
  rcases statusSuccessors_valid w h0 h1 with hf | hall
  · rw [h] at hf
    exact absurd hf (by decide)
  · exact List.all_eq_true.1 hall w' hmem

/-- What validity of a status word says about its bits, and the test `Integrateable` makes
on a valid word. -/
theorem statusWordValid_spec (w : Id) (h : statusWordValid w = true) :
    ¬ (Int.testBit w 0 = true ∧ Int.testBit w 1 = true) ∧
    ¬ (Int.testBit w 0 = true ∧ Int.testBit w 4 = true) ∧
    Int.land w (Int.lnot 31) = 0 ∧
    ((Int.testBit w 0 && !(Int.testBit w 1 || Int.testBit w 2 || Int.testBit w 3)) = true ↔
      w = ParticleStatus.STATUS_OK.toId) := by
  obtain ⟨h0, h1⟩ := statusWordValid_bounds w h
  unfold Id at *
  interval_cases w <;> revert h <;> decide!

theorem SetTerminated_status_mem (s : Particles T) (j idx : Id) :
    (s.SetTerminated j).status idx ∈ statusSuccessors (s.status idx) := by
  by_cases h : idx = j
  · subst h
    rw [Particles.SetTerminated_status]
    simp [statusSuccessors]
  · rw [Particles.SetTerminated_status_other s j idx h]
    simp [statusSuccessors]

theorem execSetter_status_mem (s : Particles T) (c : Call T) (idx : Id) :
    (s.execSetter c).status idx ∈ statusSuccessors (s.status idx) := by
  cases c with
  | TakeStep j pt => simp [Particles.execSetter, statusSuccessors]
  | SetOK j =>
    by_cases h : idx = j
    · subst h
      simp [Particles.execSetter, Particles.SetOK, Particles.Clear, portalSet,
        statusSuccessors]
    · simp [Particles.execSetter, Particles.SetOK_status_other s j idx h, statusSuccessors]
  | SetTerminated j => exact SetTerminated_status_mem s j idx
  | SetError j =>
    by_cases h : idx = j
    · subst h
      simp only [Particles.execSetter]
      rw [Particles.SetError_status]
      simp [statusSuccessors]
    · simp [Particles.execSetter, Particles.SetError_status_other s j idx h, statusSuccessors]
  | SetExitedSpatialBoundary j =>
    by_cases h : idx = j
    · subst h
      simp only [Particles.execSetter, Particles.SetExitedSpatialBoundary]
      rw [Particles.SetBit_status]
      simp [statusSuccessors]
    · simp [Particles.execSetter, Particles.SetExitedSpatialBoundary,
        Particles.SetBit_status_other s j idx _ h, statusSuccessors]
  | SetExitedTemporalBoundary j =>
    by_cases h : idx = j
    · subst h
      simp only [Particles.execSetter, Particles.SetExitedTemporalBoundary]
      rw [Particles.SetBit_status]
      simp [statusSuccessors]
    · simp [Particles.execSetter, Particles.SetExitedTemporalBoundary,
        Particles.SetBit_status_other s j idx _ h, statusSuccessors]

theorem base_exec_status_mem (s : Particles T) (c : Call T) (idx : Id) :
    (s.exec c).status idx ∈ statusSuccessors (s.status idx) := by
  cases c with
  | TakeStep j pt =>
    show (s.TakeStep j pt).status idx ∈ _
    rw [Particles.base_TakeStep_status]
    split
    · exact SetTerminated_status_mem s j idx
    · simp [statusSuccessors]
  | SetOK j => exact execSetter_status_mem s (.SetOK j) idx
  | SetTerminated j => exact execSetter_status_mem s (.SetTerminated j) idx
  | SetError j => exact execSetter_status_mem s (.SetError j) idx
  | SetExitedSpatialBoundary j => exact execSetter_status_mem s (.SetExitedSpatialBoundary j) idx
  | SetExitedTemporalBoundary j =>
    exact execSetter_status_mem s (.SetExitedTemporalBoundary j) idx

theorem recording_exec_status_mem (s : StateRecordingParticles T) (c : Call T) (idx : Id) :
    (s.exec c).status idx ∈ statusSuccessors (s.status idx) := by
  rw [(recording_exec_view s c).2.1]
  exact base_exec_status_mem s.toParticles c idx

theorem round_exec_status_mem (s : StateRecordingParticlesRound T) (c : Call T) (idx : Id) :
    (s.exec c).status idx ∈ statusSuccessors (s.status idx) := by
  cases c with
  | TakeStep j pt =>
    show (s.TakeStep j pt).status idx ∈ _
    rw [round_TakeStep_status]
    split
    · exact SetTerminated_status_mem s.toParticles j idx
    · simp [statusSuccessors]
  | SetOK j => exact execSetter_status_mem s.toParticles (.SetOK j) idx
  | SetTerminated j => exact execSetter_status_mem s.toParticles (.SetTerminated j) idx
  | SetError j => exact execSetter_status_mem s.toParticles (.SetError j) idx
  | SetExitedSpatialBoundary j =>
    exact execSetter_status_mem s.toParticles (.SetExitedSpatialBoundary j) idx
  | SetExitedTemporalBoundary j =>
    exact execSetter_status_mem s.toParticles (.SetExitedTemporalBoundary j) idx

/-- Validity of the status word of a slot is kept by every sequence of calls of a store
whose single calls lead to successor words. -/
theorem foldl_status_valid {S : Type} (exec : S → Call T → S) (status : S → Id → Id)
    (idx : Id)
    (hstep : ∀ (s : S) (c : Call T), status (exec s c) idx ∈ statusSuccessors (status s idx))
    (calls : List (Call T)) :
    ∀ s : S, statusWordValid (status s idx) = true →
      statusWordValid (status (calls.foldl exec s) idx) = true := by
  induction calls with
  | nil => intro s h; exact h
  | cons c cs ih =>
    intro s h
    rw [List.foldl_cons]
    exact ih (exec s c) (statusWordValid_step _ _ h (hstep s c))

theorem SetOK_status_valid (s : Particles T) (idx : Id) :
    statusWordValid ((s.SetOK idx).status idx) = true := by
  have : (s.SetOK idx).status idx = ParticleStatus.STATUS_OK.toId := by
    simp [Particles.SetOK, Particles.Clear, portalSet]
  rw [this]
  decide

/-- C33: in every state reached from `SetOK(idx)` by a sequence of `TakeStep`, `SetOK`,
`SetTerminated`, `SetError`, `SetExitedSpatialBoundary` and `SetExitedTemporalBoundary`
calls (on any slots), in the base store, the recording store and the windowed store, the
status word of `idx` never has the OK bit together with the TERMINATED bit or with the
STATUS_ERROR bit, has no bit outside the five flags, and `Integrateable(idx)` holds exactly
when the word equals `STATUS_OK`; `Integrateable` itself does not test the error bit: a
slot whose word is `STATUS_OK | STATUS_ERROR` (17) is integrateable. -/
theorem C33_reachable_status_words (idx : Id) (calls : List (Call T)) (b : Particles T)
    (r : StateRecordingParticles T) (w : StateRecordingParticlesRound T) :
    (¬ (Int.testBit ((calls.foldl Particles.exec (b.SetOK idx)).status idx) 0 = true ∧
        Int.testBit ((calls.foldl Particles.exec (b.SetOK idx)).status idx) 1 = true) ∧
      ¬ (Int.testBit ((calls.foldl Particles.exec (b.SetOK idx)).status idx) 0 = true ∧
        Int.testBit ((calls.foldl Particles.exec (b.SetOK idx)).status idx) 4 = true) ∧
      Int.land ((calls.foldl Particles.exec (b.SetOK idx)).status idx) (Int.lnot 31) = 0 ∧
      ((calls.foldl Particles.exec (b.SetOK idx)).Integrateable idx = true ↔
        (calls.foldl Particles.exec (b.SetOK idx)).GetStatus idx =
          ParticleStatus.STATUS_OK.toId)) ∧
    (¬ (Int.testBit ((calls.foldl StateRecordingParticles.exec
          { r with toParticles := r.toParticles.SetOK idx }).status idx) 0 = true ∧
        Int.testBit ((calls.foldl StateRecordingParticles.exec
          { r with toParticles := r.toParticles.SetOK idx }).status idx) 1 = true) ∧
      ¬ (Int.testBit ((calls.foldl StateRecordingParticles.exec
          { r with toParticles := r.toParticles.SetOK idx }).status idx) 0 = true ∧
        Int.testBit ((calls.foldl StateRecordingParticles.exec
          { r with toParticles := r.toParticles.SetOK idx }).status idx) 4 = true) ∧
      Int.land ((calls.foldl StateRecordingParticles.exec
          { r with toParticles := r.toParticles.SetOK idx }).status idx) (Int.lnot 31) = 0 ∧
      ((calls.foldl StateRecordingParticles.exec
          { r with toParticles := r.toParticles.SetOK idx }).Integrateable idx = true ↔
        (calls.foldl StateRecordingParticles.exec
          { r with toParticles := r.toParticles.SetOK idx }).GetStatus idx =
          ParticleStatus.STATUS_OK.toId)) ∧
    (¬ (Int.testBit ((calls.foldl StateRecordingParticlesRound.exec
          { w with toParticles := w.toParticles.SetOK idx }).status idx) 0 = true ∧
        Int.testBit ((calls.foldl StateRecordingParticlesRound.exec
          { w with toParticles := w.toParticles.SetOK idx }).status idx) 1 = true) ∧
      ¬ (Int.testBit ((calls.foldl StateRecordingParticlesRound.exec
          { w with toParticles := w.toParticles.SetOK idx }).status idx) 0 = true ∧
        Int.testBit ((calls.foldl StateRecordingParticlesRound.exec
          { w with toParticles := w.toParticles.SetOK idx }).status idx) 4 = true) ∧
      Int.land ((calls.foldl StateRecordingParticlesRound.exec
          { w with toParticles := w.toParticles.SetOK idx }).status idx) (Int.lnot 31) = 0 ∧
      ((calls.foldl StateRecordingParticlesRound.exec
          { w with toParticles := w.toParticles.SetOK idx }).Integrateable idx = true ↔
        (calls.foldl StateRecordingParticlesRound.exec
          { w with toParticles := w.toParticles.SetOK idx }).GetStatus idx =
          ParticleStatus.STATUS_OK.toId)) ∧
    ({ b with status := fun _ => 17 } : Particles T).Integrateable idx = true := by
  have hb := foldl_status_valid (T := T) Particles.exec (fun s => s.status) idx
    (fun s c => base_exec_status_mem s c idx) calls (b.SetOK idx) (SetOK_status_valid b idx)
  have hr := foldl_status_valid (T := T) StateRecordingParticles.exec (fun s => s.status) idx
    (fun s c => recording_exec_status_mem s c idx) calls
    { r with toParticles := r.toParticles.SetOK idx }
    (SetOK_status_valid r.toParticles idx)
  have hw := foldl_status_valid (T := T) StateRecordingParticlesRound.exec
    (fun s => s.status) idx (fun s c => round_exec_status_mem s c idx) calls
    { w with toParticles := w.toParticles.SetOK idx } (SetOK_status_valid w.toParticles idx)
  obtain ⟨b1, b2, b3, b4⟩ := statusWordValid_spec _ hb
  obtain ⟨r1, r2, r3, r4⟩ := statusWordValid_spec _ hr
  obtain ⟨w1, w2, w3, w4⟩ := statusWordValid_spec _ hw
  refine ⟨⟨b1, b2, b3, ?_⟩, ⟨r1, r2, r3, ?_⟩, ⟨w1, w2, w3, ?_⟩, ?_⟩
  · rw [Particles.Integrateable_eq_bits]
    exact b4
  · rw [Particles.Integrateable_eq_bits]
    exact r4
  · rw [Particles.Integrateable_eq_bits]
    exact w4
  · rw [Particles.Integrateable_eq_bits]
    show (Int.testBit 17 0 && !(Int.testBit 17 1 || Int.testBit 17 2 || Int.testBit 17 3)) =
      true
    decide

end ReachableStatusClaims

/-! ## The window of a round -/

section RoundWindowClaims

variable {T : Type}

theorem round_fill_ne_of_not_Done (s : StateRecordingParticlesRound T) (j : Id)
    (h : ¬ s.Done j = true) : s.steps j - s.offset ≠ s.histSize := by
  intro e
  apply h
  unfold StateRecordingParticlesRound.Done
  simp [e]

theorem round_runTakeSteps_cons (c : Id × Vec3 T) (cs : List (Id × Vec3 T))
    (s0 s : StateRecordingParticlesRound T)
    (hrun : StateRecordingParticlesRound.runTakeSteps (c :: cs) s0 = some s) :
    ¬ s0.Done c.1 = true ∧
      StateRecordingParticlesRound.runTakeSteps cs (s0.TakeStep c.1 c.2) = some s := by
  rw [StateRecordingParticlesRound.runTakeSteps] at hrun
  by_cases hd : s0.Done c.1 = true
  · rw [if_pos hd] at hrun
    exact Option.noConfusion hrun
  · rw [if_neg hd] at hrun
    exact ⟨hd, hrun⟩

/-- A round of `TakeStep` calls, each issued for a particle that is not `Done`, started with
every window fill `steps - offset` in `[0, histSize]`: the fills stay in that range, every
write goes to the writer's own range of the history array, and for every particle the points
passed for it are the window entries from its initial fill on, in call order, while the
entries below the initial fill are kept. -/
theorem round_runTakeSteps_window (calls : List (Id × Vec3 T))
    (s0 s : StateRecordingParticlesRound T) (idx : Id)
    (hrange : ∀ j : Id, 0 ≤ s0.steps j - s0.offset ∧ s0.steps j - s0.offset ≤ s0.histSize)
    (hrun : StateRecordingParticlesRound.runTakeSteps calls s0 = some s) :
    (∀ j : Id, 0 ≤ s.steps j - s.offset ∧ s.steps j - s.offset ≤ s.histSize) ∧
    s.offset = s0.offset ∧ s.histSize = s0.histSize ∧
    (∀ w ∈ StateRecordingParticlesRound.writeLog calls s0,
      w.1 * s0.histSize ≤ w.2 ∧ w.2 < (w.1 + 1) * s0.histSize) ∧
    s.steps idx = s0.steps idx + ((pointsFor idx calls).length : Int) ∧
    (∀ k : Int, 0 ≤ k → k < s0.steps idx - s0.offset →
      s.GetHistory idx k = s0.GetHistory idx k) ∧
    (List.range (pointsFor idx calls).length).map
      (fun (i : Nat) => s.GetHistory idx (s0.steps idx - s0.offset + (i : Int))) =
        pointsFor idx calls := by
  induction calls generalizing s0 with
  | nil =>
    simp only [StateRecordingParticlesRound.runTakeSteps, Option.some.injEq] at hrun
    subst hrun
    refine ⟨hrange, rfl, rfl, ?_, ?_, ?_, ?_⟩
    · intro w hw
      simp [StateRecordingParticlesRound.writeLog] at hw
    · simp [pointsFor]
    · intro k _ _; rfl
    · simp [pointsFor]
  | cons c cs ih =>
    obtain ⟨j, pt⟩ := c
    obtain ⟨hd, hrun1⟩ := round_runTakeSteps_cons (j, pt) cs s0 s hrun
    have hne := round_fill_ne_of_not_Done s0 j hd
    obtain ⟨w1, w2, _⟩ := round_TakeStep_window s0 j pt
    obtain ⟨hj0, hjle⟩ := hrange j
    have hjlt : s0.steps j - s0.offset < s0.histSize := lt_of_le_of_ne hjle hne
    have hsteps : ∀ i : Id, (s0.TakeStep j pt).steps i =
        if i = j then s0.steps j + 1 else s0.steps i := by
      intro i
      rw [round_TakeStep_steps]
      rfl
    have hrange1 : ∀ i : Id, 0 ≤ (s0.TakeStep j pt).steps i - (s0.TakeStep j pt).offset ∧
        (s0.TakeStep j pt).steps i - (s0.TakeStep j pt).offset ≤
          (s0.TakeStep j pt).histSize := by
      intro i
      rw [hsteps, w1, w2]
      by_cases hi : i = j
      · rw [if_pos hi]
        unfold Id at *
        omega
      · rw [if_neg hi]
        exact hrange i
    obtain ⟨r1, r2, r3, r4, r5, r6, r7⟩ := ih (s0.TakeStep j pt) hrange1 hrun1
    have hlog : ∀ w ∈ StateRecordingParticlesRound.writeLog ((j, pt) :: cs) s0,
        w.1 * s0.histSize ≤ w.2 ∧ w.2 < (w.1 + 1) * s0.histSize := by
      intro w hw
      rw [StateRecordingParticlesRound.writeLog, List.mem_cons] at hw
      rcases hw with hw | hw
      · subst hw
        show j * s0.histSize ≤ j * s0.histSize + (s0.steps j - s0.offset) ∧
          j * s0.histSize + (s0.steps j - s0.offset) < (j + 1) * s0.histSize
        have e : (j + 1) * s0.histSize = j * s0.histSize + s0.histSize := by ring
        rw [e]
        unfold Id at *
        omega
      · have := r4 w hw
        rw [w2] at this
        exact this
    refine ⟨r1, r2.trans w1, r3.trans w2, hlog, ?_, ?_, ?_⟩
    · by_cases hji : j = idx
      · subst hji
        have hlen : pointsFor j ((j, pt) :: cs) = pt :: pointsFor j cs := by
          simp [pointsFor]
        rw [r5, hsteps, if_pos rfl, hlen, List.length_cons]
        push_cast
        unfold Id at *
        omega
      · have hlen : pointsFor idx ((j, pt) :: cs) = pointsFor idx cs := by
          simp [pointsFor, hji]
        rw [r5, hsteps, if_neg (fun e => hji e.symm), hlen]
    · intro k hk0 hk
      have hkeep : (s0.TakeStep j pt).GetHistory idx k = s0.GetHistory idx k := by
        unfold StateRecordingParticlesRound.GetHistory
        rw [round_TakeStep_history, w2]
        apply portalSet_other
        by_cases hji : j = idx
        · subst hji
          intro e
          unfold Id at *
          omega
        · have hkH : k < s0.histSize := by
            have := (hrange idx).2
            unfold Id at *
            omega
          exact history_index_ne s0.histSize j idx (s0.steps j - s0.offset) k
            (fun e => hji e.symm) hj0 hjlt hk0 hkH
      rw [← hkeep]
      apply r6 k hk0
      rw [hsteps, w1]
      by_cases hji : idx = j
      · rw [if_pos hji]
        subst hji
        unfold Id at *
        omega
      · rw [if_neg hji]
        exact hk
    · by_cases hji : j = idx
      · subst hji
        have hlen : pointsFor j ((j, pt) :: cs) = pt :: pointsFor j cs := by
          simp [pointsFor]
        have e3 : (s0.TakeStep j pt).steps j = s0.steps j + 1 := by
          rw [hsteps, if_pos rfl]
        rw [hlen, List.length_cons, map_range_succ_cons]
        congr 1
        · have h1 : s.GetHistory j (s0.steps j - s0.offset + ((0 : Nat) : Int)) =
              (s0.TakeStep j pt).GetHistory j (s0.steps j - s0.offset) := by
            simp only [Nat.cast_zero, add_zero]
            apply r6 _ hj0
            rw [e3, w1]
            unfold Id at *
            omega
          rw [h1]
          unfold StateRecordingParticlesRound.GetHistory
          rw [round_TakeStep_history, w2, portalSet_same]
        · refine Eq.trans ?_ r7
          apply List.map_congr_left
          intro i _
          rw [e3, w1]
          congr 1
          push_cast
          unfold Id at *
          omega
      · have hlen : pointsFor idx ((j, pt) :: cs) = pointsFor idx cs := by
          simp [pointsFor, hji]
        have e3 : (s0.TakeStep j pt).steps idx = s0.steps idx := by
          rw [hsteps, if_neg (fun e => hji e.symm)]
        rw [hlen]
        rw [e3, w1] at r7
        exact r7

/-- C31 (as stated, for a round that starts with a partly filled window): the sample
windowed store has window size 2 and every particle starts the round with
`steps - offset = 1`, inside `[0, 2]`, and is not `Done`.  After the round's single call
`TakeStep(0, (1, 0, 0))` the fill of particle 0 is 2, the only point recorded in the round
is `(1, 0, 0)`, and it is entry 1 of the window; `GetHistory(0, 0)` returns the prior
content `(0, 0, 0)` of the buffer, not a point recorded in the round. -/
theorem C31_counterexample_partly_filled_window :
    1 ≤ sampleRound.histSize ∧
    0 ≤ sampleRound.GetStep 0 - sampleRound.offset ∧
    sampleRound.GetStep 0 - sampleRound.offset ≤ sampleRound.histSize ∧
    sampleRound.Done 0 = false ∧
    StateRecordingParticlesRound.runTakeSteps [(0, ⟨1, 0, 0⟩)] sampleRound =
      some (sampleRound.TakeStep 0 ⟨1, 0, 0⟩) ∧
    (sampleRound.TakeStep 0 ⟨1, 0, 0⟩).GetStep 0 - (sampleRound.TakeStep 0 ⟨1, 0, 0⟩).offset =
      2 ∧
    pointsFor 0 [((0 : Id), (⟨1, 0, 0⟩ : Vec3 Int))] = [⟨1, 0, 0⟩] ∧
    (sampleRound.TakeStep 0 ⟨1, 0, 0⟩).GetHistory 0 0 = ⟨0, 0, 0⟩ ∧
    (sampleRound.TakeStep 0 ⟨1, 0, 0⟩).GetHistory 0 1 = ⟨1, 0, 0⟩ ∧
    (sampleRound.TakeStep 0 ⟨1, 0, 0⟩).readWindow 0 ≠
      pointsFor 0 [((0 : Id), (⟨1, 0, 0⟩ : Vec3 Int))] := by
  refine ⟨by decide, by decide, by decide, by decide, rfl, by decide, rfl, by decide,
    by decide, by decide⟩

/-- C31 (amended): in the windowed store, for a round of `TakeStep` calls (on any slots, in
any order), each issued for a particle whose `Done` is false, that starts with every fill
`steps - offset` in `[0, histSize]`: at the end of the round (hence after each of its calls)
every fill is again in `[0, histSize]`, offset and window size are unchanged, every call
wrote the history array at an index inside the writer's own range
`[j * histSize, (j + 1) * histSize)`, the fill of `idx` grew by the number `n` of points
passed for `idx`, the window entries of `idx` below its initial fill `d` are unchanged, and
`GetHistory(idx, d + i)` for `i < n` is the `i`-th point recorded for `idx` in the round; so
when the round starts with an empty window of `idx` (`steps = offset`), reading the window
gives exactly the points recorded in the round. -/
theorem C31_round_window_invariant (calls : List (Id × Vec3 T))
    (s0 s : StateRecordingParticlesRound T) (idx : Id)
    (hrange : ∀ j : Id,
      0 ≤ s0.GetStep j - s0.offset ∧ s0.GetStep j - s0.offset ≤ s0.histSize)
    (hrun : StateRecordingParticlesRound.runTakeSteps calls s0 = some s) :
    (∀ j : Id, 0 ≤ s.GetStep j - s.offset ∧ s.GetStep j - s.offset ≤ s.histSize) ∧
    s.offset = s0.offset ∧ s.histSize = s0.histSize ∧
    (∀ w ∈ StateRecordingParticlesRound.writeLog calls s0,
      w.1 * s0.histSize ≤ w.2 ∧ w.2 < (w.1 + 1) * s0.histSize) ∧
    s.GetStep idx - s.offset =
      s0.GetStep idx - s0.offset + ((pointsFor idx calls).length : Int) ∧
    (∀ k : Int, 0 ≤ k → k < s0.GetStep idx - s0.offset →
      s.GetHistory idx k = s0.GetHistory idx k) ∧
    (List.range (pointsFor idx calls).length).map
      (fun (i : Nat) => s.GetHistory idx (s0.GetStep idx - s0.offset + (i : Int))) =
        pointsFor idx calls ∧
    (s0.GetStep idx ≠ s0.offset ∨ s.readWindow idx = pointsFor idx calls) := by
  obtain ⟨r1, r2, r3, r4, r5, r6, r7⟩ := round_runTakeSteps_window calls s0 s idx hrange hrun
  have hfill : s.steps idx - s.offset =
      s0.steps idx - s0.offset + ((pointsFor idx calls).length : Int) := by
    rw [r5, r2]
    unfold Id at *
    omega
  refine ⟨r1, r2, r3, r4, hfill, r6, r7, ?_⟩
  by_cases h0 : s0.GetStep idx = s0.offset
  · right
    have h0' : s0.steps idx = s0.offset := h0
    unfold StateRecordingParticlesRound.readWindow
    have hn : (s.steps idx - s.offset).toNat = (pointsFor idx calls).length := by
      rw [hfill, h0']
      simp
    rw [hn]
    refine Eq.trans ?_ r7
    apply List.map_congr_left
    intro i _
    rw [h0']
    congr 1
    unfold Id at *
    omega
  · left
    exact h0

/-- In the sample windowed store every particle has fill 1 of its window of size 2. -/
theorem sampleRound_fill_range (j : Id) :
    0 ≤ sampleRound.GetStep j - sampleRound.offset ∧
      sampleRound.GetStep j - sampleRound.offset ≤ sampleRound.histSize := by
  show (0 : Int) ≤ 3 - 2 ∧ (3 : Int) - 2 ≤ 2
  decide

/-- C31 witness: the sample windowed store (window 2, every fill 1): one step of particle 0
and one of particle 1. -/
theorem C31_round_window_invariant_witness :
    (∀ j : Id, 0 ≤ sampleRound.GetStep j - sampleRound.offset ∧
      sampleRound.GetStep j - sampleRound.offset ≤ sampleRound.histSize) ∧
    StateRecordingParticlesRound.runTakeSteps [(0, ⟨1, 0, 0⟩), (1, ⟨5, 5, 5⟩)] sampleRound =
      some ((sampleRound.TakeStep 0 ⟨1, 0, 0⟩).TakeStep 1 ⟨5, 5, 5⟩) ∧
    ((sampleRound.TakeStep 0 ⟨1, 0, 0⟩).TakeStep 1 ⟨5, 5, 5⟩).GetStep 0 -
        ((sampleRound.TakeStep 0 ⟨1, 0, 0⟩).TakeStep 1 ⟨5, 5, 5⟩).offset =
      sampleRound.GetStep 0 - sampleRound.offset +
        ((pointsFor 0 [((0 : Id), (⟨1, 0, 0⟩ : Vec3 Int)), (1, ⟨5, 5, 5⟩)]).length : Int) :=
  ⟨sampleRound_fill_range, rfl,
    (C31_round_window_invariant [(0, ⟨1, 0, 0⟩), (1, ⟨5, 5, 5⟩)] sampleRound _ 0
      sampleRound_fill_range rfl).2.2.2.2.1⟩

end RoundWindowClaims

/-! ## The working position of the search of `SmallStep` -/

section SearchInsideClaims

variable {F : Type} [LinearOrderedField F]

theorem searchStateInside_body (obj : ExecObject F) (inpos : Vec3 F) (time : F)
    (iteration : Id) (st : SmallStepState F) (h : searchStateInside obj inpos time st) :
    searchStateInside obj inpos time (obj.smallStepBody inpos time iteration st) := by
  unfold ExecObject.smallStepBody
  simp only []
  split
  · rename_i hc
    exact ⟨hc.2, Or.inr ⟨_, st.velocity, hc.1, hc.2, rfl, rfl, rfl⟩⟩
  · exact h

theorem searchStateInside_foldl (obj : ExecObject F) (inpos : Vec3 F) (time : F)
    (ks : List Nat) :
    ∀ st : SmallStepState F, searchStateInside obj inpos time st →
      searchStateInside obj inpos time
        (ks.foldl (fun s j => obj.smallStepBody inpos time ((2 : Int) ^ j) s) st) := by
  induction ks with
  | nil => intro st h; exact h
  | cons k ks ih =>
    intro st h
    rw [List.foldl_cons]
    exact ih _ (searchStateInside_body obj inpos time _ st h)

/-- C32: for every evaluator and both strategies, when `SmallStep` passes its two initial
bounds checks, its search loop (given fuel for its 21 loop tests) returns a state whose
working position is inside the spatial boundary: either it is the input position, with
working time equal to the input time and accumulated length 0 (no trial length was
accepted), or it is `inpos + velocity * length` for a trial length on which `CheckStep`
returned `SUCCESS` with that velocity and which passed `IsWithinSpatialBoundary`, with
working time `time + length`. -/
theorem C32_search_keeps_working_position_inside (obj : ExecObject F) (fuel : Nat)
    (inpos : Vec3 F) (time : F) (velocity : Vec3 F) (hfuel : 21 ≤ fuel)
    (hs : obj.Evaluator.IsWithinSpatialBoundary inpos = true) :
    ∃ st : SmallStepState F,
      obj.smallStepLoop inpos time fuel 1 (obj.smallStepInit inpos time velocity) = some st ∧
      obj.Evaluator.IsWithinSpatialBoundary st.workpos = true ∧
      ((st.workpos = inpos ∧ st.worktime = time ∧ st.optimalLength = 0) ∨
        ∃ (length : F) (prior : Vec3 F),
          (obj.CheckStep inpos length time prior).status = IntegratorStatus.SUCCESS ∧
          obj.Evaluator.IsWithinSpatialBoundary
            (inpos + Vec3.scaleRight (obj.CheckStep inpos length time prior).velocity length)
            = true ∧
          st.workpos =
            inpos + Vec3.scaleRight (obj.CheckStep inpos length time prior).velocity length ∧
          st.worktime = time + length ∧ st.optimalLength = length) := by
  have hloop := smallStepLoop_unroll obj inpos time fuel 0
    (obj.smallStepInit inpos time velocity) (by omega) (by omega)
  rw [pow_zero] at hloop
  have hinit : searchStateInside obj inpos time (obj.smallStepInit inpos time velocity) :=
    ⟨hs, Or.inl ⟨rfl, rfl, rfl⟩⟩
  exact ⟨_, hloop, searchStateInside_foldl obj inpos time _ _ hinit⟩

/-- C32 witness: the sample Euler integrator at `p = (19/2, 0, 0)`, `t = 0`, fuel 21. -/
theorem C32_search_keeps_working_position_inside_witness :
    21 ≤ 21 ∧ sampleEuler.Evaluator.IsWithinSpatialBoundary ⟨19 / 2, 0, 0⟩ = true ∧
    ∃ st : SmallStepState ℚ,
      sampleEuler.smallStepLoop ⟨19 / 2, 0, 0⟩ 0 21 1
        (sampleEuler.smallStepInit ⟨19 / 2, 0, 0⟩ 0 ⟨0, 0, 0⟩) = some st ∧
      sampleEuler.Evaluator.IsWithinSpatialBoundary st.workpos = true :=
  ⟨le_refl 21, by decide!,
    (C32_search_keeps_working_position_inside sampleEuler 21 ⟨19 / 2, 0, 0⟩ 0 ⟨0, 0, 0⟩
      (le_refl 21) (by decide!)).imp (fun _ h => ⟨h.1, h.2.1⟩)⟩

end SearchInsideClaims

/-! ## The voxel cell -/

section VoxelClaims

open vtkc

variable {F : Type} [LinearOrderedField F]

theorem getVoxelSpacing_unroll (points : Points F) (sp : Nat → F) :
    getVoxelSpacing points sp =
      getVoxelSpacingBody points
        (getVoxelSpacingBody points (getVoxelSpacingBody points (0, sp) 0) 1) 2 := rfl

/-- After `getVoxelSpacing` the array `spacing` holds the three differences. -/
theorem getVoxelSpacing_spacing (points : Points F) (sp : Nat → F) (i : Fin 3) :
    (getVoxelSpacing points sp).2 i.val = points.getValue 6 i.val - points.getValue 0 i.val := by
  rw [getVoxelSpacing_unroll]
  unfold getVoxelSpacingBody
  simp only [Function.update_same]
  fin_cases i <;> split_ifs <;> simp [Function.update]

/-- The mask `getVoxelSpacing` returns, by cases on the three differences. -/
theorem getVoxelSpacing_mask (points : Points F) (sp : Nat → F) :
    (getVoxelSpacing points sp).1 =
      (if points.getValue 6 0 - points.getValue 0 0 = 0 then 1 else 0) +
        (if points.getValue 6 1 - points.getValue 0 1 = 0 then 2 else 0) +
        (if points.getValue 6 2 - points.getValue 0 2 = 0 then 4 else 0) := by
  rw [getVoxelSpacing_unroll]
  unfold getVoxelSpacingBody
  simp only [Function.update_same]
  split_ifs <;> simp

theorem getVoxelSpacing_mask_eq_zero_iff (points : Points F) (sp : Nat → F) :
    (getVoxelSpacing points sp).1 = 0 ↔
      (points.getValue 6 0 - points.getValue 0 0 ≠ 0 ∧
        points.getValue 6 1 - points.getValue 0 1 ≠ 0 ∧
        points.getValue 6 2 - points.getValue 0 2 ≠ 0) := by
  rw [getVoxelSpacing_mask]
  by_cases h0 : points.getValue 6 0 - points.getValue 0 0 = 0 <;>
    by_cases h1 : points.getValue 6 1 - points.getValue 0 1 = 0 <;>
    by_cases h2 : points.getValue 6 2 - points.getValue 0 2 = 0 <;>
    simp [h0, h1, h2]

theorem getVoxelSpacing_testBit (points : Points F) (sp : Nat → F) (i : Fin 3) :
    Nat.testBit (getVoxelSpacing points sp).1 i.val =
      decide (points.getValue 6 i.val - points.getValue 0 i.val = 0) := by
  rw [getVoxelSpacing_mask]
  by_cases h0 : points.getValue 6 0 - points.getValue 0 0 = 0 <;>
    by_cases h1 : points.getValue 6 1 - points.getValue 0 1 = 0 <;>
    by_cases h2 : points.getValue 6 2 - points.getValue 0 2 = 0 <;>
    fin_cases i <;> simp [h0, h1, h2] <;> decide

theorem getVoxelSpacing_mask_lt (points : Points F) (sp : Nat → F) :
    (getVoxelSpacing points sp).1 < 8 := by
  rw [getVoxelSpacing_mask]
  split_ifs <;> decide

theorem parametricToWorld_of_mask_zero (points : Points F) (sp : Nat → F) (p w : Vec3 F)
    (hm : (getVoxelSpacing points sp).1 = 0) :
    parametricToWorld points sp p w =
      { code := ErrorCode.SUCCESS,
        out := ⟨points.getValue 0 0 + (points.getValue 6 0 - points.getValue 0 0) * p.x,
          points.getValue 0 1 + (points.getValue 6 1 - points.getValue 0 1) * p.y,
          points.getValue 0 2 + (points.getValue 6 2 - points.getValue 0 2) * p.z⟩,
        divisions := [] } := by
  have s0 : (getVoxelSpacing points sp).2 0 = points.getValue 6 0 - points.getValue 0 0 :=
    getVoxelSpacing_spacing points sp 0
  have s1 : (getVoxelSpacing points sp).2 1 = points.getValue 6 1 - points.getValue 0 1 :=
    getVoxelSpacing_spacing points sp 1
  have s2 : (getVoxelSpacing points sp).2 2 = points.getValue 6 2 - points.getValue 0 2 :=
    getVoxelSpacing_spacing points sp 2
  unfold parametricToWorld
  simp only [hm, ne_eq, not_true_eq_false, if_false, s0, s1, s2]

theorem parametricToWorld_of_mask_ne_zero (points : Points F) (sp : Nat → F) (p w : Vec3 F)
    (hm : (getVoxelSpacing points sp).1 ≠ 0) :
    parametricToWorld points sp p w =
      { code := ErrorCode.DEGENERATE_CELL_DETECTED, out := w, divisions := [] } := by
  unfold parametricToWorld
  simp only [ne_eq, hm, not_false_eq_true, if_true]

theorem worldToParametric_of_mask_zero (points : Points F) (sp : Nat → F) (w p : Vec3 F)
    (hm : (getVoxelSpacing points sp).1 = 0) :
    worldToParametric points sp w p =
      { code := ErrorCode.SUCCESS,
        out := ⟨(w.x - points.getValue 0 0) / (points.getValue 6 0 - points.getValue 0 0),
          (w.y - points.getValue 0 1) / (points.getValue 6 1 - points.getValue 0 1),
          (w.z - points.getValue 0 2) / (points.getValue 6 2 - points.getValue 0 2)⟩,
        divisions := [(w.x - points.getValue 0 0, points.getValue 6 0 - points.getValue 0 0),
          (w.y - points.getValue 0 1, points.getValue 6 1 - points.getValue 0 1),
          (w.z - points.getValue 0 2, points.getValue 6 2 - points.getValue 0 2)] } := by
  have s0 : (getVoxelSpacing points sp).2 0 = points.getValue 6 0 - points.getValue 0 0 :=
    getVoxelSpacing_spacing points sp 0
  have s1 : (getVoxelSpacing points sp).2 1 = points.getValue 6 1 - points.getValue 0 1 :=
    getVoxelSpacing_spacing points sp 1
  have s2 : (getVoxelSpacing points sp).2 2 = points.getValue 6 2 - points.getValue 0 2 :=
    getVoxelSpacing_spacing points sp 2
  unfold worldToParametric
  simp only [hm, ne_eq, not_true_eq_false, if_false, s0, s1, s2]

theorem worldToParametric_of_mask_ne_zero (points : Points F) (sp : Nat → F) (w p : Vec3 F)
    (hm : (getVoxelSpacing points sp).1 ≠ 0) :
    worldToParametric points sp w p =
      { code := ErrorCode.DEGENERATE_CELL_DETECTED, out := p, divisions := [] } := by
  unfold worldToParametric
  simp only [ne_eq, hm, not_false_eq_true, if_true]

/-- The loop of `derivative` keeps the code and divides only by the three spacings. -/
theorem derivative_loop_spec (pd : Nat → Nat → F) (spacing : Nat → F)
    (h0 : spacing 0 ≠ 0) (h1 : spacing 1 ≠ 0) (h2 : spacing 2 ≠ 0) (cs : List Nat) :
    ∀ st : DerivativeResult F, st.divisions.all (fun q => decide (q.2 ≠ 0)) = true →
      ((cs.foldl (derivativeBody pd spacing) st).code = st.code ∧
        (cs.foldl (derivativeBody pd spacing) st).divisions.all
          (fun q => decide (q.2 ≠ 0)) = true) := by
  induction cs with
  | nil => intro st h; exact ⟨rfl, h⟩
  | cons c cs ih =>
    intro st h
    rw [List.foldl_cons]
    have hb : (derivativeBody pd spacing st c).divisions.all
        (fun q => decide (q.2 ≠ 0)) = true := by
      unfold derivativeBody
      simp only [List.all_append, h, Bool.true_and]
      simp [h0, h1, h2]
    obtain ⟨r1, r2⟩ := ih (derivativeBody pd spacing st c) hb
    exact ⟨r1, r2⟩

theorem derivative_of_mask_ne_zero (points : Points F) (sp : Nat → F) (n : Nat)
    (pd : Nat → Nat → F) (dx dy dz : Nat → F) (hm : (getVoxelSpacing points sp).1 ≠ 0) :
    derivative points sp n pd dx dy dz =
      { code := ErrorCode.DEGENERATE_CELL_DETECTED, dx := dx, dy := dy, dz := dz,
        divisions := [] } := by
  unfold derivative
  simp only [ne_eq, hm, not_false_eq_true, if_true]

theorem derivative_of_mask_zero (points : Points F) (sp : Nat → F) (n : Nat)
    (pd : Nat → Nat → F) (dx dy dz : Nat → F) (hm : (getVoxelSpacing points sp).1 = 0) :
    (derivative points sp n pd dx dy dz).code = ErrorCode.SUCCESS ∧
      (derivative points sp n pd dx dy dz).divisions.all (fun q => decide (q.2 ≠ 0)) = true := by
  obtain ⟨d0, d1, d2⟩ := (getVoxelSpacing_mask_eq_zero_iff points sp).1 hm
  have s0 : (getVoxelSpacing points sp).2 0 ≠ 0 := by
    rw [show (getVoxelSpacing points sp).2 0 = _ from getVoxelSpacing_spacing points sp 0]
    exact d0
  have s1 : (getVoxelSpacing points sp).2 1 ≠ 0 := by
    rw [show (getVoxelSpacing points sp).2 1 = _ from getVoxelSpacing_spacing points sp 1]
    exact d1
  have s2 : (getVoxelSpacing points sp).2 2 ≠ 0 := by
    rw [show (getVoxelSpacing points sp).2 2 = _ from getVoxelSpacing_spacing points sp 2]
    exact d2
  unfold derivative
  simp only [hm, ne_eq, not_true_eq_false, if_false]
  exact derivative_loop_spec pd _ s0 s1 s2 (List.range n) _ rfl

/-- C35: in exact arithmetic, for a voxel whose three spacings
`points[6][i] - points[0][i]` are all non-zero, `parametricToWorld` and `worldToParametric`
both return `SUCCESS` and are mutually inverse (whatever the prior contents of the output
arguments and of the local array `spacing`), and `parametricToWorld` maps `(0, 0, 0)` to
point 0 and `(1, 1, 1)` to point 6. -/
theorem C35_voxel_maps_are_inverse (points : Points F) (sp sp2 : Nat → F)
    (p w p0 w0 p1 w1 : Vec3 F)
    (h0 : points.getValue 6 0 - points.getValue 0 0 ≠ 0)
    (h1 : points.getValue 6 1 - points.getValue 0 1 ≠ 0)
    (h2 : points.getValue 6 2 - points.getValue 0 2 ≠ 0) :
    (parametricToWorld points sp p w0).code = ErrorCode.SUCCESS ∧
    (worldToParametric points sp w p0).code = ErrorCode.SUCCESS ∧
    (worldToParametric points sp2 (parametricToWorld points sp p w0).out p1).out = p ∧
    (parametricToWorld points sp2 (worldToParametric points sp w p0).out w1).out = w ∧
    (parametricToWorld points sp ⟨0, 0, 0⟩ w0).out =
      ⟨points.getValue 0 0, points.getValue 0 1, points.getValue 0 2⟩ ∧
    (parametricToWorld points sp ⟨1, 1, 1⟩ w0).out =
      ⟨points.getValue 6 0, points.getValue 6 1, points.getValue 6 2⟩ := by
  have hm : (getVoxelSpacing points sp).1 = 0 :=
    (getVoxelSpacing_mask_eq_zero_iff points sp).2 ⟨h0, h1, h2⟩
  have hm2 : (getVoxelSpacing points sp2).1 = 0 :=
    (getVoxelSpacing_mask_eq_zero_iff points sp2).2 ⟨h0, h1, h2⟩
  simp only [parametricToWorld_of_mask_zero points sp _ _ hm,
    parametricToWorld_of_mask_zero points sp2 _ _ hm2,
    worldToParametric_of_mask_zero points sp _ _ hm,
    worldToParametric_of_mask_zero points sp2 _ _ hm2]
  refine ⟨trivial, trivial, ?_, ?_, ?_, ?_⟩
  · rcases p with ⟨x, y, z⟩
    congr 1 <;> field_simp
  · rcases w with ⟨x, y, z⟩
    congr 1 <;> field_simp
  · congr 1 <;> ring
  · congr 1 <;> ring

/-- C35 witness: the sample voxel with corners `(1, 2, 3)` and `(3, 5, 7)`. -/
theorem C35_voxel_maps_are_inverse_witness :
    sampleVoxel.getValue 6 0 - sampleVoxel.getValue 0 0 ≠ 0 ∧
    sampleVoxel.getValue 6 1 - sampleVoxel.getValue 0 1 ≠ 0 ∧
    sampleVoxel.getValue 6 2 - sampleVoxel.getValue 0 2 ≠ 0 ∧
    (worldToParametric sampleVoxel (fun _ => 0)
      (parametricToWorld sampleVoxel (fun _ => 0) ⟨1 / 2, 1 / 3, 1 / 4⟩ ⟨9, 9, 9⟩).out
      ⟨7, 7, 7⟩).out = ⟨1 / 2, 1 / 3, 1 / 4⟩ ∧
    (parametricToWorld sampleVoxel (fun _ => 0) ⟨1, 1, 1⟩ ⟨9, 9, 9⟩).out =
      ⟨sampleVoxel.getValue 6 0, sampleVoxel.getValue 6 1, sampleVoxel.getValue 6 2⟩ :=
  ⟨by decide!, by decide!, by decide!,
    (C35_voxel_maps_are_inverse sampleVoxel (fun _ => 0) (fun _ => 0) ⟨1 / 2, 1 / 3, 1 / 4⟩
      ⟨0, 0, 0⟩ ⟨7, 7, 7⟩ ⟨9, 9, 9⟩ ⟨7, 7, 7⟩ ⟨9, 9, 9⟩ (by decide!) (by decide!)
      (by decide!)).2.2.1,
    (C35_voxel_maps_are_inverse sampleVoxel (fun _ => 0) (fun _ => 0) ⟨1 / 2, 1 / 3, 1 / 4⟩
      ⟨0, 0, 0⟩ ⟨7, 7, 7⟩ ⟨9, 9, 9⟩ ⟨7, 7, 7⟩ ⟨9, 9, 9⟩ (by decide!) (by decide!)
      (by decide!)).2.2.2.2.2⟩

/-- C36: `getVoxelSpacing` returns a mask below 8 whose bit `i` (`i = 0, 1, 2`) is set
exactly when `points[6][i] - points[0][i]` is zero.  Each of `parametricToWorld`,
`worldToParametric` and `derivative` returns `SUCCESS` when the mask is zero and
`DEGENERATE_CELL_DETECTED` otherwise; when the mask is non-zero its output arguments keep
their prior contents and it makes no division; no division ever has a zero denominator. -/
theorem C36_voxel_degenerate_detection (points : Points F) (sp : Nat → F) (p w : Vec3 F)
    (n : Nat) (pd : Nat → Nat → F) (dx dy dz : Nat → F) :
    (∀ i : Fin 3, Nat.testBit (getVoxelSpacing points sp).1 i.val =
      decide (points.getValue 6 i.val - points.getValue 0 i.val = 0)) ∧
    (getVoxelSpacing points sp).1 < 8 ∧
    (parametricToWorld points sp p w).code =
      (if (getVoxelSpacing points sp).1 = 0 then ErrorCode.SUCCESS
        else ErrorCode.DEGENERATE_CELL_DETECTED) ∧
    ((getVoxelSpacing points sp).1 = 0 ∨
      ((parametricToWorld points sp p w).out = w ∧
        (parametricToWorld points sp p w).divisions = [])) ∧
    (parametricToWorld points sp p w).divisions.all (fun q => decide (q.2 ≠ 0)) = true ∧
    (worldToParametric points sp w p).code =
      (if (getVoxelSpacing points sp).1 = 0 then ErrorCode.SUCCESS
        else ErrorCode.DEGENERATE_CELL_DETECTED) ∧
    ((getVoxelSpacing points sp).1 = 0 ∨
      ((worldToParametric points sp w p).out = p ∧
        (worldToParametric points sp w p).divisions = [])) ∧
    (worldToParametric points sp w p).divisions.all (fun q => decide (q.2 ≠ 0)) = true ∧
    (derivative points sp n pd dx dy dz).code =
      (if (getVoxelSpacing points sp).1 = 0 then ErrorCode.SUCCESS
        else ErrorCode.DEGENERATE_CELL_DETECTED) ∧
    ((getVoxelSpacing points sp).1 = 0 ∨
      ((derivative points sp n pd dx dy dz).dx = dx ∧
        (derivative points sp n pd dx dy dz).dy = dy ∧
        (derivative points sp n pd dx dy dz).dz = dz ∧
        (derivative points sp n pd dx dy dz).divisions = [])) ∧
    (derivative points sp n pd dx dy dz).divisions.all (fun q => decide (q.2 ≠ 0)) = true := by
  refine ⟨getVoxelSpacing_testBit points sp, getVoxelSpacing_mask_lt points sp, ?_⟩
  by_cases hm : (getVoxelSpacing points sp).1 = 0
  · obtain ⟨d0, d1, d2⟩ := (getVoxelSpacing_mask_eq_zero_iff points sp).1 hm
    obtain ⟨e1, e2⟩ := derivative_of_mask_zero points sp n pd dx dy dz hm
    rw [parametricToWorld_of_mask_zero points sp p w hm,
      worldToParametric_of_mask_zero points sp w p hm, if_pos hm]
    refine ⟨rfl, Or.inl hm, rfl, rfl, Or.inl hm, ?_, e1, Or.inl hm, e2⟩
    simp [d0, d1, d2]
  · have e := derivative_of_mask_ne_zero points sp n pd dx dy dz hm
    rw [parametricToWorld_of_mask_ne_zero points sp p w hm,
      worldToParametric_of_mask_ne_zero points sp w p hm, e, if_neg hm]
    exact ⟨rfl, Or.inr ⟨rfl, rfl⟩, rfl, rfl, Or.inr ⟨rfl, rfl⟩, rfl, rfl,
      Or.inr ⟨rfl, rfl, rfl, rfl⟩, rfl⟩

end VoxelClaims

/-! ## Extraction from structured grids -/

section ExtractStructuredClaims

open ExtractStructured

/-- C37 (evaluation at the failing input): for the grid of point dimensions `(2, 3, 1)` the
constructor of `CreateMap` stores `RowSize = 3` and `PlaneSize = 6`.  For the flat index 3,
the point at `(1, 1, 0)`, `operator()` computes the position `(0, 1, 0)`, for which
`i + d0 * j + d0 * d1 * k = 2`, not 3; for the flat index 2, the point at `(0, 1, 0)`, it
computes `(2, 0, 0)`, whose `i` is not below `d0 = 2`.  With the whole grid requested and
sampling rate 1 the points 2 and 5 are not passed. -/
theorem C37_position_uses_wrong_row_size :
    (CreateMap.new ⟨2, 3, 1⟩ (box 0 1 0 2 0 0) ⟨1, 1, 1⟩).RowSize = 3 ∧
    (CreateMap.new ⟨2, 3, 1⟩ (box 0 1 0 2 0 0) ⟨1, 1, 1⟩).PlaneSize = 6 ∧
    (3 : Int) = 1 + 2 * 1 + 2 * 3 * 0 ∧
    (CreateMap.new ⟨2, 3, 1⟩ (box 0 1 0 2 0 0) ⟨1, 1, 1⟩).position 3 = (0, 1, 0) ∧
    (0 : Int) + 2 * 1 + 2 * 3 * 0 ≠ 3 ∧
    (CreateMap.new ⟨2, 3, 1⟩ (box 0 1 0 2 0 0) ⟨1, 1, 1⟩).position 2 = (2, 0, 0) ∧
    ¬ ((2 : Int) < 2) ∧
    PointMap ⟨2, 3, 1⟩ 6 (box 0 1 0 2 0 0) ⟨1, 1, 1⟩ = [1, 1, 0, 1, 1, 0] := by
  refine ⟨by decide, by decide, by decide, by decide!, by decide, by decide!, by decide,
    by decide!⟩

/-- C38 (evaluation at the failing input): on the axis with clipped index range `[0, 3]`
and sampling rate 2, two indices (0 and 2) pass the sampling test, but `ExtractUniform`
computes the output point dimension `4 / 2 + 1 = 3`.  In the grid of point dimensions
`(4, 4, 1)` with the box `[0, 3] x [0, 0] x [0, 0]` and sampling `(2, 1, 1)`, `CreateMap`
passes exactly the two points 0 and 2, while the output dimensions are `(3, 1, 1)`.  For the
range `[0, 4]` the two numbers agree (3). -/
theorem C38_out_dimension_exceeds_pass_count :
    outDimension 2 (box 0 3 0 0 0 0) ⟨2, 1, 1⟩ = ⟨3, 1, 1⟩ ∧
    axisPassCount 0 3 2 = 2 ∧
    PointMap ⟨4, 4, 1⟩ 16 (box 0 3 0 0 0 0) ⟨2, 1, 1⟩ =
      [1, 0, 1, 0, 0, 0, 0, 0, 0, 0, 0, 0, 0, 0, 0, 0] ∧
    (PointMap ⟨4, 4, 1⟩ 16 (box 0 3 0 0 0 0) ⟨2, 1, 1⟩).count 1 = 2 ∧
    (outDimension 2 (box 0 3 0 0 0 0) ⟨2, 1, 1⟩).x ≠ (axisPassCount 0 3 2 : Int) ∧
    outDimension 2 (box 0 4 0 0 0 0) ⟨2, 1, 1⟩ = ⟨3, 1, 1⟩ ∧
    axisPassCount 0 4 2 = 3 := by
  refine ⟨by decide!, by decide!, by decide!, by decide!, by decide!, by decide!, by decide!⟩

theorem raise_eq_max {F : Type} [LinearOrder F] (a b : F) :
    (if a < b then b else a) = max a b := by
  by_cases h : a < b
  · rw [if_pos h, max_eq_right (le_of_lt h)]
  · rw [if_neg h, max_eq_left (not_lt.1 h)]

theorem lower_eq_min {F : Type} [LinearOrder F] (a b : F) :
    (if a > b then b else a) = min a b := by
  by_cases h : a > b
  · rw [if_pos h, min_eq_right (le_of_lt h)]
  · rw [if_neg h, min_eq_left (not_lt.1 h)]

/-- The intersection block of `Run` computes the clipped box. -/
theorem intersectBounds_eq_clippedBox {F : Type} [LinearOrder F]
    (inBounds boundingBox : Bounds F) :
    intersectBounds inBounds boundingBox = clippedBox boundingBox inBounds := by
  rcases boundingBox with ⟨⟨a0, a1⟩, ⟨b0, b1⟩, ⟨c0, c1⟩⟩
  rcases inBounds with ⟨⟨i0, i1⟩, ⟨j0, j1⟩, ⟨k0, k1⟩⟩
  unfold clippedBox
  simp only [← raise_eq_max, ← lower_eq_min]
  unfold intersectBounds
  by_cases h1 : a0 < i0 <;> by_cases h2 : a1 > i1 <;> by_cases h3 : b0 < j0 <;>
    by_cases h4 : b1 > j1 <;> by_cases h5 : c0 < k0 <;> by_cases h6 : c1 > k1 <;>
    simp [h1, h2, h3, h4, h5, h6]

/-- The outcome of `Run` on a structured cell set, by cases. -/
theorem Run_structured {F : Type} [LinearOrder F] (cellSet : CellSetKind) (isUniform : Bool)
    (inBounds boundingBox : Bounds F) (sample : Id3) (hs : cellSet ≠ CellSetKind.Other) :
    Run cellSet isUniform inBounds boundingBox sample =
      if boundingBox.IsNonEmpty = false then
        Except.error (RunError.ErrorBadValue "Requested bounding box is not valid")
      else if sample.x < 1 ∨ sample.y < 1 ∨ sample.z < 1 then
        Except.error (RunError.ErrorBadValue "Requested sampling is not valid")
      else if (clippedBox boundingBox inBounds).IsNonEmpty = false then
        Except.error (RunError.ErrorBadValue "Bounding box does not intersect input")
      else
        Except.ok
          { uniform := isUniform,
            outDim := (match cellSet with
              | .Structured1 => 1
              | .Structured2 => 2
              | _ => 3),
            outBounds := clippedBox boundingBox inBounds, sample := sample } := by
  cases cellSet with
  | Other => exact absurd rfl hs
  | Structured1 => simp only [Run, intersectBounds_eq_clippedBox]; rfl
  | Structured2 => simp only [Run, intersectBounds_eq_clippedBox]; rfl
  | Structured3 => simp only [Run, intersectBounds_eq_clippedBox]; rfl

theorem Range.IsNonEmpty_iff_le {F : Type} [LinearOrder F] (r : Range F) :
    r.IsNonEmpty = true ↔ r.Min ≤ r.Max := by
  simp [Range.IsNonEmpty]

theorem Bounds.IsNonEmpty_iff {F : Type} [LinearOrder F] (b : Bounds F) :
    b.IsNonEmpty = true ↔ (b.X.Min ≤ b.X.Max ∧ b.Y.Min ≤ b.Y.Max ∧ b.Z.Min ≤ b.Z.Max) := by
  simp [Bounds.IsNonEmpty, Range.IsNonEmpty, and_assoc]

/-- C39: for a structured cell set, `Run` throws `ErrorBadValue` exactly when the requested
bounding box is empty, or some sampling rate is below 1, or the requested box clipped to the
input bounds is empty, and it never throws `ErrorBadType`; in every other case it makes one
call of `ExtractUniform` or `ExtractRectilinear` whose bounds are the requested box with
each `Min` raised to the input `Min` and each `Max` lowered to the input `Max`; these bounds
are non-empty and lie inside both the requested box and the input bounds. -/
theorem C39_run_rejects_exactly_bad_requests {F : Type} [LinearOrder F]
    (cellSet : CellSetKind) (isUniform : Bool) (inBounds boundingBox : Bounds F)
    (sample : Id3) (hs : cellSet ≠ CellSetKind.Other) :
    ((∃ message : String, Run cellSet isUniform inBounds boundingBox sample =
        Except.error (RunError.ErrorBadValue message)) ↔
      (boundingBox.IsNonEmpty = false ∨ sample.x < 1 ∨ sample.y < 1 ∨ sample.z < 1 ∨
        (clippedBox boundingBox inBounds).IsNonEmpty = false)) ∧
    (∀ message : String, Run cellSet isUniform inBounds boundingBox sample ≠
        Except.error (RunError.ErrorBadType message)) ∧
    ((boundingBox.IsNonEmpty = false ∨ sample.x < 1 ∨ sample.y < 1 ∨ sample.z < 1 ∨
        (clippedBox boundingBox inBounds).IsNonEmpty = false) ∨
      ((∃ outDim : Id, Run cellSet isUniform inBounds boundingBox sample =
          Except.ok { uniform := isUniform, outDim := outDim,
                      outBounds := clippedBox boundingBox inBounds, sample := sample }) ∧
        (clippedBox boundingBox inBounds).IsNonEmpty = true ∧
        (clippedBox boundingBox inBounds).X.Min ≤ (clippedBox boundingBox inBounds).X.Max ∧
        (clippedBox boundingBox inBounds).Y.Min ≤ (clippedBox boundingBox inBounds).Y.Max ∧
        (clippedBox boundingBox inBounds).Z.Min ≤ (clippedBox boundingBox inBounds).Z.Max ∧
        (boundingBox.X.Min ≤ (clippedBox boundingBox inBounds).X.Min ∧
          (clippedBox boundingBox inBounds).X.Max ≤ boundingBox.X.Max ∧
          boundingBox.Y.Min ≤ (clippedBox boundingBox inBounds).Y.Min ∧
          (clippedBox boundingBox inBounds).Y.Max ≤ boundingBox.Y.Max ∧
          boundingBox.Z.Min ≤ (clippedBox boundingBox inBounds).Z.Min ∧
          (clippedBox boundingBox inBounds).Z.Max ≤ boundingBox.Z.Max) ∧
        (inBounds.X.Min ≤ (clippedBox boundingBox inBounds).X.Min ∧
          (clippedBox boundingBox inBounds).X.Max ≤ inBounds.X.Max ∧
          inBounds.Y.Min ≤ (clippedBox boundingBox inBounds).Y.Min ∧
          (clippedBox boundingBox inBounds).Y.Max ≤ inBounds.Y.Max ∧
          inBounds.Z.Min ≤ (clippedBox boundingBox inBounds).Z.Min ∧
          (clippedBox boundingBox inBounds).Z.Max ≤ inBounds.Z.Max))) := by
  have hrun := Run_structured cellSet isUniform inBounds boundingBox sample hs
  by_cases h1 : boundingBox.IsNonEmpty = false
  · rw [if_pos h1] at hrun
    refine ⟨⟨fun _ => Or.inl h1, fun _ => ⟨_, hrun⟩⟩, ?_, Or.inl (Or.inl h1)⟩
    intro message e
    rw [hrun] at e
    cases e
  · rw [if_neg h1] at hrun
    by_cases h2 : sample.x < 1 ∨ sample.y < 1 ∨ sample.z < 1
    · rw [if_pos h2] at hrun
      refine ⟨⟨fun _ => Or.inr ?_, fun _ => ⟨_, hrun⟩⟩, ?_, Or.inl (Or.inr ?_)⟩
      · rcases h2 with h | h | h
        · exact Or.inl h
        · exact Or.inr (Or.inl h)
        · exact Or.inr (Or.inr (Or.inl h))
      · intro message e
        rw [hrun] at e
        cases e
      · rcases h2 with h | h | h
        · exact Or.inl h
        · exact Or.inr (Or.inl h)
        · exact Or.inr (Or.inr (Or.inl h))
    · rw [if_neg h2] at hrun
      by_cases h3 : (clippedBox boundingBox inBounds).IsNonEmpty = false
      · rw [if_pos h3] at hrun
        refine ⟨⟨fun _ => Or.inr (Or.inr (Or.inr (Or.inr h3))), fun _ => ⟨_, hrun⟩⟩, ?_,
          Or.inl (Or.inr (Or.inr (Or.inr (Or.inr h3))))⟩
        intro message e
        rw [hrun] at e
        cases e
      · rw [if_neg h3] at hrun
        have hne : (clippedBox boundingBox inBounds).IsNonEmpty = true := by
          simpa using h3
        obtain ⟨nx, ny, nz⟩ := (Bounds.IsNonEmpty_iff _).1 hne
        have hx : ¬ sample.x < 1 := fun h => h2 (Or.inl h)
        have hy : ¬ sample.y < 1 := fun h => h2 (Or.inr (Or.inl h))
        have hz : ¬ sample.z < 1 := fun h => h2 (Or.inr (Or.inr h))
        refine ⟨⟨?_, ?_⟩, ?_, Or.inr ⟨⟨_, hrun⟩, hne, nx, ny, nz, ?_, ?_⟩⟩
        · rintro ⟨message, e⟩
          rw [hrun] at e
          cases e
        · rintro (h | h | h | h | h)
          · exact absurd h h1
          · exact absurd h hx
          · exact absurd h hy
          · exact absurd h hz
          · exact absurd h h3
        · intro message e
          rw [hrun] at e
          cases e
        · exact ⟨le_max_left _ _, min_le_left _ _, le_max_left _ _, min_le_left _ _,
            le_max_left _ _, min_le_left _ _⟩
        · exact ⟨le_max_right _ _, min_le_right _ _, le_max_right _ _, min_le_right _ _,
            le_max_right _ _, min_le_right _ _⟩

/-- C39 witness: a three-dimensional structured cell set with input bounds `[0, 9]^3`, the
requested box `[2, 5] x [0, 20] x [-3, 4]` and sampling `(1, 2, 3)`. -/
theorem C39_run_rejects_exactly_bad_requests_witness :
    CellSetKind.Structured3 ≠ CellSetKind.Other ∧
    (∃ outDim : Id,
      Run CellSetKind.Structured3 true (box 0 9 0 9 0 9) (box 2 5 0 20 (-3) 4) ⟨1, 2, 3⟩ =
        Except.ok { uniform := true, outDim := outDim,
                    outBounds := clippedBox (box 2 5 0 20 (-3) 4) (box 0 9 0 9 0 9),
                    sample := ⟨1, 2, 3⟩ }) ∧
    clippedBox (box 2 5 0 20 (-3) 4) (box 0 9 0 9 0 9) = box 2 5 0 9 0 4 ∧
    ((∃ message : String,
        Run CellSetKind.Structured3 true (box 0 9 0 9 0 9) (box 2 5 0 20 (-3) 4) ⟨1, 2, 3⟩ =
          Except.error (RunError.ErrorBadValue message)) ↔
      ((box 2 5 0 20 (-3) 4).IsNonEmpty = false ∨ (1 : Id) < 1 ∨ (2 : Id) < 1 ∨ (3 : Id) < 1 ∨
        (clippedBox (box 2 5 0 20 (-3) 4) (box 0 9 0 9 0 9)).IsNonEmpty = false)) :=
  ⟨by decide,
    ((C39_run_rejects_exactly_bad_requests CellSetKind.Structured3 true (box 0 9 0 9 0 9)
      (box 2 5 0 20 (-3) 4) ⟨1, 2, 3⟩ (by decide)).2.2.resolve_left (by decide)).1,
    by simp [clippedBox, box],
    (C39_run_rejects_exactly_bad_requests CellSetKind.Structured3 true (box 0 9 0 9 0 9)
      (box 2 5 0 20 (-3) 4) ⟨1, 2, 3⟩ (by decide)).1⟩

end ExtractStructuredClaims

/-! ## Rounded arithmetic: the exact definitions, and the search and RK4 in binary32 -/

section RoundedArithmeticClaims

variable {F : Type} [LinearOrderedField F]

theorem Vec3.addRounded_id (a b : Vec3 F) : Vec3.addRounded id a b = a + b := rfl

theorem Vec3.scaleRounded_id (c : F) (v : Vec3 F) : Vec3.scaleRounded id c v = Vec3.scale c v :=
  rfl

theorem Vec3.scaleRightRounded_id (v : Vec3 F) (c : F) :
    Vec3.scaleRightRounded id v c = Vec3.scaleRight v c := rfl

theorem Vec3.divScalarRounded_id (v : Vec3 F) (c : F) :
    Vec3.divScalarRounded id v c = Vec3.divScalar v c := rfl

/-- With the identity as rounding, RK4's rounded `CheckStep` is the exact one. -/
theorem RK4CheckStepRounded_id (obj : ExecObject F) (inpos : Vec3 F) (stepLength time : F)
    (velocity : Vec3 F) :
    obj.RK4CheckStepRounded id inpos stepLength time velocity =
      obj.RK4CheckStep inpos stepLength time velocity := rfl

/-- With the identity as rounding, the rounded `CheckStep` is the exact one. -/
theorem CheckStepRounded_id (obj : ExecObject F) (inpos : Vec3 F) (stepLength time : F)
    (velocity : Vec3 F) :
    obj.CheckStepRounded id inpos stepLength time velocity =
      obj.CheckStep inpos stepLength time velocity := rfl

/-- With the identity as rounding, the rounded `Step` is the exact one. -/
theorem StepRounded_id (obj : ExecObject F) (inpos : Vec3 F) (time : F)
    (outpos velocity : Vec3 F) :
    obj.StepRounded id inpos time outpos velocity = obj.Step inpos time outpos velocity := by
  unfold ExecObject.StepRounded ExecObject.Step
  rw [CheckStepRounded_id]
  rfl

/-- With the identity as rounding, the rounded search loop is the exact one. -/
theorem smallStepLoopRounded_id (obj : ExecObject F) (inpos : Vec3 F) (time : F)
    (fuel : Nat) :
    ∀ (iteration : Id) (st : SmallStepState F),
      obj.smallStepLoopRounded id inpos time fuel iteration st =
        obj.smallStepLoop inpos time fuel iteration st := by
  induction fuel with
  | zero => intro iteration st; rfl
  | succ f ih =>
    intro iteration st
    rw [ExecObject.smallStepLoopRounded, ExecObject.smallStepLoop]
    by_cases hlt : iteration < maxIterations
    · have hfun : obj.smallStepLoopRounded id inpos time f = obj.smallStepLoop inpos time f :=
        funext fun it => funext fun s => ih it s
      rw [if_pos hlt, if_pos hlt, hfun]
      simp only [CheckStepRounded_id]
      rfl
    · rw [if_neg hlt, if_neg hlt]

/-- C22 (as stated, in binary32 arithmetic): an Euler integrator whose step length is the
binary32 number `h = 5033165 / 2^24` (0.3f), on an evaluator that answers `SUCCESS` with
the velocity `(1, 0, 0)` everywhere, started at `p = (0, 0, 0)`, `t = 0`, inside both
bounds.  Every trial of the search loop is accepted, and the accumulated length is
`L = 10066321 / 2^25` (0.29999974), which is above `h * (1 - 1 / 2^20)` (0.29999973),
although still below `h`. -/
theorem C22_counterexample_rounded_length :
    (float32Integrator IntegratorKind.EulerIntegrator
      (constantEvaluator ⟨1, 0, 0⟩ 20) (3 / 10)).kind = IntegratorKind.EulerIntegrator ∧
    (float32Integrator IntegratorKind.EulerIntegrator
      (constantEvaluator ⟨1, 0, 0⟩ 20) (3 / 10)).StepLength = 5033165 / 16777216 ∧
    (0 : ℚ) < 5033165 / 16777216 ∧
    ((⟨1, 0, 0⟩ : Vec3 ℚ) ≠ Vec3.zero) ∧
    (constantEvaluator ⟨1, 0, 0⟩ 20).IsWithinSpatialBoundary ⟨0, 0, 0⟩ = true ∧
    (constantEvaluator ⟨1, 0, 0⟩ 20).IsWithinTemporalBoundary 0 = true ∧
    (constantEvaluator ⟨1, 0, 0⟩ 20).Evaluate ⟨0, 0, 0⟩ 0 ⟨0, 0, 0⟩ =
      (EvaluatorStatus.SUCCESS, ⟨1, 0, 0⟩) ∧
    ((float32Integrator IntegratorKind.EulerIntegrator
        (constantEvaluator ⟨1, 0, 0⟩ 20) (3 / 10)).smallStepLoopRounded roundFloat32
          ⟨0, 0, 0⟩ 0 21 1
          ((float32Integrator IntegratorKind.EulerIntegrator
            (constantEvaluator ⟨1, 0, 0⟩ 20) (3 / 10)).smallStepInit ⟨0, 0, 0⟩ 0
              ⟨0, 0, 0⟩)).map (fun st => (st.optimalLength, st.workpos, st.worktime)) =
      some (10066321 / 33554432, ⟨10066321 / 33554432, 0, 0⟩, 10066321 / 33554432) ∧
    ¬ ((10066321 / 33554432 : ℚ) ≤ 5033165 / 16777216 * (1 - 1 / 2 ^ 20)) ∧
    (10066321 / 33554432 : ℚ) < 5033165 / 16777216 := by
  refine ⟨rfl, by decide!, by decide!, by decide!, by decide!, by decide!, rfl, by decide!,
    by decide!, by decide!⟩

/-- In the box `[0, 10]^3`, the lengths that keep `(0, 0, 0) + (1, 0, 0) * L` inside are
downward closed. -/
theorem constantEvaluator_downward_closed (a b : ℚ) (ha : 0 ≤ a) (hab : a ≤ b)
    (hb : (constantEvaluator ⟨1, 0, 0⟩ 20).IsWithinSpatialBoundary
      (⟨0, 0, 0⟩ + Vec3.scaleRight ⟨1, 0, 0⟩ b) = true) :
    (constantEvaluator ⟨1, 0, 0⟩ 20).IsWithinSpatialBoundary
      (⟨0, 0, 0⟩ + Vec3.scaleRight ⟨1, 0, 0⟩ a) = true := by
  have hb2 : decide (0 ≤ 0 + 1 * b ∧ 0 + 1 * b ≤ 10 ∧ (0 : ℚ) ≤ 0 + 0 * b ∧
      0 + 0 * b ≤ 10 ∧ (0 : ℚ) ≤ 0 + 0 * b ∧ 0 + 0 * b ≤ 10) = true := hb
  show decide (0 ≤ 0 + 1 * a ∧ 0 + 1 * a ≤ 10 ∧ (0 : ℚ) ≤ 0 + 0 * a ∧
      0 + 0 * a ≤ 10 ∧ (0 : ℚ) ≤ 0 + 0 * a ∧ 0 + 0 * a ≤ 10) = true
  rw [decide_eq_true_iff] at hb2 ⊢
  obtain ⟨h1, h2, _⟩ := hb2
  refine ⟨by linarith, by linarith, by norm_num, by norm_num, by norm_num, by norm_num⟩

/-- C23 (as stated, in binary32 arithmetic): an Euler integrator whose step length is the
binary32 number `h = 11744051 / 2^24` (0.7f), on an evaluator that answers `SUCCESS` with
the velocity `(1, 0, 0)` everywhere and has the box `[0, 10]^3` as spatial boundary,
started at `p = (0, 0, 0)`, `t = 0`.  Every point `p + v * (h * m / 2^20)` with `m < 2^20`
is inside the box, so the largest such multiple is `h * (2^20 - 1) / 2^20`; the accumulated
length is `L = 11744039 / 2^24` (0.69999927), which differs from it and is not of the form
`h * m / 2^20` for any natural number `m`. -/
theorem C23_counterexample_rounded_multiple :
    (float32Integrator IntegratorKind.EulerIntegrator
      (constantEvaluator ⟨1, 0, 0⟩ 20) (7 / 10)).kind = IntegratorKind.EulerIntegrator ∧
    (float32Integrator IntegratorKind.EulerIntegrator
      (constantEvaluator ⟨1, 0, 0⟩ 20) (7 / 10)).StepLength = 11744051 / 16777216 ∧
    (0 : ℚ) < 11744051 / 16777216 ∧
    (∀ out : Vec3 ℚ, (constantEvaluator ⟨1, 0, 0⟩ 20).Evaluate ⟨0, 0, 0⟩ 0 out =
      (EvaluatorStatus.SUCCESS, ⟨1, 0, 0⟩)) ∧
    (∀ a b : ℚ, 0 ≤ a → a ≤ b →
      (constantEvaluator ⟨1, 0, 0⟩ 20).IsWithinSpatialBoundary
        (⟨0, 0, 0⟩ + Vec3.scaleRight ⟨1, 0, 0⟩ b) = true →
      (constantEvaluator ⟨1, 0, 0⟩ 20).IsWithinSpatialBoundary
        (⟨0, 0, 0⟩ + Vec3.scaleRight ⟨1, 0, 0⟩ a) = true) ∧
    (constantEvaluator ⟨1, 0, 0⟩ 20).IsWithinSpatialBoundary ⟨0, 0, 0⟩ = true ∧
    (constantEvaluator ⟨1, 0, 0⟩ 20).IsWithinSpatialBoundary
      ((⟨0, 0, 0⟩ : Vec3 ℚ) +
        Vec3.scaleRight ⟨1, 0, 0⟩ (11744051 / 16777216 * ((2 ^ 20 - 1 : Nat) : ℚ) / 2 ^ 20)) =
      true ∧
    ((float32Integrator IntegratorKind.EulerIntegrator
        (constantEvaluator ⟨1, 0, 0⟩ 20) (7 / 10)).smallStepLoopRounded roundFloat32
          ⟨0, 0, 0⟩ 0 21 1
          ((float32Integrator IntegratorKind.EulerIntegrator
            (constantEvaluator ⟨1, 0, 0⟩ 20) (7 / 10)).smallStepInit ⟨0, 0, 0⟩ 0
              ⟨0, 0, 0⟩)).map (fun st => (st.optimalLength, st.workpos, st.worktime)) =
      some (11744039 / 16777216, ⟨11744039 / 16777216, 0, 0⟩, 11744039 / 16777216) ∧
    (11744039 / 16777216 : ℚ) ≠ 11744051 / 16777216 * ((2 ^ 20 - 1 : Nat) : ℚ) / 2 ^ 20 ∧
    ¬ ∃ m : Nat, (11744039 / 16777216 : ℚ) = 11744051 / 16777216 * (m : ℚ) / 2 ^ 20 := by
  refine ⟨rfl, by decide!, by decide!, fun _ => rfl, constantEvaluator_downward_closed,
    by decide!, by decide!, by decide!, by decide!, ?_⟩
  rintro ⟨m, hm⟩
  have h1 : (12314517438464 : ℚ) = 11744051 * (m : ℚ) := by
    field_simp at hm
    linarith
  have h2 : (12314517438464 : Nat) = 11744051 * m := by exact_mod_cast h1
  omega

/-- C25 (as stated, in binary32 arithmetic): an RK4 and an Euler integrator with step
length 1 on an evaluator that answers `SUCCESS` with the velocity `(v, 0, 0)`,
`v = 5033165 / 2^24` (0.3f), at every position and time.  RK4's `CheckStep` returns
`(10066329 / 2^25, 0, 0)` (0.29999998), not the field's velocity, and from `(0, 0, 0)` at
time 0 the RK4 `Step` ends at `(10066329 / 2^25, 0, 0)` while the Euler `Step` ends at
`(5033165 / 2^24, 0, 0)`.  For the velocity `(1, 0, 0)` the two strategies agree also in
binary32 arithmetic: both are at `(10, 0, 0)`, time 10, after ten successful steps. -/
theorem C25_counterexample_rounded_average :
    roundFloat32 (3 / 10) = 5033165 / 16777216 ∧
    (∀ (q : Vec3 ℚ) (s : ℚ) (out : Vec3 ℚ),
      (constantEvaluator ⟨5033165 / 16777216, 0, 0⟩ 20).Evaluate q s out =
        (EvaluatorStatus.SUCCESS, ⟨5033165 / 16777216, 0, 0⟩)) ∧
    ((float32Integrator IntegratorKind.RK4Integrator
        (constantEvaluator ⟨5033165 / 16777216, 0, 0⟩ 20) 1).CheckStepRounded roundFloat32
          ⟨0, 0, 0⟩ 1 0 ⟨0, 0, 0⟩).status = IntegratorStatus.SUCCESS ∧
    ((float32Integrator IntegratorKind.RK4Integrator
        (constantEvaluator ⟨5033165 / 16777216, 0, 0⟩ 20) 1).CheckStepRounded roundFloat32
          ⟨0, 0, 0⟩ 1 0 ⟨0, 0, 0⟩).velocity = ⟨10066329 / 33554432, 0, 0⟩ ∧
    (10066329 / 33554432 : ℚ) ≠ 5033165 / 16777216 ∧
    ((float32Integrator IntegratorKind.RK4Integrator
        (constantEvaluator ⟨5033165 / 16777216, 0, 0⟩ 20) 1).StepRounded roundFloat32
          ⟨0, 0, 0⟩ 0 ⟨9, 9, 9⟩ ⟨0, 0, 0⟩).status = IntegratorStatus.SUCCESS ∧
    ((float32Integrator IntegratorKind.RK4Integrator
        (constantEvaluator ⟨5033165 / 16777216, 0, 0⟩ 20) 1).StepRounded roundFloat32
          ⟨0, 0, 0⟩ 0 ⟨9, 9, 9⟩ ⟨0, 0, 0⟩).outpos = ⟨10066329 / 33554432, 0, 0⟩ ∧
    ((float32Integrator IntegratorKind.EulerIntegrator
        (constantEvaluator ⟨5033165 / 16777216, 0, 0⟩ 20) 1).StepRounded roundFloat32
          ⟨0, 0, 0⟩ 0 ⟨9, 9, 9⟩ ⟨0, 0, 0⟩).status = IntegratorStatus.SUCCESS ∧
    ((float32Integrator IntegratorKind.EulerIntegrator
        (constantEvaluator ⟨5033165 / 16777216, 0, 0⟩ 20) 1).StepRounded roundFloat32
          ⟨0, 0, 0⟩ 0 ⟨9, 9, 9⟩ ⟨0, 0, 0⟩).outpos = ⟨5033165 / 16777216, 0, 0⟩ ∧
    (float32Integrator IntegratorKind.RK4Integrator
        (constantEvaluator ⟨1, 0, 0⟩ 20) 1).advanceStepsRounded roundFloat32 ⟨9, 9, 9⟩
          ⟨0, 0, 0⟩ 10 ⟨0, 0, 0⟩ 0 = some (⟨10, 0, 0⟩, 10) ∧
    (float32Integrator IntegratorKind.EulerIntegrator
        (constantEvaluator ⟨1, 0, 0⟩ 20) 1).advanceStepsRounded roundFloat32 ⟨9, 9, 9⟩
          ⟨0, 0, 0⟩ 10 ⟨0, 0, 0⟩ 0 = some (⟨10, 0, 0⟩, 10) := by
  refine ⟨by decide!, fun _ _ _ => rfl, by decide!, by decide!, by decide!, by decide!,
    by decide!, by decide!, by decide!, by decide!, by decide!⟩

end RoundedArithmeticClaims

end vtkm.worklet.particleadvection
